import Mathlib

/-!
# StagefrightMetadataRetriever: a shallow embedding

Source: `media/libmediaplayerservice/StagefrightMetadataRetriever.cpp`.

The retriever is embedded as explicit state passing over the record `Retriever`
(the C++ member fields).  Every collaborator the file only calls (container
reader, codec registry, decoder components, charset detector, format
conversion) is a parameter: either data carried by the state (`MediaExtractor`)
or a field of the environment record `Env`.  Constants that live in headers
outside this file are the fields of `MediaDefs`.

Conventions.

* A null pointer is `none`.  A member function returns its C++ result paired
  with the state afterwards.
* A decoder object (`FrameDecoder`) is the tuple of its constructor arguments
  plus a private state that only its own operations advance; "the same
  decoder" means the same object, whatever its private state.
* The loops over tracks, candidates and registry slots are recursive
  functions.  The registry probe, a `for (;;)` loop, takes a bound on the
  number of iterations; `hardwareCodecSupportsP010` runs it with a bound it
  never reaches.
* `int` and `int64_t` values are integers.  The one narrowing conversion
  (`mLastDecodedIndex = timeUs`) is `toInt32`; the saturation guard of the
  duration is the one in the source.  Counters (`imageCount`) and the sum
  `mLastDecodedIndex + 1` are the mathematical ones: in C++ they are defined
  only as long as they do not overflow.
* `parseMetaData` contains four `CHECK`s, which abort the process; the
  embedding returns `none` for an abort.
* `LoopResult.constructed` records which decoders a fallback loop constructed.
  It is there for the theorems only and does not influence the results.
-/

namespace StagefrightMetadataRetriever

/-! ## C strings -/

/-- The C library `strncasecmp` on NUL-free strings given as character lists:
compares at most `n` characters, ASCII case folded; the end of a list plays
the role of the terminating NUL. -/
def strncasecmpAux : List Char → List Char → Nat → Int
  | _, _, 0 => 0
  | [], [], _ + 1 => 0
  | [], b :: _, _ + 1 => - (b.toLower.toNat : Int)
  | a :: _, [], _ + 1 => (a.toLower.toNat : Int)
  | a :: as, b :: bs, n + 1 =>
    if a.toLower = b.toLower then strncasecmpAux as bs n
    else (a.toLower.toNat : Int) - (b.toLower.toNat : Int)

/-- The C library `strncasecmp`. -/
def strncasecmp (s1 s2 : String) (n : Nat) : Int :=
  strncasecmpAux s1.data s2.data n

/-- The C library `strcasecmp`: the whole of both strings is compared. -/
def strcasecmp (s1 s2 : String) : Int :=
  strncasecmpAux s1.data s2.data (max s1.data.length s2.data.length + 1)

/-- The C library `strcmp`, used only through `!strcmp(a, b)`. -/
def strcmp (s1 s2 : String) : Int :=
  if s1 = s2 then 0 else if s1 < s2 then -1 else 1

/-! ## Machine integers -/

/-- Largest `int64_t`. -/
def INT64_MAX : Int := 9223372036854775807

/-- Largest `int32_t` / `int`. -/
def INT32_MAX : Int := 2147483647

/-- Smallest `int32_t` / `int`. -/
def INT32_MIN : Int := -2147483648

/-- Conversion of an `int64_t` to `int` (two's complement truncation), as done
by the assignment `mLastDecodedIndex = timeUs`. -/
def toInt32 (v : Int) : Int :=
  (v + 2147483648) % 4294967296 - 2147483648

/-- The text printed by `sprintf` with the integer conversions
(percent-d, percent-lld, percent-zu, PRId64). -/
def sprintfInt (v : Int) : String := toString v

/-! ## MetaData: typed attribute sets of the container and of its tracks -/

/-- The `kKey...` attribute keys of `MetaData.h` that the retriever reads. -/
inductive MetaKey where
  | kKeyMIMEType | kKeyTrackIsDefault
  | kKeyThumbnailHeight | kKeyThumbnailWidth | kKeyTileWidth | kKeyTileHeight
  | kKeyAlbumArt
  | kKeyCDTrackNumber | kKeyDiscNumber | kKeyAlbum | kKeyArtist | kKeyAlbumArtist
  | kKeyAuthor | kKeyComposer | kKeyDate | kKeyGenre | kKeyTitle | kKeyYear
  | kKeyWriter | kKeyCompilation | kKeyLocation
  | kKeyCaptureFramerate
  | kKeyExifOffset | kKeyExifSize | kKeyXmpOffset | kKeyXmpSize
  | kKeyDuration | kKeyBitRate | kKeyBitsPerSample | kKeySampleRate
  | kKeyRotation | kKeyFrameCount | kKeyWidth | kKeyHeight
  | kKeyMediaLanguage
  deriving DecidableEq, Repr

/-- A typed attribute value.  A `float` is kept as its bit pattern; raw `data`
carries its type tag and its bytes. -/
inductive MetaValue where
  | cstring (s : String)
  | int32 (v : Int)
  | int64 (v : Int)
  | float (bits : Nat)
  | data (type : Nat) (bytes : List Nat)
  deriving DecidableEq, Repr

/-- A `MetaData` object: at most one typed value per key (the first entry for
a key is the one that counts). -/
structure MetaData where
  items : List (MetaKey × MetaValue)
  deriving DecidableEq, Repr

namespace MetaData

/-- The entry stored under `key`, if any. -/
def find (m : MetaData) (key : MetaKey) : Option MetaValue :=
  (m.items.find? (fun kv => decide (kv.1 = key))).map Prod.snd

/-- `findCString`: succeeds only for a value of string type. -/
def findCString (m : MetaData) (key : MetaKey) : Option String :=
  match m.find key with
  | some (MetaValue.cstring s) => some s
  | _ => none

/-- `findInt32`: succeeds only for a value of 32-bit integer type. -/
def findInt32 (m : MetaData) (key : MetaKey) : Option Int :=
  match m.find key with
  | some (MetaValue.int32 v) => some v
  | _ => none

/-- `findInt64`: succeeds only for a value of 64-bit integer type. -/
def findInt64 (m : MetaData) (key : MetaKey) : Option Int :=
  match m.find key with
  | some (MetaValue.int64 v) => some v
  | _ => none

/-- `findFloat`: succeeds only for a value of float type. -/
def findFloat (m : MetaData) (key : MetaKey) : Option Nat :=
  match m.find key with
  | some (MetaValue.float b) => some b
  | _ => none

/-- `findData`, which the retriever calls for `kKeyAlbumArt` only: the type
tag and the bytes of a raw data entry. -/
def findData (m : MetaData) (key : MetaKey) : Option (Nat × List Nat) :=
  match m.find key with
  | some (MetaValue.data type bytes) => some (type, bytes)
  | _ => none

/-- `setCString`: replaces whatever was stored under `key`. -/
def setCString (m : MetaData) (key : MetaKey) (s : String) : MetaData :=
  ⟨(key, MetaValue.cstring s) :: m.items.filter (fun kv => decide (kv.1 ≠ key))⟩

end MetaData

/-! ## AMessage: the negotiated format -/

/-- The decode format handed to the codec registry.  Only its 32-bit integer
entries ("profile", "width", "height", "color-standard", ...) are read or
written by the retriever. -/
structure AMessage where
  int32s : List (String × Int)
  deriving DecidableEq, Repr

namespace AMessage

/-- `findInt32(name, &value)`. -/
def findInt32 (m : AMessage) (name : String) : Option Int :=
  (m.int32s.find? (fun kv => decide (kv.1 = name))).map Prod.snd

/-- `setInt32(name, value)`: replaces an existing entry of that name. -/
def setInt32 (m : AMessage) (name : String) (v : Int) : AMessage :=
  ⟨m.int32s.filter (fun kv => decide (kv.1 ≠ name)) ++ [(name, v)]⟩

end AMessage

/-! ## The container reader -/

/-- An opened elementary stream (`IMediaSource`), identified by a number. -/
structure IMediaSource where
  id : Nat
  deriving DecidableEq, Repr

/-- What the container reader answers for one track index. -/
structure Track where
  /-- `getTrackMetaData(i)`; `none` is a null pointer. -/
  meta : Option MetaData
  /-- `getTrackMetaData(i, kIncludeExtensiveMetaData)`. -/
  extensiveMeta : Option MetaData
  /-- `getTrack(i)`. -/
  source : Option IMediaSource
  deriving DecidableEq, Repr

/-- The container reader (`IMediaExtractor`): `countTracks()` is the length of
`tracks`, `getMetaData()` is `fileMeta`. -/
structure MediaExtractor where
  fileMeta : Option MetaData
  tracks : List Track
  deriving DecidableEq, Repr

namespace MediaExtractor

/-- `countTracks()`. -/
def countTracks (e : MediaExtractor) : Nat := e.tracks.length

/-- `getTrackMetaData(i)`. -/
def getTrackMetaData (e : MediaExtractor) (i : Nat) : Option MetaData :=
  (e.tracks.get? i).bind Track.meta

/-- `getTrackMetaData(i, kIncludeExtensiveMetaData)`. -/
def getTrackMetaDataExtensive (e : MediaExtractor) (i : Nat) : Option MetaData :=
  (e.tracks.get? i).bind Track.extensiveMeta

/-- `getTrack(i)`. -/
def getTrack (e : MediaExtractor) (i : Nat) : Option IMediaSource :=
  (e.tracks.get? i).bind Track.source

end MediaExtractor

/-- The bound byte stream (`DataSource`): `getSize` answers `size` (`none`
when it reports an error). -/
structure DataSource where
  id : Nat
  size : Option Int
  deriving DecidableEq, Repr

/-! ## Decoder components -/

/-- A decoded artifact or metadata snapshot handed back to the caller
(`sp<IMemory>`), identified by a number. -/
structure IMemory where
  id : Nat
  deriving DecidableEq, Repr

/-- The crop rectangle of `getImageRectAtIndex`. -/
structure FrameRect where
  left : Int
  top : Int
  right : Int
  bottom : Int
  deriving DecidableEq, Repr

/-- The two decoder classes the retriever instantiates; both are kept in the
single member `sp<FrameDecoder> mDecoder`. -/
inductive DecoderKind where
  | MediaImageDecoder
  | VideoFrameDecoder
  deriving DecidableEq, Repr

/-- A decoder object: the constructor arguments it was built from, which never
change, and `state`, the private state of the object, which only the
decoder's own operations (`Env.init`, `Env.extractFrame`) advance. -/
structure FrameDecoder where
  kind : DecoderKind
  componentName : String
  trackMeta : MetaData
  source : IMediaSource
  state : Nat
  deriving DecidableEq, Repr

/-- The object built by `new MediaImageDecoder(...)` / `new VideoFrameDecoder(...)`. -/
def FrameDecoder.new (kind : DecoderKind) (componentName : String)
    (trackMeta : MetaData) (source : IMediaSource) : FrameDecoder :=
  { kind := kind, componentName := componentName, trackMeta := trackMeta,
    source := source, state := 0 }

/-! ## The codec registry -/

/-- The capability set of one codec for one media type: the colour formats of
`getSupportedColorFormats`. -/
structure Capabilities where
  colorFormats : List Nat
  deriving DecidableEq, Repr

/-- One `MediaCodecInfo`: its name and `getCapabilitiesFor(mime)` (`none` is a
null pointer). -/
structure MediaCodecInfo where
  codecName : String
  getCapabilitiesFor : String → Option Capabilities

/-- One slot of the registry: whether `findCodecByType` reports it for a media
type and direction, and what `getCodecInfo` returns for it (`none` is a null
pointer). -/
structure CodecEntry where
  matchesType : String → Bool → Bool
  info : Option MediaCodecInfo

/-- The codec registry (`IMediaCodecList`). -/
structure IMediaCodecList where
  entries : List CodecEntry

namespace IMediaCodecList

/-- Linear search used by `findCodecByType`: `fuel` slots starting at `i`. -/
def findFrom (l : IMediaCodecList) (mime : String) (encoder : Bool) : Nat → Nat → Int
  | 0, _ => -2
  | fuel + 1, i =>
    match l.entries.get? i with
    | some e => if e.matchesType mime encoder then (i : Int) else findFrom l mime encoder fuel (i + 1)
    | none => -2

/-- Modelled from the spec: `IMediaCodecList::findCodecByType(type, encoder, startIndex)`
is implemented outside this file; the spec describes the registry as an
enumeration of the entries "matching the target MIME in decode direction".
It answers the first matching slot at or after `startIndex`, or a negative
error code when there is none. -/
def findCodecByType (l : IMediaCodecList) (mime : String) (encoder : Bool)
    (startIndex : Nat) : Int :=
  findFrom l mime encoder (l.entries.length - startIndex) startIndex

/-- `getCodecInfo(index)`. -/
def getCodecInfo (l : IMediaCodecList) (index : Nat) : Option MediaCodecInfo :=
  (l.entries.get? index).bind CodecEntry.info

end IMediaCodecList

/-! ## Constants and collaborators -/

/-- Constants of `MediaDefs.h`, `MediaCodecConstants.h`, `MediaSource.h` and
`MediaCodecList.h`; their values are not fixed by this file. -/
structure MediaDefs where
  MEDIA_MIMETYPE_IMAGE_ANDROID_HEIC : String
  MEDIA_MIMETYPE_IMAGE_AVIF : String
  MEDIA_MIMETYPE_VIDEO_HEVC : String
  MEDIA_MIMETYPE_VIDEO_AV1 : String
  MEDIA_MIMETYPE_TEXT_3GPP : String
  HEVCProfileMain10 : Int
  HEVCProfileMain10HDR10 : Int
  HEVCProfileMain10HDR10Plus : Int
  AV1ProfileMain10 : Int
  AV1ProfileMain10HDR10 : Int
  AV1ProfileMain10HDR10Plus : Int
  COLOR_FormatYUVP010 : Nat
  SEEK_FRAME_INDEX : Int
  kPreferSoftwareCodecs : Nat

/-- The values these constants have in the Android headers. -/
def androidDefs : MediaDefs :=
  { MEDIA_MIMETYPE_IMAGE_ANDROID_HEIC := "image/vnd.android.heic"
    MEDIA_MIMETYPE_IMAGE_AVIF := "image/avif"
    MEDIA_MIMETYPE_VIDEO_HEVC := "video/hevc"
    MEDIA_MIMETYPE_VIDEO_AV1 := "video/av01"
    MEDIA_MIMETYPE_TEXT_3GPP := "text/3gpp-tt"
    HEVCProfileMain10 := 0x02
    HEVCProfileMain10HDR10 := 0x1000
    HEVCProfileMain10HDR10Plus := 0x2000
    AV1ProfileMain10 := 0x2
    AV1ProfileMain10HDR10 := 0x1000
    AV1ProfileMain10HDR10Plus := 0x2000
    COLOR_FormatYUVP010 := 54
    SEEK_FRAME_INDEX := 4
    kPreferSoftwareCodecs := 1 }

/-- Everything the retriever calls but does not implement. -/
structure Env where
  defs : MediaDefs
  /-- `convertMetaDataToMessage(meta, &format)`; `none` is a status other than OK. -/
  convertMetaDataToMessage : MetaData → Option AMessage
  /-- `MediaCodecList::getInstance()`; `none` is a null pointer. -/
  codecList : Option IMediaCodecList
  /-- `MediaCodecList::isSoftwareCodec(name)`. -/
  isSoftwareCodec : String → Bool
  /-- `property_get_bool("media.stagefright.thumbnail.prefer_hw_codecs", false)`. -/
  preferhw : Bool
  /-- `MediaCodecList::findMatchingCodecs(mime, encoder, flags, format, &matches)`. -/
  findMatchingCodecs : String → Bool → Nat → AMessage → List String
  /-- `FrameDecoder::getMetadataOnly(trackMeta, colorFormat, thumbnail, bitDepth)`. -/
  getMetadataOnly : MetaData → Int → Bool → Nat → Option IMemory
  /-- `decoder->init(frameTimeUs, option, colorFormat)`: whether the status is
  OK, and the private state of the decoder afterwards. -/
  init : FrameDecoder → Int → Int → Int → Bool × Nat
  /-- `decoder->extractFrame(rect)`: the artifact (`none` is a null pointer)
  and the private state of the decoder afterwards. -/
  extractFrame : FrameDecoder → Option FrameRect → Option IMemory × Nat
  /-- `CharacterEncodingDetector`: from the tags added with `addTag`, in order,
  to the tags read back with `getTag` after `detectAndConvert`. -/
  detectAndConvert : List (String × String) → List (String × String)
  /-- The text `sprintf` prints for a float with the f conversion. -/
  sprintfFloat : Nat → String
  /-- The double precision expression `(int64_t)(sourceSize * 8E6 / maxDurationUs)`. -/
  avgBitRate : Int → Int → Int
  /-- `PlayerServiceDataSourceFactory::CreateFromURI(httpService, uri, headers)`; the
  HTTP service and the headers are part of the environment. -/
  createFromURI : String → Option DataSource
  /-- `new PlayerServiceFileSource(fd, offset, length)` on the duplicated
  descriptor: the source and the status of its `initCheck()`. -/
  createFileSource : Int → Int → Int → DataSource × Int
  /-- `MediaExtractorFactory::Create(source, mime)`; `none` is a null pointer. -/
  createExtractor : DataSource → Option String → Option MediaExtractor

/-! ## The retriever state -/

/-- The `METADATA_KEY_...` key codes of `mediametadataretriever.h` that the
retriever writes. -/
inductive MetadataKey where
  | METADATA_KEY_CD_TRACK_NUMBER | METADATA_KEY_ALBUM | METADATA_KEY_ARTIST
  | METADATA_KEY_AUTHOR | METADATA_KEY_COMPOSER | METADATA_KEY_DATE
  | METADATA_KEY_GENRE | METADATA_KEY_TITLE | METADATA_KEY_YEAR
  | METADATA_KEY_DURATION | METADATA_KEY_NUM_TRACKS | METADATA_KEY_WRITER
  | METADATA_KEY_MIMETYPE | METADATA_KEY_ALBUMARTIST | METADATA_KEY_DISC_NUMBER
  | METADATA_KEY_COMPILATION | METADATA_KEY_HAS_AUDIO | METADATA_KEY_HAS_VIDEO
  | METADATA_KEY_VIDEO_WIDTH | METADATA_KEY_VIDEO_HEIGHT | METADATA_KEY_BITRATE
  | METADATA_KEY_TIMED_TEXT_LANGUAGES | METADATA_KEY_LOCATION
  | METADATA_KEY_VIDEO_ROTATION | METADATA_KEY_CAPTURE_FRAMERATE
  | METADATA_KEY_HAS_IMAGE | METADATA_KEY_IMAGE_COUNT | METADATA_KEY_IMAGE_PRIMARY
  | METADATA_KEY_IMAGE_WIDTH | METADATA_KEY_IMAGE_HEIGHT | METADATA_KEY_IMAGE_ROTATION
  | METADATA_KEY_VIDEO_FRAME_COUNT | METADATA_KEY_EXIF_OFFSET | METADATA_KEY_EXIF_LENGTH
  | METADATA_KEY_COLOR_STANDARD | METADATA_KEY_COLOR_TRANSFER | METADATA_KEY_COLOR_RANGE
  | METADATA_KEY_SAMPLERATE | METADATA_KEY_BITS_PER_SAMPLE
  | METADATA_KEY_VIDEO_CODEC_MIME_TYPE | METADATA_KEY_XMP_OFFSET | METADATA_KEY_XMP_LENGTH
  deriving DecidableEq, Repr

/-- The dictionary `KeyedVector<int, String8> mMetaData`: at most one value
per key. -/
structure KeyedVector where
  items : List (MetadataKey × String)
  deriving DecidableEq, Repr

namespace KeyedVector

/-- `clear()` leaves the empty vector. -/
def empty : KeyedVector := ⟨[]⟩

/-- Replace the value of `key` in a list of entries, if the key occurs. -/
def replace (key : MetadataKey) (value : String) :
    List (MetadataKey × String) → List (MetadataKey × String)
  | [] => []
  | kv :: rest =>
    if kv.1 = key then (key, value) :: rest else kv :: replace key value rest

/-- `add(key, value)`: a key already present has its value replaced, a new key
is inserted. -/
def add (v : KeyedVector) (key : MetadataKey) (value : String) : KeyedVector :=
  if v.items.any (fun kv => decide (kv.1 = key)) then ⟨replace key value v.items⟩
  else ⟨v.items ++ [(key, value)]⟩

/-- `indexOfKey(key)` followed by `valueAt(index)`: the value stored for
`key`, `none` when `indexOfKey` is negative. -/
def valueFor (v : KeyedVector) (key : MetadataKey) : Option String :=
  (v.items.find? (fun kv => decide (kv.1 = key))).map Prod.snd

end KeyedVector

/-- The member fields of `StagefrightMetadataRetriever`. -/
structure Retriever where
  mSource : Option DataSource
  mExtractor : Option MediaExtractor
  mParsedMetaData : Bool
  mMetaData : KeyedVector
  /-- `MediaAlbumArt *mAlbumArt`: the bytes of the art, `none` is NULL. -/
  mAlbumArt : Option (List Nat)
  /-- `sp<FrameDecoder> mDecoder`; `none` is the null pointer. -/
  mDecoder : Option FrameDecoder
  mLastDecodedIndex : Int
  deriving DecidableEq, Repr

/-- The state the constructor leaves. -/
def Retriever.new : Retriever :=
  { mSource := none, mExtractor := none, mParsedMetaData := false,
    mMetaData := KeyedVector.empty, mAlbumArt := none,
    mDecoder := none, mLastDecodedIndex := -1 }

/-! ## getImageInternal -/

/-- The C condition `meta->findInt32(key, &v) && v`: the value was found and
is not zero. -/
def isTrue32 : Option Int → Bool
  | some v => decide (v ≠ 0)
  | none => false

/-- The track scan of `getImageInternal` (the `for` loop over `i`): the value
of `i` when the loop is left, counting from `i` over the remaining `tracks`;
it equals `n` when no track made the loop break. -/
def imageTrackLoop (index : Int) : List Track → Nat → Int → Nat
  | [], i, _ => i
  | t :: rest, i, imageCount =>
    match t.meta with
    | none => imageTrackLoop index rest (i + 1) imageCount
    | some meta =>
      match meta.findCString MetaKey.kKeyMIMEType with
      | some mime =>
        if strncasecmp mime "image/" 6 = 0 then
          if (decide (index < 0) && isTrue32 (meta.findInt32 MetaKey.kKeyTrackIsDefault))
              || decide (index = imageCount) then i
          else imageTrackLoop index rest (i + 1) (imageCount + 1)
        else imageTrackLoop index rest (i + 1) imageCount
      | none => imageTrackLoop index rest (i + 1) imageCount

/-- The MIME substitution of `getImageInternal` for still images carried in a
video codec: the MIME to decode with, the (possibly derived) track attributes,
and `isHeif`. -/
def remapImageMime (d : MediaDefs) (mime : String) (trackMeta : MetaData) :
    String × MetaData × Bool :=
  if strcasecmp mime d.MEDIA_MIMETYPE_IMAGE_ANDROID_HEIC = 0 then
    (d.MEDIA_MIMETYPE_VIDEO_HEVC,
      trackMeta.setCString MetaKey.kKeyMIMEType d.MEDIA_MIMETYPE_VIDEO_HEVC, true)
  else if strcasecmp mime d.MEDIA_MIMETYPE_IMAGE_AVIF = 0 then
    (d.MEDIA_MIMETYPE_VIDEO_AV1,
      trackMeta.setCString MetaKey.kKeyMIMEType d.MEDIA_MIMETYPE_VIDEO_AV1, true)
  else (mime, trackMeta, false)

/-- The value of `bitDepth` after the profile test of `getImageInternal`:
8, raised to 10 for the Main10 profiles of HEVC and AV1. -/
def profileBitDepth (d : MediaDefs) (mime : String) (format : AMessage) : Nat :=
  if strcasecmp mime d.MEDIA_MIMETYPE_VIDEO_HEVC = 0 then
    match format.findInt32 "profile" with
    | some profile =>
      if d.HEVCProfileMain10 = profile ∨ d.HEVCProfileMain10HDR10 = profile ∨
          d.HEVCProfileMain10HDR10Plus = profile then 10 else 8
    | none => 8
  else if strcasecmp mime d.MEDIA_MIMETYPE_VIDEO_AV1 = 0 then
    match format.findInt32 "profile" with
    | some profile =>
      if d.AV1ProfileMain10 = profile ∨ d.AV1ProfileMain10HDR10 = profile ∨
          d.AV1ProfileMain10HDR10Plus = profile then 10 else 8
    | none => 8
  else 8

/-- The inner loop over `colors`: starting from `false`, the flag becomes
`true` when one of the colour formats is `COLOR_FormatYUVP010`. -/
def colorsHaveP010 (d : MediaDefs) : List Nat → Bool
  | [] => false
  | color :: rest => if color = d.COLOR_FormatYUVP010 then true else colorsHaveP010 d rest

/-- The `for (;;)` loop of the capability probe, run for at most `fuel`
iterations: `index` is the next start slot, the last argument is the current
value of `hardwareCodecSupportsP010`, the result is its value when the loop is
left. -/
def p010ProbeLoop (env : Env) (list : IMediaCodecList) (mime : String) :
    Nat → Nat → Bool → Bool
  | 0, _, hardwareCodecSupportsP010 => hardwareCodecSupportsP010
  | fuel + 1, index, hardwareCodecSupportsP010 =>
    let matchIndex := list.findCodecByType mime false index
    if matchIndex < 0 then hardwareCodecSupportsP010
    else
      match list.getCodecInfo matchIndex.toNat with
      | none => p010ProbeLoop env list mime fuel (matchIndex.toNat + 1) hardwareCodecSupportsP010
      | some info =>
        if env.isSoftwareCodec info.codecName then
          p010ProbeLoop env list mime fuel (matchIndex.toNat + 1) hardwareCodecSupportsP010
        else
          match info.getCapabilitiesFor mime with
          | none =>
            p010ProbeLoop env list mime fuel (matchIndex.toNat + 1) hardwareCodecSupportsP010
          | some caps =>
            if colorsHaveP010 env.defs caps.colorFormats then
              p010ProbeLoop env list mime fuel (matchIndex.toNat + 1) true
            else false

/-- The value of `hardwareCodecSupportsP010` after the probe.  Every iteration
moves `index` past the slot it examined, so one iteration per registry slot
and a last one that finds nothing are enough. -/
def hardwareCodecSupportsP010 (env : Env) (mime : String) : Bool :=
  match env.codecList with
  | some list => p010ProbeLoop env list mime (list.entries.length + 1) 0 true
  | none => true

/-- The `if (bitDepth == 10)` block of `getImageInternal`: the value of
`bitDepth` after it. -/
def restrictBitDepth (env : Env) (mime : String) (bitDepth : Nat) : Nat :=
  if bitDepth = 10 then
    if !hardwareCodecSupportsP010 env mime then 8 else bitDepth
  else bitDepth

/-- The final value of the local `bitDepth` of `getImageInternal`. -/
def imageBitDepth (env : Env) (mime : String) (format : AMessage) : Nat :=
  restrictBitDepth env mime (profileBitDepth env.defs mime format)

/-- The thumbnail override of the negotiated width and height. -/
def thumbnailDimensions (trackMeta : MetaData) (format : AMessage) (thumbnail : Bool) :
    AMessage :=
  if thumbnail then
    match trackMeta.findInt32 MetaKey.kKeyThumbnailHeight,
          trackMeta.findInt32 MetaKey.kKeyThumbnailWidth with
    | some thumbHeight, some thumbWidth =>
      (format.setInt32 "height" thumbHeight).setInt32 "width" thumbWidth
    | _, _ => format
  else format

/-- The tile override of the negotiated width and height. -/
def tileDimensions (trackMeta : MetaData) (format : AMessage) (thumbnail isHeif : Bool) :
    AMessage :=
  if !thumbnail && isHeif then
    match trackMeta.findInt32 MetaKey.kKeyTileWidth with
    | some tileWidth =>
      if 0 < tileWidth then
        match trackMeta.findInt32 MetaKey.kKeyTileHeight with
        | some tileHeight =>
          if 0 < tileHeight then
            (format.setInt32 "height" tileHeight).setInt32 "width" tileWidth
          else format
        | none => format
      else format
    | none => format
  else format

/-- What a fallback loop leaves behind: the returned artifact, the retriever
state, and (for reasoning only) the decoders that were constructed, in the
order of construction. -/
structure LoopResult where
  frame : Option IMemory
  state : Retriever
  constructed : List FrameDecoder

/-- The decoder fallback loop of `getImageInternal` over `matchingCodecs`. -/
def imageDecodeLoop (env : Env) (trackMeta : MetaData) (source : IMediaSource)
    (index colorFormat : Int) (thumbnail : Bool) (rect : Option FrameRect)
    (r : Retriever) : List String → LoopResult
  | [] => { frame := none, state := r, constructed := [] }
  | componentName :: rest =>
    let decoder := FrameDecoder.new DecoderKind.MediaImageDecoder componentName trackMeta source
    let frameTimeUs : Int := if thumbnail then -1 else 0
    let initialized := env.init decoder frameTimeUs 0 colorFormat
    let decoder1 := { decoder with state := initialized.2 }
    let next := imageDecodeLoop env trackMeta source index colorFormat thumbnail rect r rest
    if initialized.1 then
      let extracted := env.extractFrame decoder1 rect
      let decoder2 := { decoder1 with state := extracted.2 }
      match extracted.1 with
      | some frame =>
        { frame := some frame
          state := if rect.isSome then
              { r with mDecoder := some decoder2, mLastDecodedIndex := index }
            else r
          constructed := [decoder] }
      | none => { next with constructed := decoder :: next.constructed }
    else { next with constructed := decoder :: next.constructed }

/-- The part of `getImageInternal` that follows the track scan, for the
selected track `i`: format negotiation, bit-depth probe, metadata-only answer
or decoder fallback.  `r0` is the state with the cache already emptied. -/
def decodeImageTrack (env : Env) (r0 : Retriever) (extractor : MediaExtractor) (i : Nat)
    (index colorFormat : Int) (metaOnly thumbnail : Bool) (rect : Option FrameRect) :
    Option IMemory × Retriever :=
  match extractor.getTrackMetaData i with
  | none => (none, r0)
  | some trackMeta0 =>
    match trackMeta0.findCString MetaKey.kKeyMIMEType with
    | none => (none, r0)
    | some mime0 =>
      let remapped := remapImageMime env.defs mime0 trackMeta0
      let mime := remapped.1
      let trackMeta := remapped.2.1
      let isHeif := remapped.2.2
      match env.convertMetaDataToMessage trackMeta with
      | none => (none, r0)
      | some format0 =>
        let bitDepth := imageBitDepth env mime format0
        if metaOnly then
          (env.getMetadataOnly trackMeta colorFormat thumbnail bitDepth, r0)
        else
          match extractor.getTrack i with
          | none => (none, r0)
          | some source =>
            let flags := if env.preferhw then 0 else env.defs.kPreferSoftwareCodecs
            let format := tileDimensions trackMeta
              (thumbnailDimensions trackMeta format0 thumbnail) thumbnail isHeif
            let matchingCodecs := env.findMatchingCodecs mime false flags format
            let res := imageDecodeLoop env trackMeta source index colorFormat
              thumbnail rect r0 matchingCodecs
            (res.frame, res.state)

/-- The member function `getImageInternal`: the returned `sp<IMemory>` (`none`
is NULL) and the retriever state afterwards. -/
def getImageInternal (env : Env) (r : Retriever) (index colorFormat : Int)
    (metaOnly thumbnail : Bool) (rect : Option FrameRect) : Option IMemory × Retriever :=
  let r0 := { r with mDecoder := none, mLastDecodedIndex := -1 }
  match r0.mExtractor with
  | none => (none, r0)
  | some extractor =>
    let n := extractor.countTracks
    let i := imageTrackLoop index extractor.tracks 0 0
    if i = n then (none, r0)
    else decodeImageTrack env r0 extractor i index colorFormat metaOnly thumbnail rect

/-- The member function `getImageAtIndex`. -/
def getImageAtIndex (env : Env) (r : Retriever) (index colorFormat : Int)
    (metaOnly thumbnail : Bool) : Option IMemory × Retriever :=
  getImageInternal env r index colorFormat metaOnly thumbnail none

/-- The member function `getImageRectAtIndex`. -/
def getImageRectAtIndex (env : Env) (r : Retriever) (index colorFormat : Int)
    (left top right bottom : Int) : Option IMemory × Retriever :=
  let rect : FrameRect := { left := left, top := top, right := right, bottom := bottom }
  match r.mDecoder with
  | some decoder =>
    if index = r.mLastDecodedIndex then
      let extracted := env.extractFrame decoder (some rect)
      (extracted.1, { r with mDecoder := some { decoder with state := extracted.2 } })
    else getImageInternal env r index colorFormat false false (some rect)
  | none => getImageInternal env r index colorFormat false false (some rect)

/-! ## getFrameInternal -/

/-- The track scan of `getFrameInternal`: the value of `i` when the loop is
left. -/
def videoTrackLoop : List Track → Nat → Nat
  | [], i => i
  | t :: rest, i =>
    match t.meta with
    | none => videoTrackLoop rest (i + 1)
    | some meta =>
      match meta.findCString MetaKey.kKeyMIMEType with
      | some mime =>
        if strncasecmp mime "video/" 6 = 0 then i else videoTrackLoop rest (i + 1)
      | none => videoTrackLoop rest (i + 1)

/-- The decoder fallback loop of `getFrameInternal` over `matchingCodecs`. -/
def frameDecodeLoop (env : Env) (trackMeta : MetaData) (source : IMediaSource)
    (timeUs option colorFormat : Int) (r : Retriever) : List String → LoopResult
  | [] => { frame := none, state := r, constructed := [] }
  | componentName :: rest =>
    let decoder := FrameDecoder.new DecoderKind.VideoFrameDecoder componentName trackMeta source
    let initialized := env.init decoder timeUs option colorFormat
    let decoder1 := { decoder with state := initialized.2 }
    let next := frameDecodeLoop env trackMeta source timeUs option colorFormat r rest
    if initialized.1 then
      let extracted := env.extractFrame decoder1 none
      let decoder2 := { decoder1 with state := extracted.2 }
      match extracted.1 with
      | some frame =>
        { frame := some frame
          state := if option = env.defs.SEEK_FRAME_INDEX then
              { r with mDecoder := some decoder2, mLastDecodedIndex := toInt32 timeUs }
            else r
          constructed := [decoder] }
      | none => { next with constructed := decoder :: next.constructed }
    else { next with constructed := decoder :: next.constructed }

/-- The album art block shared by `getFrameInternal` and `parseMetaData`:
art found in the container attributes is kept unless art is already held. -/
def captureAlbumArt (meta : MetaData) (r : Retriever) : Retriever :=
  match meta.findData MetaKey.kKeyAlbumArt, r.mAlbumArt with
  | some art, none => { r with mAlbumArt := some art.2 }
  | _, _ => r

/-- The member function `getFrameInternal`. -/
def getFrameInternal (env : Env) (r : Retriever) (timeUs option colorFormat : Int)
    (metaOnly : Bool) : Option IMemory × Retriever :=
  let r0 := { r with mDecoder := none, mLastDecodedIndex := -1 }
  match r0.mExtractor with
  | none => (none, r0)
  | some extractor =>
    match extractor.fileMeta with
    | none => (none, r0)
    | some fileMeta =>
      let n := extractor.countTracks
      let i := videoTrackLoop extractor.tracks 0
      if i = n then (none, r0)
      else
        match extractor.getTrackMetaDataExtensive i with
        | none => (none, r0)
        | some trackMeta =>
          if metaOnly then (env.getMetadataOnly trackMeta colorFormat false 0, r0)
          else
            match extractor.getTrack i with
            | none => (none, r0)
            | some source =>
              let r1 := captureAlbumArt fileMeta r0
              match trackMeta.findCString MetaKey.kKeyMIMEType with
              | none => (none, r1)
              | some mime =>
                let flags := if env.preferhw then 0 else env.defs.kPreferSoftwareCodecs
                match env.convertMetaDataToMessage trackMeta with
                | none => (none, r1)
                | some format =>
                  let matchingCodecs := env.findMatchingCodecs mime false flags format
                  let res := frameDecodeLoop env trackMeta source timeUs option colorFormat
                    r1 matchingCodecs
                  (res.frame, res.state)

/-- The member function `getFrameAtTime`. -/
def getFrameAtTime (env : Env) (r : Retriever) (timeUs option colorFormat : Int)
    (metaOnly : Bool) : Option IMemory × Retriever :=
  getFrameInternal env r timeUs option colorFormat metaOnly

/-- The member function `getFrameAtIndex`.  `frameIndex` and
`mLastDecodedIndex` are of type `int`; the sum `mLastDecodedIndex + 1` is the
mathematical one, the C++ sum being defined only when it does not overflow. -/
def getFrameAtIndex (env : Env) (r : Retriever) (frameIndex colorFormat : Int)
    (metaOnly : Bool) : Option IMemory × Retriever :=
  match r.mDecoder with
  | some decoder =>
    if frameIndex = r.mLastDecodedIndex + 1 then
      let extracted := env.extractFrame decoder none
      let r1 := { r with mDecoder := some { decoder with state := extracted.2 } }
      match extracted.1 with
      | some frame => (some frame, { r1 with mLastDecodedIndex := frameIndex })
      | none => (none, r1)
    else getFrameInternal env r frameIndex env.defs.SEEK_FRAME_INDEX colorFormat metaOnly
  | none => getFrameInternal env r frameIndex env.defs.SEEK_FRAME_INDEX colorFormat metaOnly

/-! ## parseMetaData -/

/-- One row of the table `kMap`: container attribute, dictionary key, and the
tag name under which the value goes through the charset detector (`none` for
a value copied directly). -/
structure Map where
  fromKey : MetaKey
  toKey : MetadataKey
  name : Option String

/-- The table `kMap`. -/
def kMap : List Map :=
  [ ⟨MetaKey.kKeyMIMEType, MetadataKey.METADATA_KEY_MIMETYPE, none⟩,
    ⟨MetaKey.kKeyCDTrackNumber, MetadataKey.METADATA_KEY_CD_TRACK_NUMBER, some "tracknumber"⟩,
    ⟨MetaKey.kKeyDiscNumber, MetadataKey.METADATA_KEY_DISC_NUMBER, some "discnumber"⟩,
    ⟨MetaKey.kKeyAlbum, MetadataKey.METADATA_KEY_ALBUM, some "album"⟩,
    ⟨MetaKey.kKeyArtist, MetadataKey.METADATA_KEY_ARTIST, some "artist"⟩,
    ⟨MetaKey.kKeyAlbumArtist, MetadataKey.METADATA_KEY_ALBUMARTIST, some "albumartist"⟩,
    ⟨MetaKey.kKeyAuthor, MetadataKey.METADATA_KEY_AUTHOR, none⟩,
    ⟨MetaKey.kKeyComposer, MetadataKey.METADATA_KEY_COMPOSER, some "composer"⟩,
    ⟨MetaKey.kKeyDate, MetadataKey.METADATA_KEY_DATE, none⟩,
    ⟨MetaKey.kKeyGenre, MetadataKey.METADATA_KEY_GENRE, some "genre"⟩,
    ⟨MetaKey.kKeyTitle, MetadataKey.METADATA_KEY_TITLE, some "title"⟩,
    ⟨MetaKey.kKeyYear, MetadataKey.METADATA_KEY_YEAR, some "year"⟩,
    ⟨MetaKey.kKeyWriter, MetadataKey.METADATA_KEY_WRITER, some "writer"⟩,
    ⟨MetaKey.kKeyCompilation, MetadataKey.METADATA_KEY_COMPILATION, some "compilation"⟩,
    ⟨MetaKey.kKeyLocation, MetadataKey.METADATA_KEY_LOCATION, none⟩ ]

/-- The first loop over `kMap`: the tags added to the detector so far and the
dictionary, after the rows in the list have been handled. -/
def copyContainerFields (meta : MetaData) :
    List Map → List (String × String) × KeyedVector → List (String × String) × KeyedVector
  | [], acc => acc
  | row :: rest, acc =>
    match meta.findCString row.fromKey with
    | some value =>
      match row.name with
      | some name => copyContainerFields meta rest (acc.1 ++ [(name, value)], acc.2)
      | none => copyContainerFields meta rest (acc.1, acc.2.add row.toKey value)
    | none => copyContainerFields meta rest acc

/-- The inner loop over `kMap` for one tag read back from the detector. -/
def addDetectedTag (name value : String) : List Map → KeyedVector → KeyedVector
  | [], m => m
  | row :: rest, m =>
    match row.name with
    | some rowName =>
      if strcmp rowName name = 0 then addDetectedTag name value rest (m.add row.toKey value)
      else addDetectedTag name value rest m
    | none => addDetectedTag name value rest m

/-- The loop over the tags read back from the detector. -/
def addDetectedTags : List (String × String) → KeyedVector → KeyedVector
  | [], m => m
  | tag :: rest, m => addDetectedTags rest (addDetectedTag tag.1 tag.2 kMap m)

/-- The member function `parseColorAspects`, as a function of the dictionary. -/
def parseColorAspects (env : Env) (meta : MetaData) (m : KeyedVector) : KeyedVector :=
  match env.convertMetaDataToMessage meta with
  | none => m
  | some format =>
    match format.findInt32 "color-standard", format.findInt32 "color-transfer",
          format.findInt32 "color-range" with
    | some standard, some transfer, some range =>
      ((m.add MetadataKey.METADATA_KEY_COLOR_STANDARD (sprintfInt standard)).add
        MetadataKey.METADATA_KEY_COLOR_TRANSFER (sprintfInt transfer)).add
        MetadataKey.METADATA_KEY_COLOR_RANGE (sprintfInt range)
    | _, _, _ => m

/-- The local variables of `parseMetaData` that the loop over the tracks
updates, together with the dictionary. -/
structure TrackScan where
  hasAudio : Bool
  hasVideo : Bool
  videoWidth : Int
  videoHeight : Int
  videoFrameCount : Int
  audioBitrate : Int
  rotationAngle : Int
  imageCount : Int
  imagePrimary : Int
  imageWidth : Int
  imageHeight : Int
  imageRotation : Int
  maxDurationUs : Int
  timedTextLang : String
  videoMime : String
  mMetaData : KeyedVector

/-- The values of the locals before the loop over the tracks. -/
def TrackScan.start (m : KeyedVector) : TrackScan :=
  { hasAudio := false, hasVideo := false, videoWidth := -1, videoHeight := -1,
    videoFrameCount := 0, audioBitrate := -1, rotationAngle := -1, imageCount := 0,
    imagePrimary := -1, imageWidth := -1, imageHeight := -1, imageRotation := -1,
    maxDurationUs := 0, timedTextLang := "", videoMime := "", mMetaData := m }

/-- The out-parameter convention of `findInt32(key, &x)`: `x` keeps its old
value when the key is not found. -/
def outParam (found : Option Int) (old : Int) : Int :=
  match found with
  | some v => v
  | none => old

/-- The audio branch of the loop body. -/
def scanAudioTrack (trackMeta : MetaData) (s : TrackScan) : TrackScan :=
  let audioBitrate := outParam (trackMeta.findInt32 MetaKey.kKeyBitRate) (-1)
  let bitsPerSample := outParam (trackMeta.findInt32 MetaKey.kKeyBitsPerSample) (-1)
  let sampleRate := outParam (trackMeta.findInt32 MetaKey.kKeySampleRate) (-1)
  let m1 := if 0 ≤ bitsPerSample then
      s.mMetaData.add MetadataKey.METADATA_KEY_BITS_PER_SAMPLE (sprintfInt bitsPerSample)
    else s.mMetaData
  let m2 := if 0 ≤ sampleRate then
      m1.add MetadataKey.METADATA_KEY_SAMPLERATE (sprintfInt sampleRate)
    else m1
  { s with hasAudio := true, audioBitrate := audioBitrate, mMetaData := m2 }

/-- The video branch of the loop body. -/
def scanVideoTrack (env : Env) (trackMeta : MetaData) (mime : String) (s : TrackScan) :
    TrackScan :=
  let rotationAngle := outParam (trackMeta.findInt32 MetaKey.kKeyRotation) 0
  let videoFrameCount := outParam (trackMeta.findInt32 MetaKey.kKeyFrameCount) 0
  let s1 := { s with rotationAngle := rotationAngle, videoFrameCount := videoFrameCount }
  match trackMeta.findInt32 MetaKey.kKeyWidth with
  | some videoWidth =>
    match trackMeta.findInt32 MetaKey.kKeyHeight with
    | some videoHeight =>
      { s1 with videoWidth := videoWidth, videoHeight := videoHeight, hasVideo := true,
                videoMime := mime, mMetaData := parseColorAspects env trackMeta s1.mMetaData }
    | none => { s1 with videoWidth := videoWidth }
  | none => s1

/-- The image branch of the loop body. -/
def scanImageTrack (trackMeta : MetaData) (s : TrackScan) : TrackScan :=
  let s2 :=
    if isTrue32 (trackMeta.findInt32 MetaKey.kKeyTrackIsDefault) then
      let s1 := { s with imageRotation := outParam (trackMeta.findInt32 MetaKey.kKeyRotation) 0 }
      match trackMeta.findInt32 MetaKey.kKeyWidth with
      | some imageWidth =>
        match trackMeta.findInt32 MetaKey.kKeyHeight with
        | some imageHeight =>
          { s1 with imageWidth := imageWidth, imageHeight := imageHeight,
                    imagePrimary := s1.imageCount }
        | none => { s1 with imageWidth := imageWidth }
      | none => s1
    else s
  { s2 with imageCount := s2.imageCount + 1 }

/-- The timed text branch of the loop body. -/
def scanTextTrack (trackMeta : MetaData) (s : TrackScan) : TrackScan :=
  match trackMeta.findCString MetaKey.kKeyMediaLanguage with
  | some lang => { s with timedTextLang := (s.timedTextLang ++ lang) ++ ":" }
  | none => s

/-- One iteration of the loop over the tracks of `parseMetaData`. -/
def scanTrack (env : Env) (s : TrackScan) (t : Track) : TrackScan :=
  match t.meta with
  | none => s
  | some trackMeta =>
    let s1 :=
      match trackMeta.findInt64 MetaKey.kKeyDuration with
      | some durationUs =>
        if durationUs > s.maxDurationUs then { s with maxDurationUs := durationUs } else s
      | none => s
    match trackMeta.findCString MetaKey.kKeyMIMEType with
    | none => s1
    | some mime =>
      if !s1.hasAudio && decide (strncasecmp "audio/" mime 6 = 0) then
        scanAudioTrack trackMeta s1
      else if !s1.hasVideo && decide (strncasecmp "video/" mime 6 = 0) then
        scanVideoTrack env trackMeta mime s1
      else if strncasecmp "image/" mime 6 = 0 then
        scanImageTrack trackMeta s1
      else if strcasecmp mime env.defs.MEDIA_MIMETYPE_TEXT_3GPP = 0 then
        scanTextTrack trackMeta s1
      else s1

/-- The loop over the tracks of `parseMetaData`. -/
def scanTracks (env : Env) (tracks : List Track) (s : TrackScan) : TrackScan :=
  tracks.foldl (scanTrack env) s

/-- The value printed for `METADATA_KEY_DURATION`: the rounded duration in
milliseconds, with 64-bit truncating division. -/
def durationMs (maxDurationUs : Int) : Int :=
  Int.tdiv (if maxDurationUs > INT64_MAX - 500 then INT64_MAX else maxDurationUs + 500) 1000

/-- The fields derived after the loop: timed text languages, duration, audio,
video and image presence with their attributes. -/
def addDerivedFields (s : TrackScan) : KeyedVector :=
  let m0 := s.mMetaData
  let m1 := if s.timedTextLang ≠ "" then
      m0.add MetadataKey.METADATA_KEY_TIMED_TEXT_LANGUAGES s.timedTextLang
    else m0
  let m2 := m1.add MetadataKey.METADATA_KEY_DURATION (sprintfInt (durationMs s.maxDurationUs))
  let m3 := if s.hasAudio then m2.add MetadataKey.METADATA_KEY_HAS_AUDIO "yes" else m2
  let m4 :=
    if s.hasVideo then
      let v1 := m3.add MetadataKey.METADATA_KEY_HAS_VIDEO "yes"
      let v2 := v1.add MetadataKey.METADATA_KEY_VIDEO_WIDTH (sprintfInt s.videoWidth)
      let v3 := v2.add MetadataKey.METADATA_KEY_VIDEO_HEIGHT (sprintfInt s.videoHeight)
      let v4 := v3.add MetadataKey.METADATA_KEY_VIDEO_ROTATION (sprintfInt s.rotationAngle)
      let v5 := v4.add MetadataKey.METADATA_KEY_VIDEO_CODEC_MIME_TYPE s.videoMime
      if 0 < s.videoFrameCount then
        v5.add MetadataKey.METADATA_KEY_VIDEO_FRAME_COUNT (sprintfInt s.videoFrameCount)
      else v5
    else m3
  if 0 < s.imageCount ∧ 0 ≤ s.imagePrimary then
    let i1 := m4.add MetadataKey.METADATA_KEY_HAS_IMAGE "yes"
    let i2 := i1.add MetadataKey.METADATA_KEY_IMAGE_COUNT (sprintfInt s.imageCount)
    let i3 := i2.add MetadataKey.METADATA_KEY_IMAGE_PRIMARY (sprintfInt s.imagePrimary)
    let i4 := i3.add MetadataKey.METADATA_KEY_IMAGE_WIDTH (sprintfInt s.imageWidth)
    let i5 := i4.add MetadataKey.METADATA_KEY_IMAGE_HEIGHT (sprintfInt s.imageHeight)
    i5.add MetadataKey.METADATA_KEY_IMAGE_ROTATION (sprintfInt s.imageRotation)
  else m4

/-- The four `CHECK`s of `parseMetaData`: the process aborts unless each
checked value is non-negative where its block is entered. -/
def checksPass (s : TrackScan) : Bool :=
  (!s.hasVideo || (decide (0 ≤ s.videoWidth) && decide (0 ≤ s.videoHeight))) &&
  (!(decide (0 < s.imageCount) && decide (0 ≤ s.imagePrimary)) ||
    (decide (0 ≤ s.imageWidth) && decide (0 ≤ s.imageHeight)))

/-- The part of `parseMetaData` before the loop over the tracks: container
fields, detector results, track count, capture frame rate, EXIF and XMP
blocks.  The result is the dictionary. -/
def addContainerFields (env : Env) (meta : MetaData) (numTracks : Nat) (m : KeyedVector) :
    KeyedVector :=
  let copied := copyContainerFields meta kMap ([], m)
  let m1 := addDetectedTags (env.detectAndConvert copied.1) copied.2
  let m2 := m1.add MetadataKey.METADATA_KEY_NUM_TRACKS (sprintfInt numTracks)
  let m3 :=
    match meta.findFloat MetaKey.kKeyCaptureFramerate with
    | some captureFps =>
      m2.add MetadataKey.METADATA_KEY_CAPTURE_FRAMERATE (env.sprintfFloat captureFps)
    | none => m2
  let m4 :=
    match meta.findInt64 MetaKey.kKeyExifOffset, meta.findInt64 MetaKey.kKeyExifSize with
    | some exifOffset, some exifSize =>
      (m3.add MetadataKey.METADATA_KEY_EXIF_OFFSET (sprintfInt exifOffset)).add
        MetadataKey.METADATA_KEY_EXIF_LENGTH (sprintfInt exifSize)
    | _, _ => m3
  match meta.findInt64 MetaKey.kKeyXmpOffset, meta.findInt64 MetaKey.kKeyXmpSize with
  | some xmpOffset, some xmpSize =>
    (m4.add MetadataKey.METADATA_KEY_XMP_OFFSET (sprintfInt xmpOffset)).add
      MetadataKey.METADATA_KEY_XMP_LENGTH (sprintfInt xmpSize)
  | _, _ => m4

/-- The bitrate block of `parseMetaData`. -/
def addBitrate (env : Env) (mSource : Option DataSource) (numTracks : Nat) (s : TrackScan)
    (m : KeyedVector) : KeyedVector :=
  if numTracks = 1 ∧ s.hasAudio = true ∧ 0 ≤ s.audioBitrate then
    m.add MetadataKey.METADATA_KEY_BITRATE (sprintfInt s.audioBitrate)
  else
    match mSource.bind DataSource.size with
    | some sourceSize =>
      m.add MetadataKey.METADATA_KEY_BITRATE
        (sprintfInt (env.avgBitRate sourceSize s.maxDurationUs))
    | none => m

/-- The matroska block of `parseMetaData`. -/
def rewriteMatroska (meta : MetaData) (extractor : MediaExtractor) (numTracks : Nat)
    (m : KeyedVector) : KeyedVector :=
  if numTracks = 1 then
    match meta.findCString MetaKey.kKeyMIMEType with
    | some fileMIME =>
      if strcasecmp fileMIME "video/x-matroska" = 0 then
        match extractor.getTrackMetaData 0 with
        | some trackMeta =>
          match trackMeta.findCString MetaKey.kKeyMIMEType with
          | some trackMIME =>
            if strncasecmp "audio/" trackMIME 6 = 0 then
              m.add MetadataKey.METADATA_KEY_MIMETYPE "audio/x-matroska"
            else m
          | none => m
        | none => m
      else m
    | none => m
  else m

/-- The member function `parseMetaData`, run on the bound container reader
`extractor` (its callers test `mExtractor` first).  The result is the state
afterwards; `none` means that one of the `CHECK`s failed and aborted the
process. -/
def parseMetaData (env : Env) (r : Retriever) (extractor : MediaExtractor) :
    Option Retriever :=
  match extractor.fileMeta with
  | none => some r
  | some meta =>
    let numTracks := extractor.countTracks
    let mAlbumArt := (captureAlbumArt meta r).mAlbumArt
    let s := scanTracks env extractor.tracks
      (TrackScan.start (addContainerFields env meta numTracks r.mMetaData))
    if checksPass s then
      some { r with
        mAlbumArt := mAlbumArt
        mMetaData := rewriteMatroska meta extractor numTracks
          (addBitrate env r.mSource numTracks s (addDerivedFields s)) }
    else none

/-- The member function `clearMetadata`. -/
def clearMetadata (r : Retriever) : Retriever :=
  { r with mParsedMetaData := false, mMetaData := KeyedVector.empty, mAlbumArt := none }

/-- The member function `extractMetadata`: the returned string (`none` is
NULL) and the state afterwards; the outer `none` is an abort inside
`parseMetaData`. -/
def extractMetadata (env : Env) (r : Retriever) (keyCode : MetadataKey) :
    Option (Option String × Retriever) :=
  match r.mExtractor with
  | none => some (none, r)
  | some extractor =>
    if r.mParsedMetaData then some (r.mMetaData.valueFor keyCode, r)
    else
      match parseMetaData env r extractor with
      | some r1 => some (r1.mMetaData.valueFor keyCode, { r1 with mParsedMetaData := true })
      | none => none

/-- The member function `extractAlbumArt`: the returned copy of the art (`none`
is NULL) and the state afterwards; the outer `none` is an abort inside
`parseMetaData`. -/
def extractAlbumArt (env : Env) (r : Retriever) : Option (Option (List Nat) × Retriever) :=
  match r.mExtractor with
  | none => some (none, r)
  | some extractor =>
    if r.mParsedMetaData then some (r.mAlbumArt, r)
    else
      match parseMetaData env r extractor with
      | some r1 => some (r1.mAlbumArt, { r1 with mParsedMetaData := true })
      | none => none

/-! ## setDataSource -/

/-- The status `OK`. -/
def OK : Int := 0

/-- The status `UNKNOWN_ERROR`. -/
def UNKNOWN_ERROR : Int := -2147483648

/-- The overload `setDataSource(httpService, uri, headers)`: the returned
status and the state afterwards. -/
def setDataSourceURI (env : Env) (r : Retriever) (uri : String) : Int × Retriever :=
  let r1 := clearMetadata r
  match env.createFromURI uri with
  | none => (UNKNOWN_ERROR, { r1 with mSource := none })
  | some source =>
    match env.createExtractor source none with
    | none => (UNKNOWN_ERROR, { r1 with mSource := none, mExtractor := none })
    | some extractor => (OK, { r1 with mSource := some source, mExtractor := some extractor })

/-- The overload `setDataSource(fd, offset, length)`. -/
def setDataSourceFd (env : Env) (r : Retriever) (fd offset length : Int) : Int × Retriever :=
  let r1 := clearMetadata r
  let created := env.createFileSource fd offset length
  if created.2 ≠ OK then (created.2, { r1 with mSource := none })
  else
    match env.createExtractor created.1 none with
    | none => (UNKNOWN_ERROR, { r1 with mSource := none, mExtractor := none })
    | some extractor =>
      (OK, { r1 with mSource := some created.1, mExtractor := some extractor })

/-- The overload `setDataSource(source, mime)`. -/
def setDataSourceSource (env : Env) (r : Retriever) (source : DataSource)
    (mime : Option String) : Int × Retriever :=
  let r1 := clearMetadata r
  match env.createExtractor source mime with
  | none => (UNKNOWN_ERROR, { r1 with mSource := none, mExtractor := none })
  | some extractor => (OK, { r1 with mSource := some source, mExtractor := some extractor })

/-! ## Vocabulary of the specification

The definitions below follow the words of the specification, not the code;
the theorems compare the code with them. -/

/-- Spec wording: a track whose MIME starts with "image/", case-insensitively. -/
def isImageTrack (t : Track) : Bool :=
  match t.meta with
  | some meta =>
    match meta.findCString MetaKey.kKeyMIMEType with
    | some mime => decide (strncasecmp mime "image/" 6 = 0)
    | none => false
  | none => false

/-- Spec wording: an image track flagged "primary/default", that is, whose
is-default flag is present and non-zero. -/
def isPrimaryImageTrack (t : Track) : Bool :=
  isImageTrack t &&
    (match t.meta with
     | some meta => isTrue32 (meta.findInt32 MetaKey.kKeyTrackIsDefault)
     | none => false)

/-- Spec wording: the subsequence of image tracks, given by the positions of
its members in the container (the first track of the list has position `i`). -/
def imageTrackPositions : List Track → Nat → List Nat
  | [], _ => []
  | t :: rest, i =>
    if isImageTrack t then i :: imageTrackPositions rest (i + 1)
    else imageTrackPositions rest (i + 1)

/-- Spec wording: what candidate `componentName` is worth to the image
fallback loop: the artifact of its `extractFrame` when its `init` succeeds and
`extractFrame` is non-empty, nothing otherwise. -/
def imageCandidateArtifact (env : Env) (trackMeta : MetaData) (source : IMediaSource)
    (colorFormat : Int) (thumbnail : Bool) (rect : Option FrameRect)
    (componentName : String) : Option IMemory :=
  let decoder := FrameDecoder.new DecoderKind.MediaImageDecoder componentName trackMeta source
  let initialized := env.init decoder (if thumbnail then -1 else 0) 0 colorFormat
  if initialized.1 then (env.extractFrame { decoder with state := initialized.2 } rect).1
  else none

/-- Spec wording: what candidate `componentName` is worth to the video
fallback loop. -/
def frameCandidateArtifact (env : Env) (trackMeta : MetaData) (source : IMediaSource)
    (timeUs option colorFormat : Int) (componentName : String) : Option IMemory :=
  let decoder := FrameDecoder.new DecoderKind.VideoFrameDecoder componentName trackMeta source
  let initialized := env.init decoder timeUs option colorFormat
  if initialized.1 then (env.extractFrame { decoder with state := initialized.2 } none).1
  else none

/-- The component names of the decoders a fallback loop constructed, in the
order of construction. -/
def LoopResult.attempted (res : LoopResult) : List String :=
  res.constructed.map FrameDecoder.componentName

/-- Spec wording: the first-fit policy over the ordered candidate list `cs`,
where `cand c` is the artifact candidate `c` yields if it both initialises and
extracts.  `attempted` lists the candidates tried, in order; `frame` is the
result. -/
def FirstFit (cand : String → Option IMemory) (cs : List String)
    (frame : Option IMemory) (attempted : List String) : Prop :=
  attempted <+: cs ∧
  (∀ (pre : List String) (c : String) (post : List String) (f : IMemory),
      cs = pre ++ c :: post → (∀ x ∈ pre, cand x = none) → cand c = some f →
      frame = some f ∧ attempted = pre ++ [c]) ∧
  (frame = none ↔ ∀ x ∈ cs, cand x = none) ∧
  (frame = none → attempted = cs)

/-- Spec wording: the negotiated profile is one of the Main10 / Main10HDR10 /
Main10HDR10Plus identifiers of the codec family (HEVC or AV1) of `mime`. -/
def TenBitProfile (d : MediaDefs) (mime : String) (format : AMessage) : Prop :=
  ∃ profile : Int, format.findInt32 "profile" = some profile ∧
    ((strcasecmp mime d.MEDIA_MIMETYPE_VIDEO_HEVC = 0 ∧
        (profile = d.HEVCProfileMain10 ∨ profile = d.HEVCProfileMain10HDR10 ∨
          profile = d.HEVCProfileMain10HDR10Plus)) ∨
     (strcasecmp mime d.MEDIA_MIMETYPE_VIDEO_HEVC ≠ 0 ∧
        strcasecmp mime d.MEDIA_MIMETYPE_VIDEO_AV1 = 0 ∧
        (profile = d.AV1ProfileMain10 ∨ profile = d.AV1ProfileMain10HDR10 ∨
          profile = d.AV1ProfileMain10HDR10Plus)))

/-- Spec wording: a qualifying non-software (hardware) registry entry for
`mime`: the registry reports it for the MIME in decode direction, it is not a
software codec, and it has a capability set for the MIME. -/
def isHardwareEntry (env : Env) (mime : String) (e : CodecEntry) : Bool :=
  e.matchesType mime false &&
    (match e.info with
     | some info =>
       !env.isSoftwareCodec info.codecName && (info.getCapabilitiesFor mime).isSome
     | none => false)

/-- Spec wording: the capability set of the entry for `mime` advertises the
10-bit planar layout `COLOR_FormatYUVP010`. -/
def advertisesP010 (env : Env) (mime : String) (e : CodecEntry) : Bool :=
  match e.info with
  | some info =>
    match info.getCapabilitiesFor mime with
    | some caps => decide (env.defs.COLOR_FormatYUVP010 ∈ caps.colorFormats)
    | none => false
  | none => false

/-- Spec wording: the cache state "empty": no decoder, retained index -1. -/
def Retriever.clearCache (r : Retriever) : Retriever :=
  { r with mDecoder := none, mLastDecodedIndex := -1 }

/-- Spec wording: the cache state "populated(decoder, lastIndex)". -/
def Retriever.populate (r : Retriever) (decoder : FrameDecoder) (lastIndex : Int) : Retriever :=
  { r with mDecoder := some decoder, mLastDecodedIndex := lastIndex }

/-- Spec wording: the per-track durations in microseconds, in container order,
of the tracks that publish one. -/
def trackDurations (tracks : List Track) : List Int :=
  tracks.filterMap (fun t => t.meta.bind (fun meta => meta.findInt64 MetaKey.kKeyDuration))

/-- Spec wording: the maximum of 0 and all per-track durations. -/
def maxTrackDuration (tracks : List Track) : Int :=
  (trackDurations tracks).foldl max 0

/-- No track publishes a negative width or height. -/
def dimensionsNonneg (tracks : List Track) : Prop :=
  ∀ t ∈ tracks, ∀ meta, t.meta = some meta →
    (∀ w, meta.findInt32 MetaKey.kKeyWidth = some w → 0 ≤ w) ∧
    (∀ h, meta.findInt32 MetaKey.kKeyHeight = some h → 0 ≤ h)

/-- The invariant of the loop over the tracks behind the four `CHECK`s. -/
def TrackScan.dimsOk (s : TrackScan) : Prop :=
  (s.hasVideo = true → 0 ≤ s.videoWidth ∧ 0 ≤ s.videoHeight) ∧
  (0 ≤ s.imagePrimary → 0 ≤ s.imageWidth ∧ 0 ≤ s.imageHeight)

/-- The dictionary keys that `parseMetaData` can write before its loop over
the tracks: the targets of `kMap`, the track count, the capture frame rate and
the EXIF and XMP blocks. -/
def containerFieldKeys : List MetadataKey :=
  kMap.map Map.toKey ++
    [MetadataKey.METADATA_KEY_NUM_TRACKS, MetadataKey.METADATA_KEY_CAPTURE_FRAMERATE,
     MetadataKey.METADATA_KEY_EXIF_OFFSET, MetadataKey.METADATA_KEY_EXIF_LENGTH,
     MetadataKey.METADATA_KEY_XMP_OFFSET, MetadataKey.METADATA_KEY_XMP_LENGTH]

/-- The dictionary keys that the loop over the tracks can write. -/
def trackLoopKeys : List MetadataKey :=
  [MetadataKey.METADATA_KEY_BITS_PER_SAMPLE, MetadataKey.METADATA_KEY_SAMPLERATE,
   MetadataKey.METADATA_KEY_COLOR_STANDARD, MetadataKey.METADATA_KEY_COLOR_TRANSFER,
   MetadataKey.METADATA_KEY_COLOR_RANGE]

/-- Spec wording: state `r1` holds the metadata dictionary and the parsed flag
of state `r`, and the album art of `r` when `r` holds any. -/
def Retriever.metadataUndisturbed (r r1 : Retriever) : Prop :=
  r1.mMetaData = r.mMetaData ∧ r1.mParsedMetaData = r.mParsedMetaData ∧
    ∀ art, r.mAlbumArt = some art → r1.mAlbumArt = some art

/-- A call of one of the member functions `extractMetadata`, `extractAlbumArt`,
`getImageAtIndex`, `getImageRectAtIndex`, `getFrameAtTime`, `getFrameAtIndex`,
with its arguments. -/
inductive Call where
  | metadata (keyCode : MetadataKey)
  | albumArt
  | imageAtIndex (index colorFormat : Int) (metaOnly thumbnail : Bool)
  | imageRectAtIndex (index colorFormat left top right bottom : Int)
  | frameAtTime (timeUs option colorFormat : Int) (metaOnly : Bool)
  | frameAtIndex (frameIndex colorFormat : Int) (metaOnly : Bool)

/-- What a call returns. -/
inductive CallResult where
  | text (value : Option String)
  | art (value : Option (List Nat))
  | frame (value : Option IMemory)
  deriving DecidableEq

/-- Runs one call: what it returns and the state afterwards; `none` is an
abort inside `parseMetaData`. -/
def Call.run (env : Env) (r : Retriever) : Call → Option (CallResult × Retriever)
  | Call.metadata keyCode =>
    (extractMetadata env r keyCode).map (fun out => (CallResult.text out.1, out.2))
  | Call.albumArt =>
    (extractAlbumArt env r).map (fun out => (CallResult.art out.1, out.2))
  | Call.imageAtIndex index colorFormat metaOnly thumbnail =>
    let out := getImageAtIndex env r index colorFormat metaOnly thumbnail
    some (CallResult.frame out.1, out.2)
  | Call.imageRectAtIndex index colorFormat left top right bottom =>
    let out := getImageRectAtIndex env r index colorFormat left top right bottom
    some (CallResult.frame out.1, out.2)
  | Call.frameAtTime timeUs option colorFormat metaOnly =>
    let out := getFrameAtTime env r timeUs option colorFormat metaOnly
    some (CallResult.frame out.1, out.2)
  | Call.frameAtIndex frameIndex colorFormat metaOnly =>
    let out := getFrameAtIndex env r frameIndex colorFormat metaOnly
    some (CallResult.frame out.1, out.2)

/-- Whether a call made in state `r` enters `parseMetaData`: only
`extractMetadata` and `extractAlbumArt` call it, and only when a container
reader is held and the parsed flag is not set. -/
def Call.parses (r : Retriever) : Call → Bool
  | Call.metadata _ => r.mExtractor.isSome && !r.mParsedMetaData
  | Call.albumArt => r.mExtractor.isSome && !r.mParsedMetaData
  | _ => false

/-- Runs a sequence of calls with no `setDataSource` in between: the results,
the state afterwards and the number of times `parseMetaData` was entered. -/
def runCalls (env : Env) : Retriever → List Call → Option (List CallResult × Retriever × Nat)
  | r, [] => some ([], r, 0)
  | r, c :: rest =>
    match c.run env r with
    | none => none
    | some (res, r1) =>
      match runCalls env r1 rest with
      | none => none
      | some (results, r2, n) =>
        some (res :: results, r2, (if c.parses r then 1 else 0) + n)

/-- No call made in state `r` enters `parseMetaData`: no container reader is
held or the parsed flag is set. -/
def Retriever.settled (r : Retriever) : Prop :=
  r.mExtractor = none ∨ r.mParsedMetaData = true

/-- States that agree on the container reader, the parsed flag and the
dictionary. -/
def Retriever.sameMetadata (r r1 : Retriever) : Prop :=
  r1.mExtractor = r.mExtractor ∧ r1.mParsedMetaData = r.mParsedMetaData ∧
    r1.mMetaData = r.mMetaData

/-- Spec wording: an image track flagged primary that carries both width and
height. -/
def isSizedPrimaryImage (t : Track) : Bool :=
  isPrimaryImageTrack t &&
    (match t.meta with
     | some meta =>
       (meta.findInt32 MetaKey.kKeyWidth).isSome && (meta.findInt32 MetaKey.kKeyHeight).isSome
     | none => false)

/-- Spec wording: `P` is the 0-based position, among the image tracks, of the
last image track that is flagged primary and carries both dimensions. -/
def IsLastSizedPrimary (tracks : List Track) (P : Nat) : Prop :=
  (∃ t, (tracks.filter isImageTrack).get? P = some t ∧ isSizedPrimaryImage t = true) ∧
  ∀ k u, P < k → (tracks.filter isImageTrack).get? k = some u → isSizedPrimaryImage u = false

/-- The value of `imagePrimary` after the loop over `tracks`, entered with the
image counter `count` and the primary index `primary`: every image track
flagged primary with both dimensions stores the counter. -/
def primaryIndex : List Track → Int → Int → Int
  | [], _, primary => primary
  | t :: rest, count, primary =>
    if isImageTrack t then
      primaryIndex rest (count + 1) (if isSizedPrimaryImage t then count else primary)
    else primaryIndex rest count primary

/-- The dictionary keys of the image block of `parseMetaData`. -/
def imageFieldKeys : List MetadataKey :=
  [MetadataKey.METADATA_KEY_HAS_IMAGE, MetadataKey.METADATA_KEY_IMAGE_COUNT,
   MetadataKey.METADATA_KEY_IMAGE_PRIMARY, MetadataKey.METADATA_KEY_IMAGE_WIDTH,
   MetadataKey.METADATA_KEY_IMAGE_HEIGHT, MetadataKey.METADATA_KEY_IMAGE_ROTATION]

/-! ## Example data -/

/-- A track that publishes a MIME type and further attributes, with its
elementary stream. -/
def exampleTrack (mime : String) (attrs : List (MetaKey × MetaValue)) (src : Nat) : Track :=
  { meta := some ⟨(MetaKey.kKeyMIMEType, MetaValue.cstring mime) :: attrs⟩
    extensiveMeta := some ⟨(MetaKey.kKeyMIMEType, MetaValue.cstring mime) :: attrs⟩
    source := some ⟨src⟩ }

/-- A container with a video track, three image tracks (the second and third
flagged primary) and a track without attributes. -/
def exampleTracks : List Track :=
  [ exampleTrack "video/avc" [] 0,
    exampleTrack "image/jpeg" [] 1,
    { meta := none, extensiveMeta := none, source := none },
    exampleTrack "IMAGE/heic" [(MetaKey.kKeyTrackIsDefault, MetaValue.int32 1)] 3,
    exampleTrack "image/png" [(MetaKey.kKeyTrackIsDefault, MetaValue.int32 1)] 4 ]

/-- A container with a video track and two image tracks, the second of them
(an AVIF image) flagged primary. -/
def exampleContainer : MediaExtractor :=
  { fileMeta := some ⟨[(MetaKey.kKeyMIMEType, MetaValue.cstring "video/mp4")]⟩
    tracks :=
      [ exampleTrack "video/avc"
          [(MetaKey.kKeyWidth, MetaValue.int32 640), (MetaKey.kKeyHeight, MetaValue.int32 480),
           (MetaKey.kKeyDuration, MetaValue.int64 2501)] 0,
        exampleTrack "image/jpeg" [] 1,
        exampleTrack "image/avif" [(MetaKey.kKeyTrackIsDefault, MetaValue.int32 1)] 2 ] }

/-- The container of the duration example: three audio tracks of 1000, 2499
and 2501 microseconds. -/
def durationContainer : MediaExtractor :=
  { fileMeta := some ⟨[(MetaKey.kKeyMIMEType, MetaValue.cstring "audio/mp4")]⟩
    tracks :=
      [ exampleTrack "audio/mp4a-latm" [(MetaKey.kKeyDuration, MetaValue.int64 1000)] 0,
        exampleTrack "audio/mp4a-latm" [(MetaKey.kKeyDuration, MetaValue.int64 2499)] 1,
        exampleTrack "audio/mp4a-latm" [(MetaKey.kKeyDuration, MetaValue.int64 2501)] 2 ] }

/-- A registry slot reported for every media type, with the given codec name
and colour formats. -/
def exampleEntry (codecName : String) (colorFormats : List Nat) : CodecEntry :=
  { matchesType := fun _ _ => true
    info := some { codecName := codecName, getCapabilitiesFor := fun _ => some ⟨colorFormats⟩ } }

/-- A negotiated format whose profile is Main10 (value 2 for HEVC and AV1). -/
def main10Format : AMessage := ⟨[("profile", 2)]⟩

/-- A registry with a software decoder and a hardware decoder, neither of
which advertises `COLOR_FormatYUVP010` (54). -/
def registryWithout10Bit : IMediaCodecList :=
  ⟨[exampleEntry "c2.android.hevc.decoder" [19, 21], exampleEntry "OMX.vendor.hevc.decoder" [19]]⟩

/-- A registry with a software decoder that lacks `COLOR_FormatYUVP010` and a
hardware decoder that advertises it. -/
def registryWith10Bit : IMediaCodecList :=
  ⟨[exampleEntry "c2.android.hevc.decoder" [19, 21],
    exampleEntry "OMX.vendor.hevc.decoder" [19, 54]]⟩

/-- A registry that holds software decoders only. -/
def softwareOnlyRegistry : IMediaCodecList :=
  ⟨[exampleEntry "c2.android.hevc.decoder" [19, 21], exampleEntry "c2.android.av1.decoder" [19]]⟩

/-- An environment for the examples: the registry `codecList`; candidates
"A", "B", "C" for every request, of which only "C" initialises; a decoder
yields an artifact as long as its private state is at most `frameLimit`. -/
def exampleEnv (codecList : Option IMediaCodecList) (frameLimit : Nat) : Env :=
  { defs := androidDefs
    convertMetaDataToMessage := fun _ => some ⟨[("profile", 2)]⟩
    codecList := codecList
    isSoftwareCodec := fun name => decide (strncasecmp name "c2.android." 11 = 0)
    preferhw := false
    findMatchingCodecs := fun _ _ _ _ => ["A", "B", "C"]
    getMetadataOnly := fun _ _ _ bitDepth => some ⟨bitDepth⟩
    init := fun d _ _ _ => (decide (d.componentName = "C"), 1)
    extractFrame := fun d _ =>
      (if d.state ≤ frameLimit then some ⟨d.state⟩ else none, d.state + 1)
    detectAndConvert := fun tags => tags
    sprintfFloat := fun _ => "0.000000"
    avgBitRate := fun sourceSize maxDurationUs =>
      if maxDurationUs = 0 then 0 else Int.tdiv (sourceSize * 8000000) maxDurationUs
    createFromURI := fun uri =>
      if uri = "file:///example.mp4" then some { id := 0, size := some 1000000 } else none
    createFileSource := fun fd _ length =>
      ({ id := fd.toNat, size := some length }, if fd < 0 then -1 else 0)
    createExtractor := fun source _ => if source.id = 0 then some exampleContainer else none }

/-- A retriever bound to `exampleContainer`, nothing parsed or cached yet. -/
def boundRetriever : Retriever :=
  { Retriever.new with
    mSource := some { id := 0, size := some 1000000 }
    mExtractor := some exampleContainer }

/-- The state after `getFrameAtIndex(0)` on `boundRetriever`, in the example
environment with the given frame limit: candidate "C" decoded frame 0 and is
cached. -/
def retrieverAfterFrame0 (frameLimit : Nat) : Retriever :=
  (getFrameAtIndex (exampleEnv none frameLimit) boundRetriever 0 0 false).2

/-- The decoder that `retrieverAfterFrame0` holds in its cache. -/
def cachedFrameDecoder : FrameDecoder :=
  { kind := DecoderKind.VideoFrameDecoder
    componentName := "C"
    trackMeta := ⟨[(MetaKey.kKeyMIMEType, MetaValue.cstring "video/avc"),
      (MetaKey.kKeyWidth, MetaValue.int32 640), (MetaKey.kKeyHeight, MetaValue.int32 480),
      (MetaKey.kKeyDuration, MetaValue.int64 2501)]⟩
    source := ⟨0⟩
    state := 2 }

/-- The dictionary keys that `parseMetaData` can write right after its loop
over the tracks (timed text languages, duration, audio, video and image
fields). -/
def derivedFieldKeys : List MetadataKey :=
  [MetadataKey.METADATA_KEY_TIMED_TEXT_LANGUAGES, MetadataKey.METADATA_KEY_DURATION,
   MetadataKey.METADATA_KEY_HAS_AUDIO, MetadataKey.METADATA_KEY_HAS_VIDEO,
   MetadataKey.METADATA_KEY_VIDEO_WIDTH, MetadataKey.METADATA_KEY_VIDEO_HEIGHT,
   MetadataKey.METADATA_KEY_VIDEO_ROTATION, MetadataKey.METADATA_KEY_VIDEO_CODEC_MIME_TYPE,
   MetadataKey.METADATA_KEY_VIDEO_FRAME_COUNT, MetadataKey.METADATA_KEY_HAS_IMAGE,
   MetadataKey.METADATA_KEY_IMAGE_COUNT, MetadataKey.METADATA_KEY_IMAGE_PRIMARY,
   MetadataKey.METADATA_KEY_IMAGE_WIDTH, MetadataKey.METADATA_KEY_IMAGE_HEIGHT,
   MetadataKey.METADATA_KEY_IMAGE_ROTATION]

/-- The locals of `parseMetaData` when its loop over the tracks is left. -/
def synthesisScan (env : Env) (r : Retriever) (extractor : MediaExtractor) (meta : MetaData) :
    TrackScan :=
  scanTracks env extractor.tracks
    (TrackScan.start (addContainerFields env meta extractor.countTracks r.mMetaData))

/-- Spec wording: a track whose MIME starts with "audio/", case-insensitively. -/
def isAudioTrack (t : Track) : Bool :=
  match t.meta with
  | some meta =>
    match meta.findCString MetaKey.kKeyMIMEType with
    | some mime => decide (strncasecmp mime "audio/" 6 = 0)
    | none => false
  | none => false

/-- Spec wording: a track whose MIME starts with "video/", case-insensitively. -/
def isVideoTrack (t : Track) : Bool :=
  match t.meta with
  | some meta =>
    match meta.findCString MetaKey.kKeyMIMEType with
    | some mime => decide (strncasecmp mime "video/" 6 = 0)
    | none => false
  | none => false

/-- Spec wording: the three conditions of the matroska rewrite: exactly one
track, a container MIME equal to "video/x-matroska" up to case, and a sole
track whose MIME starts with "audio/". -/
def isAudioOnlyMatroska (meta : MetaData) (tracks : List Track) : Prop :=
  (∃ t, tracks = [t] ∧ isAudioTrack t = true) ∧
  ∃ fileMIME, meta.findCString MetaKey.kKeyMIMEType = some fileMIME ∧
    strcasecmp fileMIME "video/x-matroska" = 0

/-- A matroska container with one audio track that publishes a bitrate of
128000 and a duration. -/
def matroskaAudioContainer : MediaExtractor :=
  { fileMeta := some ⟨[(MetaKey.kKeyMIMEType, MetaValue.cstring "video/x-matroska")]⟩
    tracks :=
      [ exampleTrack "audio/vorbis"
          [(MetaKey.kKeyBitRate, MetaValue.int32 128000),
           (MetaKey.kKeyDuration, MetaValue.int64 2000000)] 0 ] }

/-- A retriever bound to `matroskaAudioContainer` over a source of 1000000
bytes, nothing parsed yet. -/
def matroskaRetriever : Retriever :=
  { Retriever.new with
    mSource := some { id := 1, size := some 1000000 }
    mExtractor := some matroskaAudioContainer }

/-- The guard of the verbatim branch of the bitrate block of `parseMetaData`,
on the locals when the loop over the tracks is left. -/
def verbatimCase (env : Env) (r : Retriever) (extractor : MediaExtractor) (meta : MetaData) :
    Prop :=
  extractor.countTracks = 1 ∧ (synthesisScan env r extractor meta).hasAudio = true ∧
    0 ≤ (synthesisScan env r extractor meta).audioBitrate

/-- A still-image container: one image track, no track publishes a duration. -/
def stillImageContainer : MediaExtractor :=
  { fileMeta := some ⟨[(MetaKey.kKeyMIMEType, MetaValue.cstring "image/heif")]⟩
    tracks :=
      [ exampleTrack "image/jpeg"
          [(MetaKey.kKeyWidth, MetaValue.int32 320), (MetaKey.kKeyHeight, MetaValue.int32 240)]
          0 ] }

/-- A retriever bound to `stillImageContainer` over a source of 1000000 bytes,
nothing parsed yet. -/
def stillImageRetriever : Retriever :=
  { Retriever.new with
    mSource := some { id := 3, size := some 1000000 }
    mExtractor := some stillImageContainer }

/-- The example environment with a container reader that recognizes every
source as `matroskaAudioContainer`. -/
def rebindEnv : Env :=
  { exampleEnv none 5 with createExtractor := fun _ _ => some matroskaAudioContainer }

/-- Spec wording: the video attributes that the dictionary reports. -/
structure VideoAttributes where
  width : Int
  height : Int
  rotation : Int
  frameCount : Int
  mime : String
  deriving DecidableEq, Repr

/-- Spec wording: the attributes of a track with a "video/" MIME that carries
both width and height, with rotation and frame count 0 when absent; nothing
for any other track. -/
def sizedVideoAttributes (t : Track) : Option VideoAttributes :=
  match t.meta with
  | some meta =>
    match meta.findCString MetaKey.kKeyMIMEType with
    | some mime =>
      if strncasecmp mime "video/" 6 = 0 then
        match meta.findInt32 MetaKey.kKeyWidth, meta.findInt32 MetaKey.kKeyHeight with
        | some width, some height =>
          some { width := width, height := height,
                 rotation := (meta.findInt32 MetaKey.kKeyRotation).getD 0,
                 frameCount := (meta.findInt32 MetaKey.kKeyFrameCount).getD 0,
                 mime := mime }
        | _, _ => none
      else none
    | none => none
  | none => none

/-- Spec wording: the attributes of the first video track in container order
that carries both dimensions. -/
def firstSizedVideo (tracks : List Track) : Option VideoAttributes :=
  tracks.findSome? sizedVideoAttributes

/-- The video locals of `parseMetaData` hold the attributes `a` and `hasVideo`
is set. -/
def TrackScan.videoIs (s : TrackScan) (a : VideoAttributes) : Prop :=
  s.hasVideo = true ∧ s.videoWidth = a.width ∧ s.videoHeight = a.height ∧
    s.rotationAngle = a.rotation ∧ s.videoFrameCount = a.frameCount ∧ s.videoMime = a.mime

/-- A container whose only track is a video track that publishes the width -1
and the height 480. -/
def negativeWidthContainer : MediaExtractor :=
  { fileMeta := some ⟨[(MetaKey.kKeyMIMEType, MetaValue.cstring "video/mp4")]⟩
    tracks :=
      [ exampleTrack "video/avc"
          [(MetaKey.kKeyWidth, MetaValue.int32 (-1)), (MetaKey.kKeyHeight, MetaValue.int32 480)]
          0 ] }

/-- A retriever bound to `negativeWidthContainer`, nothing parsed yet. -/
def negativeWidthRetriever : Retriever :=
  { Retriever.new with
    mSource := some { id := 5, size := some 1000000 }
    mExtractor := some negativeWidthContainer }

/-- Spec wording: the track was remapped from a still-image-in-video-codec
MIME (HEIC or AVIF). -/
def isRemappedMime (d : MediaDefs) (mime : String) : Bool :=
  decide (strcasecmp mime d.MEDIA_MIMETYPE_IMAGE_ANDROID_HEIC = 0) ||
    decide (strcasecmp mime d.MEDIA_MIMETYPE_IMAGE_AVIF = 0)

/-- Spec wording: the track carries both thumbnail dimensions. -/
def thumbnailSize (trackMeta : MetaData) : Option (Int × Int) :=
  match trackMeta.findInt32 MetaKey.kKeyThumbnailWidth,
        trackMeta.findInt32 MetaKey.kKeyThumbnailHeight with
  | some width, some height => some (width, height)
  | _, _ => none

/-- Spec wording: both tile dimensions are present and > 0. -/
def tileSize (trackMeta : MetaData) : Option (Int × Int) :=
  match trackMeta.findInt32 MetaKey.kKeyTileWidth,
        trackMeta.findInt32 MetaKey.kKeyTileHeight with
  | some width, some height => if 0 < width ∧ 0 < height then some (width, height) else none
  | _, _ => none

/-- Spec wording: the width and height of the negotiated format: (a) the
thumbnail dimensions for a thumbnail request on a track that carries both,
(b) the tile dimensions for a full request on a remapped track with valid tile
dimensions, (c) the converted values otherwise. -/
def negotiatedDimensions (trackMeta : MetaData) (converted : AMessage)
    (thumbnail remapped : Bool) : Option Int × Option Int :=
  if thumbnail then
    match thumbnailSize trackMeta with
    | some (width, height) => (some width, some height)
    | none => (converted.findInt32 "width", converted.findInt32 "height")
  else if remapped then
    match tileSize trackMeta with
    | some (width, height) => (some width, some height)
    | none => (converted.findInt32 "width", converted.findInt32 "height")
  else (converted.findInt32 "width", converted.findInt32 "height")

/-- A container with a tiled HEIC image track that also carries thumbnail
dimensions. -/
def tiledImageContainer : MediaExtractor :=
  { fileMeta := some ⟨[(MetaKey.kKeyMIMEType, MetaValue.cstring "image/heif")]⟩
    tracks :=
      [ exampleTrack "image/vnd.android.heic"
          [(MetaKey.kKeyTrackIsDefault, MetaValue.int32 1),
           (MetaKey.kKeyWidth, MetaValue.int32 4000), (MetaKey.kKeyHeight, MetaValue.int32 3000),
           (MetaKey.kKeyTileWidth, MetaValue.int32 512),
           (MetaKey.kKeyTileHeight, MetaValue.int32 512),
           (MetaKey.kKeyThumbnailWidth, MetaValue.int32 320),
           (MetaKey.kKeyThumbnailHeight, MetaValue.int32 240)] 0 ] }

/-- A retriever bound to `tiledImageContainer`, nothing parsed or cached yet. -/
def tiledImageRetriever : Retriever :=
  { Retriever.new with
    mSource := some { id := 6, size := some 1000000 }
    mExtractor := some tiledImageContainer }

/-- Spec wording: the language code of a 3GPP timed-text track that publishes
a language; nothing for any other track. -/
def textLanguage (d : MediaDefs) (t : Track) : Option String :=
  match t.meta with
  | some meta =>
    match meta.findCString MetaKey.kKeyMIMEType with
    | some mime =>
      if strcasecmp mime d.MEDIA_MIMETYPE_TEXT_3GPP = 0 then
        meta.findCString MetaKey.kKeyMediaLanguage
      else none
    | none => none
  | none => none

/-- Spec wording: the language codes of the 3GPP timed-text tracks that publish
a language, in container order. -/
def textLanguages (d : MediaDefs) (tracks : List Track) : List String :=
  tracks.filterMap (textLanguage d)

/-- Spec wording: the codes joined by ':' with a colon only between
consecutive codes. -/
def colonJoined (langs : List String) : String :=
  ":".intercalate langs

/-- Every code followed by a colon, which is what `parseMetaData` appends to
`timedTextLang` language by language, starting from `acc`. -/
def colonTerminated (acc : String) (langs : List String) : String :=
  langs.foldl (fun text lang => (text ++ lang) ++ ":") acc

/-- A container with an audio track and two 3GPP timed-text tracks, with the
languages "eng" and "chi". -/
def timedTextContainer : MediaExtractor :=
  { fileMeta := some ⟨[(MetaKey.kKeyMIMEType, MetaValue.cstring "video/mp4")]⟩
    tracks :=
      [ exampleTrack "audio/mp4a-latm" [] 0,
        exampleTrack "text/3gpp-tt" [(MetaKey.kKeyMediaLanguage, MetaValue.cstring "eng")] 1,
        exampleTrack "text/3gpp-tt" [(MetaKey.kKeyMediaLanguage, MetaValue.cstring "chi")] 2 ] }

/-- A retriever bound to `timedTextContainer`, nothing parsed yet. -/
def timedTextRetriever : Retriever :=
  { Retriever.new with
    mSource := some { id := 7, size := some 1000000 }
    mExtractor := some timedTextContainer }

/-- A container with two image tracks flagged primary: the first publishes
100x200 and the rotation 90, the second publishes the width 50 and nothing
else. -/
def mixedPrimaryContainer : MediaExtractor :=
  { fileMeta := some ⟨[(MetaKey.kKeyMIMEType, MetaValue.cstring "image/heif")]⟩
    tracks :=
      [ exampleTrack "image/jpeg"
          [(MetaKey.kKeyTrackIsDefault, MetaValue.int32 1),
           (MetaKey.kKeyWidth, MetaValue.int32 100), (MetaKey.kKeyHeight, MetaValue.int32 200),
           (MetaKey.kKeyRotation, MetaValue.int32 90)] 0,
        exampleTrack "image/jpeg"
          [(MetaKey.kKeyTrackIsDefault, MetaValue.int32 1),
           (MetaKey.kKeyWidth, MetaValue.int32 50)] 1 ] }

/-- A retriever bound to `mixedPrimaryContainer`, nothing parsed yet. -/
def mixedPrimaryRetriever : Retriever :=
  { Retriever.new with
    mSource := some { id := 8, size := some 1000000 }
    mExtractor := some mixedPrimaryContainer }

/-- A container with two image tracks flagged primary that both publish their
dimensions. -/
def twoPrimaryContainer : MediaExtractor :=
  { fileMeta := some ⟨[(MetaKey.kKeyMIMEType, MetaValue.cstring "image/heif")]⟩
    tracks :=
      [ exampleTrack "image/jpeg"
          [(MetaKey.kKeyTrackIsDefault, MetaValue.int32 1),
           (MetaKey.kKeyWidth, MetaValue.int32 100), (MetaKey.kKeyHeight, MetaValue.int32 200)]
          0,
        exampleTrack "image/png"
          [(MetaKey.kKeyTrackIsDefault, MetaValue.int32 1),
           (MetaKey.kKeyWidth, MetaValue.int32 300), (MetaKey.kKeyHeight, MetaValue.int32 400)]
          1 ] }

/-- A retriever bound to `twoPrimaryContainer`, nothing parsed yet. -/
def twoPrimaryRetriever : Retriever :=
  { Retriever.new with
    mSource := some { id := 9, size := some 1000000 }
    mExtractor := some twoPrimaryContainer }

/-- A container with a video track and two image tracks, of which only the
second is flagged primary; it publishes its dimensions. -/
def singlePrimaryContainer : MediaExtractor :=
  { fileMeta := some ⟨[(MetaKey.kKeyMIMEType, MetaValue.cstring "image/heif")]⟩
    tracks :=
      [ exampleTrack "video/avc"
          [(MetaKey.kKeyWidth, MetaValue.int32 640), (MetaKey.kKeyHeight, MetaValue.int32 480)]
          0,
        exampleTrack "image/jpeg"
          [(MetaKey.kKeyWidth, MetaValue.int32 10), (MetaKey.kKeyHeight, MetaValue.int32 10)] 1,
        exampleTrack "image/png"
          [(MetaKey.kKeyTrackIsDefault, MetaValue.int32 1),
           (MetaKey.kKeyWidth, MetaValue.int32 300), (MetaKey.kKeyHeight, MetaValue.int32 400)]
          2 ] }

/-- A retriever bound to `singlePrimaryContainer`, nothing parsed yet. -/
def singlePrimaryRetriever : Retriever :=
  { Retriever.new with
    mSource := some { id := 10, size := some 1000000 }
    mExtractor := some singlePrimaryContainer }

/-- A container with two audio tracks of 1000 and 2499 microseconds and a video
track of 2501 microseconds that publishes the width -1 and the height 480. -/
def brokenVideoContainer : MediaExtractor :=
  { fileMeta := some ⟨[(MetaKey.kKeyMIMEType, MetaValue.cstring "video/mp4")]⟩
    tracks :=
      [ exampleTrack "audio/mp4a-latm" [(MetaKey.kKeyDuration, MetaValue.int64 1000)] 0,
        exampleTrack "audio/mp4a-latm" [(MetaKey.kKeyDuration, MetaValue.int64 2499)] 1,
        exampleTrack "video/avc"
          [(MetaKey.kKeyWidth, MetaValue.int32 (-1)), (MetaKey.kKeyHeight, MetaValue.int32 480),
           (MetaKey.kKeyDuration, MetaValue.int64 2501)] 2 ] }

/-- A retriever bound to `brokenVideoContainer`, nothing parsed yet. -/
def brokenVideoRetriever : Retriever :=
  { Retriever.new with
    mSource := some { id := 11, size := some 1000000 }
    mExtractor := some brokenVideoContainer }

/-- A matroska container whose only track is a video track that publishes the
width -1 and the height 480. -/
def brokenMatroskaContainer : MediaExtractor :=
  { fileMeta := some ⟨[(MetaKey.kKeyMIMEType, MetaValue.cstring "video/x-matroska")]⟩
    tracks :=
      [ exampleTrack "video/avc"
          [(MetaKey.kKeyWidth, MetaValue.int32 (-1)), (MetaKey.kKeyHeight, MetaValue.int32 480)]
          0 ] }

/-- A retriever bound to `brokenMatroskaContainer`, nothing parsed yet. -/
def brokenMatroskaRetriever : Retriever :=
  { Retriever.new with
    mSource := some { id := 12, size := some 1000000 }
    mExtractor := some brokenMatroskaContainer }

/-! ## Track selection -/

theorem imageTrackLoop_cons (index : Int) (t : Track) (rest : List Track) (i : Nat) (c : Int) :
    imageTrackLoop index (t :: rest) i c =
      if isImageTrack t then
        if (index < 0 ∧ isPrimaryImageTrack t = true) ∨ index = c then i
        else imageTrackLoop index rest (i + 1) (c + 1)
      else imageTrackLoop index rest (i + 1) c := by
  unfold isPrimaryImageTrack isImageTrack
  rw [imageTrackLoop]
  cases hm : t.meta with
  | none => simp
  | some meta =>
    cases hs : meta.findCString MetaKey.kKeyMIMEType with
    | none => simp [hs]
    | some mime =>
      by_cases himg : strncasecmp mime "image/" 6 = 0 <;> simp [hs, himg]

theorem imageTrackLoop_nonneg (index : Int) (tracks : List Track) :
    ∀ (i : Nat) (c : Int), 0 ≤ c → c ≤ index →
      imageTrackLoop index tracks i c =
        ((imageTrackPositions tracks i).get? (index - c).toNat).getD (i + tracks.length) := by
  induction tracks with
  | nil => intro i c _ _; simp [imageTrackLoop, imageTrackPositions]
  | cons t rest ih =>
    intro i c hc hle
    rw [imageTrackLoop_cons, imageTrackPositions]
    by_cases himg : isImageTrack t = true
    · by_cases heq : index = c
      · simp [himg, heq]
      · have hlt : ¬ index < 0 := by omega
        have h1 : (index - c).toNat = (index - (c + 1)).toNat + 1 := by omega
        simp [himg, heq, hlt, ih (i+1) (c+1) (by omega) (by omega), h1]
        congr 1; omega
    · simp [himg, ih (i+1) c hc hle]
      congr 1; omega

/-- When the track scan runs off the end, `getImageInternal` returns NULL and
leaves the cache empty. -/
theorem getImageInternal_notFound (env : Env) (r : Retriever) (extractor : MediaExtractor)
    (index colorFormat : Int) (metaOnly thumbnail : Bool) (rect : Option FrameRect)
    (hex : r.mExtractor = some extractor)
    (hend : imageTrackLoop index extractor.tracks 0 0 = extractor.tracks.length) :
    getImageInternal env r index colorFormat metaOnly thumbnail rect =
      (none, { r with mDecoder := none, mLastDecodedIndex := -1 }) := by
  simp [getImageInternal, hex, hend, MediaExtractor.countTracks]

/-- When the track scan stops at a track, `getImageInternal` goes on with that
track, from the emptied cache. -/
theorem getImageInternal_found (env : Env) (r : Retriever) (extractor : MediaExtractor)
    (index colorFormat : Int) (metaOnly thumbnail : Bool) (rect : Option FrameRect) (p : Nat)
    (hex : r.mExtractor = some extractor)
    (hsel : imageTrackLoop index extractor.tracks 0 0 = p) (hp : p < extractor.tracks.length) :
    getImageInternal env r index colorFormat metaOnly thumbnail rect =
      decodeImageTrack env { r with mDecoder := none, mLastDecodedIndex := -1 } extractor p
        index colorFormat metaOnly thumbnail rect := by
  have hne : ¬ p = extractor.tracks.length := by omega
  simp [getImageInternal, hex, hsel, MediaExtractor.countTracks, hne]

theorem imageTrackPositions_get (tracks : List Track) :
    ∀ (i k p : Nat), (imageTrackPositions tracks i).get? k = some p →
      i ≤ p ∧ tracks.get? (p - i) = (tracks.filter isImageTrack).get? k := by
  induction tracks with
  | nil => intro i k p h; simp [imageTrackPositions] at h
  | cons a rest ih =>
    intro i k p h
    rw [imageTrackPositions] at h
    by_cases himg : isImageTrack a = true
    · simp only [himg, if_true] at h
      cases k with
      | zero =>
        simp at h
        subst h
        simp [himg]
      | succ k =>
        simp at h
        obtain ⟨hle, hget⟩ := ih (i + 1) k p (by simpa using h)
        refine ⟨by omega, ?_⟩
        have hp : p - i = (p - (i + 1)) + 1 := by omega
        rw [hp]
        simpa [himg] using hget
    · simp only [himg] at h
      obtain ⟨hle, hget⟩ := ih (i + 1) k p (by simpa using h)
      refine ⟨by omega, ?_⟩
      have hp : p - i = (p - (i + 1)) + 1 := by omega
      rw [hp]
      simpa [himg] using hget

theorem imageTrackPositions_length (tracks : List Track) :
    ∀ i : Nat, (imageTrackPositions tracks i).length = (tracks.filter isImageTrack).length := by
  induction tracks with
  | nil => intro i; simp [imageTrackPositions]
  | cons a rest ih =>
    intro i
    rw [imageTrackPositions]
    by_cases himg : isImageTrack a = true
    · simp [himg, ih (i + 1)]
    · simp [himg, ih (i + 1)]

theorem imageTrackLoop_neg_found (index : Int) (h : index < 0) (tracks : List Track) :
    ∀ (i : Nat) (c : Int) (p : Nat) (t : Track), 0 ≤ c → tracks.get? p = some t →
      isPrimaryImageTrack t = true →
      (∀ q u, q < p → tracks.get? q = some u → isPrimaryImageTrack u = false) →
      imageTrackLoop index tracks i c = i + p := by
  induction tracks with
  | nil => intro i c p t _ hget; simp at hget
  | cons a rest ih =>
    intro i c p t hc hget hp hbefore
    have hne : index ≠ c := by omega
    rw [imageTrackLoop_cons]
    cases p with
    | zero =>
      simp at hget
      subst hget
      have himg : isImageTrack a = true := by
        simp [isPrimaryImageTrack] at hp; exact hp.1
      simp [himg, hp, h]
    | succ p =>
      have ha : isPrimaryImageTrack a = false := hbefore 0 a (by omega) (by simp)
      have hrec : ∀ c', 0 ≤ c' → imageTrackLoop index rest (i + 1) c' = i + 1 + p := by
        intro c' hc'
        apply ih (i + 1) c' p t hc' (by simpa using hget) hp
        intro q u hq hu
        exact hbefore (q + 1) u (by omega) (by simpa using hu)
      by_cases himg : isImageTrack a = true
      · simp [himg, ha, hne, hrec (c + 1) (by omega)]; omega
      · simp [himg, hrec c hc]; omega

theorem imageTrackLoop_neg_none (index : Int) (h : index < 0) (tracks : List Track) :
    ∀ (i : Nat) (c : Int), 0 ≤ c → (∀ t ∈ tracks, isPrimaryImageTrack t = false) →
      imageTrackLoop index tracks i c = i + tracks.length := by
  induction tracks with
  | nil => intro i c _ _; simp [imageTrackLoop]
  | cons a rest ih =>
    intro i c hc hall
    have hne : index ≠ c := by omega
    have ha : isPrimaryImageTrack a = false := hall a (by simp)
    have hrest : ∀ t ∈ rest, isPrimaryImageTrack t = false :=
      fun t ht => hall t (by simp [ht])
    rw [imageTrackLoop_cons]
    by_cases himg : isImageTrack a = true
    · simp [himg, ha, hne, ih (i + 1) (c + 1) (by omega) hrest]; omega
    · simp [himg, ih (i + 1) c hc hrest]; omega

/-- C1. With an unspecified (negative) index the track scan of
`getImageInternal` stops at the lowest-positioned image track whose
is-default flag is present and non-zero, wherever it sits, and
`getImageInternal` goes on to decode that track; when no image track is
flagged primary the scan runs off the end (`i == n`, "image track not found")
and `getImageInternal` returns NULL. -/
theorem image_selection_unspecified_index (tracks : List Track) (index : Int)
    (hneg : index < 0) :
    (∀ (p : Nat) (t : Track), tracks.get? p = some t → isPrimaryImageTrack t = true →
        (∀ q u, q < p → tracks.get? q = some u → isPrimaryImageTrack u = false) →
        imageTrackLoop index tracks 0 0 = p ∧
        ∀ (env : Env) (r : Retriever) (fileMeta : Option MetaData) (colorFormat : Int)
          (metaOnly thumbnail : Bool) (rect : Option FrameRect),
          r.mExtractor = some ⟨fileMeta, tracks⟩ →
          getImageInternal env r index colorFormat metaOnly thumbnail rect =
            decodeImageTrack env { r with mDecoder := none, mLastDecodedIndex := -1 }
              ⟨fileMeta, tracks⟩ p index colorFormat metaOnly thumbnail rect) ∧
    ((∀ t ∈ tracks, isPrimaryImageTrack t = false) →
        imageTrackLoop index tracks 0 0 = tracks.length ∧
        ∀ (env : Env) (r : Retriever) (fileMeta : Option MetaData) (colorFormat : Int)
          (metaOnly thumbnail : Bool) (rect : Option FrameRect),
          r.mExtractor = some ⟨fileMeta, tracks⟩ →
          (getImageInternal env r index colorFormat metaOnly thumbnail rect).1 = none) := by
  refine ⟨?_, ?_⟩
  · intro p t hget hp hbefore
    have hsel : imageTrackLoop index tracks 0 0 = p := by
      simpa using imageTrackLoop_neg_found index hneg tracks 0 0 p t (le_refl 0) hget hp hbefore
    refine ⟨hsel, ?_⟩
    intro env r fileMeta colorFormat metaOnly thumbnail rect hex
    exact getImageInternal_found env r ⟨fileMeta, tracks⟩ index colorFormat metaOnly thumbnail
      rect p hex hsel (List.get?_eq_some.mp hget).1
  · intro hall
    have hend : imageTrackLoop index tracks 0 0 = tracks.length := by
      simpa using imageTrackLoop_neg_none index hneg tracks 0 0 (le_refl 0) hall
    refine ⟨hend, ?_⟩
    intro env r fileMeta colorFormat metaOnly thumbnail rect hex
    rw [getImageInternal_notFound env r ⟨fileMeta, tracks⟩ index colorFormat metaOnly
      thumbnail rect hex hend]

theorem image_selection_unspecified_index_witness :
    imageTrackLoop (-1) exampleTracks 0 0 = 3 :=
  ((image_selection_unspecified_index exampleTracks (-1) (by decide)).1 3
    (exampleTrack "IMAGE/heic" [(MetaKey.kKeyTrackIsDefault, MetaValue.int32 1)] 3)
    (by decide) (by decide)
    (by
      intro q u hq hu
      interval_cases q <;> simp [exampleTracks] at hu <;> subst hu <;> decide)).1

/-- C2. With a numeric index `K >= 0` the track scan of `getImageInternal`
stops at the `K`-th member (0-based) of the subsequence of tracks whose MIME
starts with "image/": tracks of other types are not counted and the primary
flag plays no part; `getImageInternal` goes on to decode that track.  When
that subsequence has at most `K` members the scan runs off the end and
`getImageInternal` returns NULL. -/
theorem image_selection_numeric_index (tracks : List Track) (K : Int) (hK : 0 ≤ K) :
    (∀ t : Track, (tracks.filter isImageTrack).get? K.toNat = some t →
        tracks.get? (imageTrackLoop K tracks 0 0) = some t ∧
        (imageTrackPositions tracks 0).get? K.toNat = some (imageTrackLoop K tracks 0 0) ∧
        ∀ (env : Env) (r : Retriever) (fileMeta : Option MetaData) (colorFormat : Int)
          (metaOnly thumbnail : Bool) (rect : Option FrameRect),
          r.mExtractor = some ⟨fileMeta, tracks⟩ →
          getImageInternal env r K colorFormat metaOnly thumbnail rect =
            decodeImageTrack env { r with mDecoder := none, mLastDecodedIndex := -1 }
              ⟨fileMeta, tracks⟩ (imageTrackLoop K tracks 0 0) K colorFormat metaOnly
              thumbnail rect) ∧
    ((tracks.filter isImageTrack).length ≤ K.toNat →
        imageTrackLoop K tracks 0 0 = tracks.length ∧
        ∀ (env : Env) (r : Retriever) (fileMeta : Option MetaData) (colorFormat : Int)
          (metaOnly thumbnail : Bool) (rect : Option FrameRect),
          r.mExtractor = some ⟨fileMeta, tracks⟩ →
          (getImageInternal env r K colorFormat metaOnly thumbnail rect).1 = none) := by
  have hloop := imageTrackLoop_nonneg K tracks 0 0 (le_refl 0) hK
  simp only [sub_zero, Nat.zero_add] at hloop
  refine ⟨?_, ?_⟩
  · intro t ht
    have hlt : K.toNat < (imageTrackPositions tracks 0).length := by
      rw [imageTrackPositions_length]
      exact (List.get?_eq_some.mp ht).1
    obtain ⟨p, hp⟩ : ∃ p, (imageTrackPositions tracks 0).get? K.toNat = some p :=
      ⟨_, List.get?_eq_get hlt⟩
    have hsel : imageTrackLoop K tracks 0 0 = p := by rw [hloop, hp]; rfl
    have hpos := (imageTrackPositions_get tracks 0 K.toNat p hp).2
    rw [ht, Nat.sub_zero] at hpos
    rw [hsel]
    refine ⟨hpos, hp, ?_⟩
    intro env r fileMeta colorFormat metaOnly thumbnail rect hex
    exact getImageInternal_found env r ⟨fileMeta, tracks⟩ K colorFormat metaOnly thumbnail
      rect p hex hsel (List.get?_eq_some.mp hpos).1
  · intro hlen
    have hend : imageTrackLoop K tracks 0 0 = tracks.length := by
      rw [hloop, List.get?_eq_none.mpr (by rw [imageTrackPositions_length]; exact hlen)]; rfl
    refine ⟨hend, ?_⟩
    intro env r fileMeta colorFormat metaOnly thumbnail rect hex
    rw [getImageInternal_notFound env r ⟨fileMeta, tracks⟩ K colorFormat metaOnly
      thumbnail rect hex hend]

theorem image_selection_numeric_index_witness :
    exampleTracks.get? (imageTrackLoop 1 exampleTracks 0 0) =
        some (exampleTrack "IMAGE/heic" [(MetaKey.kKeyTrackIsDefault, MetaValue.int32 1)] 3) ∧
      (imageTrackPositions exampleTracks 0).get? 1 = some (imageTrackLoop 1 exampleTracks 0 0) :=
  have h := (image_selection_numeric_index exampleTracks 1 (by decide)).1
    (exampleTrack "IMAGE/heic" [(MetaKey.kKeyTrackIsDefault, MetaValue.int32 1)] 3) (by decide)
  ⟨h.1, h.2.1⟩

/-! ## First-fit decoder fallback -/

theorem imageDecodeLoop_cons (env : Env) (trackMeta : MetaData) (source : IMediaSource)
    (index colorFormat : Int) (thumbnail : Bool) (rect : Option FrameRect) (r : Retriever)
    (c : String) (rest : List String) :
    ((imageDecodeLoop env trackMeta source index colorFormat thumbnail rect r (c :: rest)).frame =
        (imageCandidateArtifact env trackMeta source colorFormat thumbnail rect c).orElse
          (fun _ => (imageDecodeLoop env trackMeta source index colorFormat thumbnail rect r
            rest).frame)) ∧
    ((imageDecodeLoop env trackMeta source index colorFormat thumbnail rect r
        (c :: rest)).attempted =
      c :: (if (imageCandidateArtifact env trackMeta source colorFormat thumbnail rect c).isSome
        then [] else (imageDecodeLoop env trackMeta source index colorFormat thumbnail rect r
          rest).attempted)) := by
  simp only [imageDecodeLoop, imageCandidateArtifact, LoopResult.attempted]
  cases hi : (env.init (FrameDecoder.new DecoderKind.MediaImageDecoder c trackMeta source)
      (if thumbnail = true then -1 else 0) 0 colorFormat).1 with
  | false => simp [FrameDecoder.new]
  | true =>
    simp only [if_true]
    cases he : (env.extractFrame
        { FrameDecoder.new DecoderKind.MediaImageDecoder c trackMeta source with
          state := (env.init (FrameDecoder.new DecoderKind.MediaImageDecoder c trackMeta source)
            (if thumbnail = true then -1 else 0) 0 colorFormat).2 } rect).1 with
    | none => simp [FrameDecoder.new]
    | some f => simp [FrameDecoder.new]

theorem firstFit_of_equations (cand : String → Option IMemory)
    (F : List String → Option IMemory) (A : List String → List String)
    (hF0 : F [] = none) (hA0 : A [] = [])
    (hF : ∀ c rest, F (c :: rest) = (cand c).orElse (fun _ => F rest))
    (hA : ∀ c rest, A (c :: rest) = c :: (if (cand c).isSome then [] else A rest)) :
    ∀ cs : List String, FirstFit cand cs (F cs) (A cs) := by
  intro cs
  induction cs with
  | nil =>
    refine ⟨by simp [hA0], ?_, by simp [hF0], by simp [hA0]⟩
    intro pre c post f h
    simp at h
  | cons a rest ih =>
    obtain ⟨ihp, ihfound, ihnone, ihall⟩ := ih
    cases hc : cand a with
    | some g =>
      refine ⟨by simp [hA, hc], ?_, by simp [hF, hc], by simp [hF, hc]⟩
      intro pre c post f hsplit hpre hcand
      cases pre with
      | nil =>
        simp at hsplit
        obtain ⟨h1, _⟩ := hsplit
        subst h1
        rw [hc] at hcand
        simp [hF, hA, hc, ← hcand]
      | cons b pre =>
        simp at hsplit
        have hb := hpre b (by simp)
        rw [← hsplit.1, hc] at hb
        simp at hb
    | none =>
      have hFa : F (a :: rest) = F rest := by simp [hF, hc]
      have hAa : A (a :: rest) = a :: A rest := by simp [hA, hc]
      refine ⟨?_, ?_, ?_, ?_⟩
      · rw [hAa]; exact (List.prefix_cons_inj a).mpr ihp
      · intro pre c post f hsplit hpre hcand
        cases pre with
        | nil =>
          simp at hsplit
          rw [← hsplit.1, hc] at hcand
          simp at hcand
        | cons b pre =>
          simp at hsplit
          obtain ⟨hf, ha⟩ := ihfound pre c post f hsplit.2
            (fun x hx => hpre x (by simp [hx])) hcand
          rw [hFa, hAa, hf, ha, hsplit.1]
          simp
      · rw [hFa, ihnone]; simp [hc]
      · intro h
        rw [hFa] at h
        rw [hAa, ihall h]

theorem frameDecodeLoop_cons (env : Env) (trackMeta : MetaData) (source : IMediaSource)
    (timeUs option colorFormat : Int) (r : Retriever) (c : String) (rest : List String) :
    ((frameDecodeLoop env trackMeta source timeUs option colorFormat r (c :: rest)).frame =
        (frameCandidateArtifact env trackMeta source timeUs option colorFormat c).orElse
          (fun _ => (frameDecodeLoop env trackMeta source timeUs option colorFormat r
            rest).frame)) ∧
    ((frameDecodeLoop env trackMeta source timeUs option colorFormat r (c :: rest)).attempted =
      c :: (if (frameCandidateArtifact env trackMeta source timeUs option colorFormat c).isSome
        then [] else (frameDecodeLoop env trackMeta source timeUs option colorFormat r
          rest).attempted)) := by
  simp only [frameDecodeLoop, frameCandidateArtifact, LoopResult.attempted]
  cases hi : (env.init (FrameDecoder.new DecoderKind.VideoFrameDecoder c trackMeta source)
      timeUs option colorFormat).1 with
  | false => simp [FrameDecoder.new]
  | true =>
    simp only [if_true]
    cases he : (env.extractFrame
        { FrameDecoder.new DecoderKind.VideoFrameDecoder c trackMeta source with
          state := (env.init (FrameDecoder.new DecoderKind.VideoFrameDecoder c trackMeta source)
            timeUs option colorFormat).2 } none).1 with
    | none => simp [FrameDecoder.new]
    | some f => simp [FrameDecoder.new]

/-- C3. First-fit decoder fallback.  For every ordered candidate list the
fallback loops of `getImageInternal` and `getFrameInternal` construct decoders
for a prefix of the list, in list order; when the list splits into candidates
that all fail, a candidate that initialises and yields an artifact, and a
rest, the loop returns that artifact and constructs no decoder for the rest;
the result is empty exactly when no candidate both initialises and yields an
artifact, and then every candidate was tried. -/
theorem first_fit_decoder_fallback (env : Env) (trackMeta : MetaData) (source : IMediaSource)
    (index timeUs option colorFormat : Int) (thumbnail : Bool) (rect : Option FrameRect)
    (r : Retriever) (candidates : List String) :
    FirstFit (imageCandidateArtifact env trackMeta source colorFormat thumbnail rect) candidates
        (imageDecodeLoop env trackMeta source index colorFormat thumbnail rect r
          candidates).frame
        (imageDecodeLoop env trackMeta source index colorFormat thumbnail rect r
          candidates).attempted ∧
    FirstFit (frameCandidateArtifact env trackMeta source timeUs option colorFormat) candidates
        (frameDecodeLoop env trackMeta source timeUs option colorFormat r candidates).frame
        (frameDecodeLoop env trackMeta source timeUs option colorFormat r
          candidates).attempted := by
  constructor
  · exact firstFit_of_equations _
      (fun cs => (imageDecodeLoop env trackMeta source index colorFormat thumbnail rect r
        cs).frame)
      (fun cs => (imageDecodeLoop env trackMeta source index colorFormat thumbnail rect r
        cs).attempted)
      (by simp [imageDecodeLoop]) (by simp [imageDecodeLoop, LoopResult.attempted])
      (fun c rest => (imageDecodeLoop_cons env trackMeta source index colorFormat thumbnail
        rect r c rest).1)
      (fun c rest => (imageDecodeLoop_cons env trackMeta source index colorFormat thumbnail
        rect r c rest).2) candidates
  · exact firstFit_of_equations _
      (fun cs => (frameDecodeLoop env trackMeta source timeUs option colorFormat r cs).frame)
      (fun cs => (frameDecodeLoop env trackMeta source timeUs option colorFormat r
        cs).attempted)
      (by simp [frameDecodeLoop]) (by simp [frameDecodeLoop, LoopResult.attempted])
      (fun c rest => (frameDecodeLoop_cons env trackMeta source timeUs option colorFormat r c
        rest).1)
      (fun c rest => (frameDecodeLoop_cons env trackMeta source timeUs option colorFormat r c
        rest).2) candidates

theorem first_fit_decoder_fallback_witness :
    (imageDecodeLoop (exampleEnv none 5) ⟨[]⟩ ⟨0⟩ 0 0 false none Retriever.new
        ["A", "B", "C"]).frame = some ⟨1⟩ ∧
    (imageDecodeLoop (exampleEnv none 5) ⟨[]⟩ ⟨0⟩ 0 0 false none Retriever.new
        ["A", "B", "C"]).attempted = ["A", "B"] ++ ["C"] :=
  (first_fit_decoder_fallback (exampleEnv none 5) ⟨[]⟩ ⟨0⟩ 0 0 0 0 false none Retriever.new
    ["A", "B", "C"]).1.2.1 ["A", "B"] "C" [] ⟨1⟩ rfl (by decide) (by decide)

/-! ## Bit-depth capability probe -/

theorem colorsHaveP010_iff (d : MediaDefs) (colors : List Nat) :
    colorsHaveP010 d colors = true ↔ d.COLOR_FormatYUVP010 ∈ colors := by
  induction colors with
  | nil => simp [colorsHaveP010]
  | cons c rest ih =>
    by_cases h : c = d.COLOR_FormatYUVP010
    · simp [colorsHaveP010, h]
    · have h2 : ¬ d.COLOR_FormatYUVP010 = c := fun e => h e.symm
      simp [colorsHaveP010, h, h2, ih]

theorem findFrom_spec (l : IMediaCodecList) (mime : String) (encoder : Bool) :
    ∀ (fuel i : Nat),
      (l.findFrom mime encoder fuel i < 0 ∧
        ∀ k e, i ≤ k → k < i + fuel → l.entries.get? k = some e →
          e.matchesType mime encoder = false) ∨
      (∃ (j : Nat) (e : CodecEntry), l.findFrom mime encoder fuel i = (j : Int) ∧ i ≤ j ∧
        l.entries.get? j = some e ∧ e.matchesType mime encoder = true ∧
        ∀ k e2, i ≤ k → k < j → l.entries.get? k = some e2 →
          e2.matchesType mime encoder = false) := by
  intro fuel
  induction fuel with
  | zero =>
    intro i
    left
    refine ⟨by simp [IMediaCodecList.findFrom], ?_⟩
    intro k e h1 h2; omega
  | succ fuel ih =>
    intro i
    rw [IMediaCodecList.findFrom]
    cases hget : l.entries.get? i with
    | none =>
      left
      refine ⟨by simp, ?_⟩
      intro k e h1 _ hk
      have hlen : l.entries.length ≤ i := List.get?_eq_none.mp hget
      have : l.entries.get? k = none := List.get?_eq_none.mpr (by omega)
      rw [this] at hk; cases hk
    | some e0 =>
      by_cases hm : e0.matchesType mime encoder = true
      · right
        refine ⟨i, e0, by simp [hm], le_refl i, hget, hm, ?_⟩
        intro k e2 h1 h2; omega
      · have hm2 : e0.matchesType mime encoder = false := by simpa using hm
        simp only [hm2]
        rcases ih (i + 1) with ⟨hneg, hall⟩ | ⟨j, e, hj, hle, hgetj, hmj, hbefore⟩
        · left
          refine ⟨by simpa using hneg, ?_⟩
          intro k e h1 h2 hk
          by_cases hki : k = i
          · subst hki; rw [hget] at hk; cases hk; exact hm2
          · exact hall k e (by omega) (by omega) hk
        · right
          refine ⟨j, e, by simpa using hj, by omega, hgetj, hmj, ?_⟩
          intro k e2 h1 h2 hk
          by_cases hki : k = i
          · subst hki; rw [hget] at hk; cases hk; exact hm2
          · exact hbefore k e2 (by omega) h2 hk

theorem findCodecByType_spec (l : IMediaCodecList) (mime : String) (encoder : Bool)
    (start : Nat) :
    (l.findCodecByType mime encoder start < 0 ∧
        ∀ k e, start ≤ k → l.entries.get? k = some e → e.matchesType mime encoder = false) ∨
      (∃ (j : Nat) (e : CodecEntry), l.findCodecByType mime encoder start = (j : Int) ∧ start ≤ j ∧
        l.entries.get? j = some e ∧ e.matchesType mime encoder = true ∧
        ∀ k e2, start ≤ k → k < j → l.entries.get? k = some e2 →
          e2.matchesType mime encoder = false) := by
  unfold IMediaCodecList.findCodecByType
  rcases findFrom_spec l mime encoder (l.entries.length - start) start with
    ⟨hneg, hall⟩ | h
  · left
    refine ⟨hneg, ?_⟩
    intro k e h1 hk
    have hlt : k < l.entries.length := (List.get?_eq_some.mp hk).1
    exact hall k e h1 (by omega) hk
  · right; exact h

theorem p010ProbeLoop_spec (env : Env) (l : IMediaCodecList) (mime : String) :
    ∀ (fuel index : Nat), l.entries.length + 1 ≤ fuel + index →
      (p010ProbeLoop env l mime fuel index true = true ↔
        ∀ k e, index ≤ k → l.entries.get? k = some e →
          isHardwareEntry env mime e = true → advertisesP010 env mime e = true) := by
  intro fuel
  induction fuel with
  | zero =>
    intro index hfuel
    simp only [p010ProbeLoop, true_iff]
    intro k e hk hget
    have hlt : k < l.entries.length := (List.get?_eq_some.mp hget).1
    omega
  | succ fuel ih =>
    intro index hfuel
    rw [p010ProbeLoop]
    rcases findCodecByType_spec l mime false index with
      ⟨hneg, hall⟩ | ⟨j, e, hj, hle, hgetj, hmj, hbefore⟩
    · simp only [hneg, if_true, true_iff]
      intro k e hk hget hhw
      have := hall k e hk hget
      simp [isHardwareEntry, this] at hhw
    · have hnn : ¬ ((j : Int) < 0) := by omega
      simp only [hj, hnn, if_false, Int.toNat_ofNat]
      have hrec := ih (j + 1) (by omega)
      -- entries strictly between `index` and `j` are not reported for the MIME
      have hlow : ∀ k e2, index ≤ k → k < j → l.entries.get? k = some e2 →
          isHardwareEntry env mime e2 = true → advertisesP010 env mime e2 = true := by
        intro k e2 h1 h2 hk hhw
        have := hbefore k e2 h1 h2 hk
        simp [isHardwareEntry, this] at hhw
      -- the statement for `index` splits into slot `j` and the slots after it
      have hsplit : (∀ k e2, index ≤ k → l.entries.get? k = some e2 →
            isHardwareEntry env mime e2 = true → advertisesP010 env mime e2 = true) ↔
          ((isHardwareEntry env mime e = true → advertisesP010 env mime e = true) ∧
            ∀ k e2, j + 1 ≤ k → l.entries.get? k = some e2 →
              isHardwareEntry env mime e2 = true → advertisesP010 env mime e2 = true) := by
        constructor
        · intro h
          exact ⟨h j e hle hgetj, fun k e2 hk => h k e2 (by omega)⟩
        · rintro ⟨h1, h2⟩ k e2 hk hget
          rcases Nat.lt_trichotomy k j with hlt | heq | hgt
          · exact hlow k e2 hk hlt hget
          · subst heq; rw [hgetj] at hget; cases hget; exact h1
          · exact h2 k e2 (by omega) hget
      rw [hsplit]
      have hinfo : l.getCodecInfo j = e.info := by
        rw [IMediaCodecList.getCodecInfo, hgetj]; rfl
      rw [hinfo]
      cases hi : e.info with
      | none =>
        have hfirst : isHardwareEntry env mime e = false := by simp [isHardwareEntry, hi]
        simp only [hrec, hfirst, Bool.false_eq_true, false_implies, true_and]
      | some info =>
        by_cases hsw : env.isSoftwareCodec info.codecName = true
        · have hfirst : isHardwareEntry env mime e = false := by
            simp [isHardwareEntry, hi, hsw]
          simp only [hsw, if_true, hrec, hfirst, Bool.false_eq_true, false_implies, true_and]
        · have hsw2 : env.isSoftwareCodec info.codecName = false := by simpa using hsw
          simp only [hsw2]
          cases hc : info.getCapabilitiesFor mime with
          | none =>
            have hfirst : isHardwareEntry env mime e = false := by
              simp [isHardwareEntry, hi, hc]
            simp only [Bool.false_eq_true, if_false, ite_self, hrec, hfirst, false_implies,
              true_and]
          | some caps =>
            have hhw : isHardwareEntry env mime e = true := by
              simp [isHardwareEntry, hi, hc, hmj, hsw2]
            by_cases hp : colorsHaveP010 env.defs caps.colorFormats = true
            · have hmem := (colorsHaveP010_iff env.defs caps.colorFormats).mp hp
              have hadv : advertisesP010 env mime e = true := by
                simp [advertisesP010, hi, hc, hmem]
              simp only [Bool.false_eq_true, if_false, hp, if_true, hrec, hhw, hadv,
                forall_const, true_and]
            · have hmem : ¬ env.defs.COLOR_FormatYUVP010 ∈ caps.colorFormats :=
                fun h => hp ((colorsHaveP010_iff env.defs caps.colorFormats).mpr h)
              have hadv : advertisesP010 env mime e = false := by
                simp [advertisesP010, hi, hc, hmem]
              simp [hp, hhw, hadv]

/-- The bound on the iterations of the probe loop is never reached: every
bound of at least one more than the number of registry slots gives the value
of `hardwareCodecSupportsP010`. -/
theorem p010ProbeLoop_enough_fuel (env : Env) (list : IMediaCodecList) (mime : String)
    (hlist : env.codecList = some list) (fuel : Nat) (hfuel : list.entries.length + 1 ≤ fuel) :
    p010ProbeLoop env list mime fuel 0 true = hardwareCodecSupportsP010 env mime := by
  have h1 := p010ProbeLoop_spec env list mime fuel 0 (by omega)
  have h2 := p010ProbeLoop_spec env list mime (list.entries.length + 1) 0 (by omega)
  unfold hardwareCodecSupportsP010
  simp only [hlist]
  cases ha : p010ProbeLoop env list mime fuel 0 true <;>
    cases hb : p010ProbeLoop env list mime (list.entries.length + 1) 0 true
  · rfl
  · exact absurd (h1.mpr (h2.mp hb)) (by simp [ha])
  · exact absurd (h2.mpr (h1.mp ha)) (by simp [hb])
  · rfl

/-- The probe flag is true exactly when every qualifying hardware entry of the
registry advertises the 10-bit layout (in particular when there is none). -/
theorem hardwareCodecSupportsP010_iff (env : Env) (mime : String) :
    hardwareCodecSupportsP010 env mime = true ↔
      ∀ list, env.codecList = some list → ∀ e ∈ list.entries,
        isHardwareEntry env mime e = true → advertisesP010 env mime e = true := by
  unfold hardwareCodecSupportsP010
  cases hl : env.codecList with
  | none => simp
  | some list =>
    simp only [Option.some.injEq, forall_eq']
    rw [p010ProbeLoop_spec env list mime (list.entries.length + 1) 0 (by omega)]
    constructor
    · intro h e he
      obtain ⟨k, hget⟩ := List.mem_iff_get?.mp he
      exact h k e (Nat.zero_le k) hget
    · intro h k e _ hget
      exact h e (List.mem_iff_get?.mpr ⟨k, hget⟩)

theorem profileBitDepth_of_tenBit (d : MediaDefs) (mime : String) (format : AMessage)
    (h : TenBitProfile d mime format) : profileBitDepth d mime format = 10 := by
  obtain ⟨profile, hfind, hcase⟩ := h
  unfold profileBitDepth
  rcases hcase with ⟨hm, hp⟩ | ⟨hm1, hm2, hp⟩
  · simp only [hm, if_true, hfind]
    have : d.HEVCProfileMain10 = profile ∨ d.HEVCProfileMain10HDR10 = profile ∨
        d.HEVCProfileMain10HDR10Plus = profile := by
      rcases hp with h | h | h <;> simp [h]
    simp [this]
  · simp only [hm1, hm2, if_true, if_false, hfind]
    have : d.AV1ProfileMain10 = profile ∨ d.AV1ProfileMain10HDR10 = profile ∨
        d.AV1ProfileMain10HDR10Plus = profile := by
      rcases hp with h | h | h <;> simp [h]
    simp [this]

theorem imageBitDepth_of_tenBit (env : Env) (mime : String) (format : AMessage)
    (h : TenBitProfile env.defs mime format) :
    imageBitDepth env mime format = if hardwareCodecSupportsP010 env mime then 10 else 8 := by
  unfold imageBitDepth restrictBitDepth
  rw [profileBitDepth_of_tenBit env.defs mime format h]
  cases hardwareCodecSupportsP010 env mime <;> simp

/-- C4 (amended).  Bit-depth downgrade, for a negotiated Main10 / Main10HDR10 /
Main10HDR10Plus profile of HEVC or AV1: (i) if the registry has at least one
qualifying hardware (non-software) entry for the MIME and every such entry
lacks `COLOR_FormatYUVP010`, the final bit depth is 8; (ii) if at least one
hardware entry advertises it and no hardware entry fails to advertise it, the
final bit depth stays 10. -/
theorem bit_depth_downgrade (env : Env) (mime : String) (format : AMessage)
    (list : IMediaCodecList) (hlist : env.codecList = some list)
    (hp : TenBitProfile env.defs mime format) :
    ((∃ e ∈ list.entries, isHardwareEntry env mime e = true) →
      (∀ e ∈ list.entries, isHardwareEntry env mime e = true →
        advertisesP010 env mime e = false) →
      imageBitDepth env mime format = 8) ∧
    ((∃ e ∈ list.entries, isHardwareEntry env mime e = true ∧
        advertisesP010 env mime e = true) →
      (∀ e ∈ list.entries, isHardwareEntry env mime e = true →
        advertisesP010 env mime e = true) →
      imageBitDepth env mime format = 10) := by
  rw [imageBitDepth_of_tenBit env mime format hp]
  constructor
  · rintro ⟨e, he, hhw⟩ hall
    have hno : ¬ hardwareCodecSupportsP010 env mime = true := by
      intro hs
      have h1 := (hardwareCodecSupportsP010_iff env mime).mp hs list hlist e he hhw
      rw [hall e he hhw] at h1
      cases h1
    simp [hno]
  · intro _ hall
    have hyes : hardwareCodecSupportsP010 env mime = true :=
      (hardwareCodecSupportsP010_iff env mime).mpr (by
        intro l hl e he hhw
        rw [hlist] at hl
        cases hl
        exact hall e he hhw)
    simp [hyes]

theorem bit_depth_downgrade_witness :
    imageBitDepth (exampleEnv (some registryWithout10Bit) 5) "video/hevc" main10Format = 8 ∧
    imageBitDepth (exampleEnv (some registryWith10Bit) 5) "video/hevc" main10Format = 10 :=
  ⟨(bit_depth_downgrade (exampleEnv (some registryWithout10Bit) 5) "video/hevc" main10Format
      registryWithout10Bit rfl ⟨2, by decide, Or.inl ⟨by decide, Or.inl rfl⟩⟩).1
      ⟨exampleEntry "OMX.vendor.hevc.decoder" [19], by simp [registryWithout10Bit], by decide⟩
      (by
        intro e he
        simp only [registryWithout10Bit, List.mem_cons, List.mem_singleton, List.not_mem_nil,
          or_false] at he
        rcases he with rfl | rfl <;> decide),
    (bit_depth_downgrade (exampleEnv (some registryWith10Bit) 5) "video/hevc" main10Format
      registryWith10Bit rfl ⟨2, by decide, Or.inl ⟨by decide, Or.inl rfl⟩⟩).2
      ⟨exampleEntry "OMX.vendor.hevc.decoder" [19, 54], by simp [registryWith10Bit],
        by decide⟩
      (by
        intro e he
        simp only [registryWith10Bit, List.mem_cons, List.mem_singleton, List.not_mem_nil,
          or_false] at he
        rcases he with rfl | rfl <;> decide)⟩

/-- C4 as stated fails: in a registry whose only entry for the MIME is a
software decoder, every hardware entry (there is none) lacks the 10-bit
layout, and no entry at all advertises it, yet the final bit depth of a Main10
HEVC image is 10, not 8. -/
theorem bit_depth_downgrade_counterexample :
    TenBitProfile (exampleEnv (some ⟨[exampleEntry "c2.android.hevc.decoder" [19, 21]]⟩) 5).defs
        "video/hevc" main10Format ∧
    (∀ e ∈ [exampleEntry "c2.android.hevc.decoder" [19, 21]],
        isHardwareEntry (exampleEnv (some ⟨[exampleEntry "c2.android.hevc.decoder" [19, 21]]⟩) 5)
          "video/hevc" e = true →
        advertisesP010 (exampleEnv (some ⟨[exampleEntry "c2.android.hevc.decoder" [19, 21]]⟩) 5)
          "video/hevc" e = false) ∧
    imageBitDepth (exampleEnv (some ⟨[exampleEntry "c2.android.hevc.decoder" [19, 21]]⟩) 5)
        "video/hevc" main10Format ≠ 8 := by
  refine ⟨⟨2, by decide, Or.inl ⟨by decide, Or.inl rfl⟩⟩, ?_, by decide⟩
  intro e he
  simp only [List.mem_singleton] at he
  subst he
  decide

/-- C5 (amended).  For a negotiated 10-bit profile, when the registry has no
qualifying non-software entry for the MIME (it is absent, empty, or holds
software entries only), the target bit depth is not downgraded: it stays 10.
The bit depth is downgraded to 8 exactly when some qualifying non-software
entry lacks `COLOR_FormatYUVP010`. -/
theorem bit_depth_without_hardware (env : Env) (mime : String) (format : AMessage)
    (hp : TenBitProfile env.defs mime format) :
    ((∀ list, env.codecList = some list →
        ∀ e ∈ list.entries, isHardwareEntry env mime e = false) →
      imageBitDepth env mime format = 10) ∧
    (imageBitDepth env mime format = 8 ↔
      ∃ list, env.codecList = some list ∧
        ∃ e ∈ list.entries, isHardwareEntry env mime e = true ∧
          advertisesP010 env mime e = false) := by
  rw [imageBitDepth_of_tenBit env mime format hp]
  constructor
  · intro hnone
    have hyes : hardwareCodecSupportsP010 env mime = true :=
      (hardwareCodecSupportsP010_iff env mime).mpr (by
        intro l hl e he hhw
        rw [hnone l hl e he] at hhw
        cases hhw)
    simp [hyes]
  · constructor
    · intro h8
      have hno : ¬ hardwareCodecSupportsP010 env mime = true := by
        intro hs
        simp [hs] at h8
      by_contra hcon
      apply hno
      apply (hardwareCodecSupportsP010_iff env mime).mpr
      intro l hl e he hhw
      by_contra hadv
      exact hcon ⟨l, hl, e, he, hhw, by simpa using hadv⟩
    · rintro ⟨l, hl, e, he, hhw, hadv⟩
      have hno : ¬ hardwareCodecSupportsP010 env mime = true := by
        intro hs
        have h1 := (hardwareCodecSupportsP010_iff env mime).mp hs l hl e he hhw
        rw [hadv] at h1
        cases h1
      simp [hno]

theorem bit_depth_without_hardware_witness :
    imageBitDepth (exampleEnv (some softwareOnlyRegistry) 5) "video/av01" main10Format = 10 :=
  (bit_depth_without_hardware (exampleEnv (some softwareOnlyRegistry) 5) "video/av01"
    main10Format ⟨2, by decide, Or.inr ⟨by decide, by decide, Or.inl rfl⟩⟩).1
    (by
      intro list hl e he
      have hlist : list = softwareOnlyRegistry := by
        simp only [exampleEnv, Option.some.injEq] at hl
        exact hl.symm
      subst hlist
      simp only [softwareOnlyRegistry, List.mem_cons, List.mem_singleton, List.not_mem_nil,
        or_false] at he
      rcases he with rfl | rfl <;> decide)

/-- C5 as stated fails: with an empty registry, and with a registry of
software decoders only, the bit depth of a Main10 AV1 image stays 10, and 10
is the bit depth that a metadata-only request for the primary AVIF image of
the example container hands to `getMetadataOnly` (whose example
implementation returns the bit depth as the artifact). -/
theorem bit_depth_without_hardware_counterexample :
    TenBitProfile androidDefs "video/av01" main10Format ∧
    imageBitDepth (exampleEnv (some ⟨[]⟩) 5) "video/av01" main10Format = 10 ∧
    imageBitDepth (exampleEnv (some softwareOnlyRegistry) 5) "video/av01" main10Format = 10 ∧
    imageBitDepth (exampleEnv (some softwareOnlyRegistry) 5) "video/av01" main10Format ≠ 8 ∧
    (getImageInternal (exampleEnv (some softwareOnlyRegistry) 5) boundRetriever (-1) 0
      true false none).1 = some ⟨10⟩ := by
  refine ⟨⟨2, by decide, Or.inr ⟨by decide, by decide, Or.inl rfl⟩⟩, by decide, by decide,
    by decide, by decide⟩

/-! ## Decoder cache -/

theorem imageDecodeLoop_state (env : Env) (trackMeta : MetaData) (source : IMediaSource)
    (index colorFormat : Int) (thumbnail : Bool) (rect : Option FrameRect) (r : Retriever) :
    ∀ cs : List String,
      ((imageDecodeLoop env trackMeta source index colorFormat thumbnail rect r cs).state = r ∧
        ¬ ((imageDecodeLoop env trackMeta source index colorFormat thumbnail rect r
              cs).frame.isSome = true ∧ rect.isSome = true)) ∨
      (∃ d, (imageDecodeLoop env trackMeta source index colorFormat thumbnail rect r cs).state =
          r.populate d index ∧
        (imageDecodeLoop env trackMeta source index colorFormat thumbnail rect r
          cs).frame.isSome = true ∧ rect.isSome = true ∧
        d.kind = DecoderKind.MediaImageDecoder) := by
  intro cs
  induction cs with
  | nil => left; simp [imageDecodeLoop]
  | cons c rest ih =>
    simp only [imageDecodeLoop]
    cases hi : (env.init (FrameDecoder.new DecoderKind.MediaImageDecoder c trackMeta source)
        (if thumbnail = true then -1 else 0) 0 colorFormat).1 with
    | false => simpa using ih
    | true =>
      simp only [if_true]
      cases he : (env.extractFrame
          { FrameDecoder.new DecoderKind.MediaImageDecoder c trackMeta source with
            state := (env.init (FrameDecoder.new DecoderKind.MediaImageDecoder c trackMeta
              source) (if thumbnail = true then -1 else 0) 0 colorFormat).2 } rect).1 with
      | none => simpa using ih
      | some f =>
        by_cases hr : rect.isSome = true
        · right
          exact ⟨_, by simp only [hr, if_true, Retriever.populate]; rfl, by simp, hr, by rfl⟩
        · left
          simp [hr]

theorem getImageInternal_clears (env : Env) (r : Retriever) (index colorFormat : Int)
    (metaOnly thumbnail : Bool) (rect : Option FrameRect) :
    getImageInternal env r index colorFormat metaOnly thumbnail rect =
      getImageInternal env r.clearCache index colorFormat metaOnly thumbnail rect := rfl

theorem getImageInternal_outcome (env : Env) (r : Retriever) (index colorFormat : Int)
    (metaOnly thumbnail : Bool) (rect : Option FrameRect) :
    ((getImageInternal env r index colorFormat metaOnly thumbnail rect).2 = r.clearCache ∧
      ¬ ((getImageInternal env r index colorFormat metaOnly thumbnail rect).1.isSome = true ∧
          metaOnly = false ∧ rect.isSome = true)) ∨
    (∃ d, (getImageInternal env r index colorFormat metaOnly thumbnail rect).2 =
        r.clearCache.populate d index ∧
      (getImageInternal env r index colorFormat metaOnly thumbnail rect).1.isSome = true ∧
      metaOnly = false ∧ rect.isSome = true ∧ d.kind = DecoderKind.MediaImageDecoder) := by
  unfold getImageInternal decodeImageTrack
  simp only []
  split
  · left; simp [Retriever.clearCache]
  · split
    · left; simp [Retriever.clearCache]
    · split
      · left; simp [Retriever.clearCache]
      · split
        · left; simp [Retriever.clearCache]
        · split
          · left; simp [Retriever.clearCache]
          · split
            · left; simp_all [Retriever.clearCache]
            · split
              · left; simp [Retriever.clearCache]
              · rename_i hmo _ _ _
                have hmo2 : metaOnly = false := by simpa using hmo
                rcases imageDecodeLoop_state env _ _ index colorFormat thumbnail rect
                    r.clearCache _ with ⟨h1, h2⟩ | ⟨d, h1, h2, h3, h4⟩
                · left
                  exact ⟨h1, fun h => h2 ⟨h.1, h.2.2⟩⟩
                · right
                  exact ⟨d, h1, h2, hmo2, h3, h4⟩

theorem frameDecodeLoop_state (env : Env) (trackMeta : MetaData) (source : IMediaSource)
    (timeUs option colorFormat : Int) (r : Retriever) :
    ∀ cs : List String,
      ((frameDecodeLoop env trackMeta source timeUs option colorFormat r cs).state = r ∧
        ¬ ((frameDecodeLoop env trackMeta source timeUs option colorFormat r
              cs).frame.isSome = true ∧ option = env.defs.SEEK_FRAME_INDEX)) ∨
      (∃ d, (frameDecodeLoop env trackMeta source timeUs option colorFormat r cs).state =
          r.populate d (toInt32 timeUs) ∧
        (frameDecodeLoop env trackMeta source timeUs option colorFormat r
          cs).frame.isSome = true ∧ option = env.defs.SEEK_FRAME_INDEX ∧
        d.kind = DecoderKind.VideoFrameDecoder) := by
  intro cs
  induction cs with
  | nil => left; simp [frameDecodeLoop]
  | cons c rest ih =>
    simp only [frameDecodeLoop]
    cases hi : (env.init (FrameDecoder.new DecoderKind.VideoFrameDecoder c trackMeta source)
        timeUs option colorFormat).1 with
    | false => simpa using ih
    | true =>
      simp only [if_true]
      cases he : (env.extractFrame
          { FrameDecoder.new DecoderKind.VideoFrameDecoder c trackMeta source with
            state := (env.init (FrameDecoder.new DecoderKind.VideoFrameDecoder c trackMeta
              source) timeUs option colorFormat).2 } none).1 with
      | none => simpa using ih
      | some f =>
        by_cases hr : option = env.defs.SEEK_FRAME_INDEX
        · right
          exact ⟨_, by simp only [hr, if_true, Retriever.populate]; rfl, by simp, hr, by rfl⟩
        · left
          simp [hr]

theorem captureAlbumArt_cache (meta : MetaData) (r : Retriever) :
    (captureAlbumArt meta r).mDecoder = r.mDecoder ∧
    (captureAlbumArt meta r).mLastDecodedIndex = r.mLastDecodedIndex := by
  unfold captureAlbumArt
  split <;> simp

theorem getFrameInternal_clears (env : Env) (r : Retriever) (timeUs option colorFormat : Int)
    (metaOnly : Bool) :
    getFrameInternal env r timeUs option colorFormat metaOnly =
      getFrameInternal env r.clearCache timeUs option colorFormat metaOnly := rfl

theorem getFrameInternal_outcome (env : Env) (r : Retriever) (timeUs option colorFormat : Int)
    (metaOnly : Bool) :
    ((getFrameInternal env r timeUs option colorFormat metaOnly).2.mDecoder = none ∧
      (getFrameInternal env r timeUs option colorFormat metaOnly).2.mLastDecodedIndex = -1 ∧
      ¬ ((getFrameInternal env r timeUs option colorFormat metaOnly).1.isSome = true ∧
          metaOnly = false ∧ option = env.defs.SEEK_FRAME_INDEX)) ∨
    (∃ d, (getFrameInternal env r timeUs option colorFormat metaOnly).2.mDecoder = some d ∧
      (getFrameInternal env r timeUs option colorFormat metaOnly).2.mLastDecodedIndex =
        toInt32 timeUs ∧
      (getFrameInternal env r timeUs option colorFormat metaOnly).1.isSome = true ∧
      metaOnly = false ∧ option = env.defs.SEEK_FRAME_INDEX ∧
      d.kind = DecoderKind.VideoFrameDecoder) := by
  unfold getFrameInternal
  simp only []
  split
  · left; simp
  · split
    · left; simp
    · split
      · left; simp
      · split
        · left; simp
        · split
          · left; simp_all
          · split
            · left; simp
            · split
              · left; simp [captureAlbumArt_cache]
              · split
                · left; simp [captureAlbumArt_cache]
                · rename_i hmo _ _ _ _ _ _ _ _ _
                  have hmo2 : metaOnly = false := by simpa using hmo
                  rcases frameDecodeLoop_state env _ _ timeUs option colorFormat
                      (captureAlbumArt _ r.clearCache) _ with ⟨h1, h2⟩ | ⟨d, h1, h2, h3, h4⟩
                  · left
                    refine ⟨?_, ?_, fun h => h2 ⟨h.1, h.2.2⟩⟩
                    · exact (congrArg Retriever.mDecoder h1).trans (captureAlbumArt_cache _ _).1
                    · exact (congrArg Retriever.mLastDecodedIndex h1).trans
                        (captureAlbumArt_cache _ _).2
                  · right
                    refine ⟨d, ?_, ?_, h2, hmo2, h3, h4⟩
                    · exact congrArg Retriever.mDecoder h1
                    · exact congrArg Retriever.mLastDecodedIndex h1

theorem toInt32_of_int (v : Int) (hlo : INT32_MIN ≤ v) (hhi : v ≤ INT32_MAX) : toInt32 v = v := by
  unfold toInt32
  unfold INT32_MIN at hlo
  unfold INT32_MAX at hhi
  omega

/-- C9. Cache population rule.  `getImageInternal` and `getFrameInternal`
behave as if started on the empty cache.  When they return, the cache is
populated if the call returned an artifact of the fallback engine (a non-NULL
result of a request that is not metadata-only) and the request carried a crop
rectangle (image path) or used the seek mode `SEEK_FRAME_INDEX` (video path),
and it is empty (no decoder, retained index -1) otherwise: after every failed
request, every metadata-only request and every `getImageAtIndex` request.  A
populated cache retains the requested index (on the video path `timeUs`
converted to `int`, which is the frame index itself for every `int`). -/
theorem cache_population_rule (env : Env) (r : Retriever)
    (index timeUs option colorFormat : Int) (metaOnly thumbnail : Bool)
    (rect : Option FrameRect) :
    getImageInternal env r index colorFormat metaOnly thumbnail rect =
      getImageInternal env r.clearCache index colorFormat metaOnly thumbnail rect ∧
    (((getImageInternal env r index colorFormat metaOnly thumbnail rect).1.isSome = true ∧
        metaOnly = false ∧ rect.isSome = true) →
      (getImageInternal env r index colorFormat metaOnly thumbnail rect).2.mDecoder.isSome
        = true ∧
      (getImageInternal env r index colorFormat metaOnly thumbnail rect).2.mLastDecodedIndex
        = index) ∧
    (¬ ((getImageInternal env r index colorFormat metaOnly thumbnail rect).1.isSome = true ∧
        metaOnly = false ∧ rect.isSome = true) →
      (getImageInternal env r index colorFormat metaOnly thumbnail rect).2.mDecoder = none ∧
      (getImageInternal env r index colorFormat metaOnly thumbnail rect).2.mLastDecodedIndex
        = -1) ∧
    ((getImageAtIndex env r index colorFormat metaOnly thumbnail).2.mDecoder = none ∧
      (getImageAtIndex env r index colorFormat metaOnly thumbnail).2.mLastDecodedIndex = -1) ∧
    getFrameInternal env r timeUs option colorFormat metaOnly =
      getFrameInternal env r.clearCache timeUs option colorFormat metaOnly ∧
    (((getFrameInternal env r timeUs option colorFormat metaOnly).1.isSome = true ∧
        metaOnly = false ∧ option = env.defs.SEEK_FRAME_INDEX) →
      (getFrameInternal env r timeUs option colorFormat metaOnly).2.mDecoder.isSome = true ∧
      (getFrameInternal env r timeUs option colorFormat metaOnly).2.mLastDecodedIndex =
        toInt32 timeUs ∧
      (INT32_MIN ≤ timeUs → timeUs ≤ INT32_MAX →
        (getFrameInternal env r timeUs option colorFormat metaOnly).2.mLastDecodedIndex =
          timeUs)) ∧
    (¬ ((getFrameInternal env r timeUs option colorFormat metaOnly).1.isSome = true ∧
        metaOnly = false ∧ option = env.defs.SEEK_FRAME_INDEX) →
      (getFrameInternal env r timeUs option colorFormat metaOnly).2.mDecoder = none ∧
      (getFrameInternal env r timeUs option colorFormat metaOnly).2.mLastDecodedIndex = -1) := by
  refine ⟨getImageInternal_clears _ _ _ _ _ _ _, ?_, ?_, ?_,
    getFrameInternal_clears _ _ _ _ _ _, ?_, ?_⟩
  · intro hA
    rcases getImageInternal_outcome env r index colorFormat metaOnly thumbnail rect with
      ⟨_, h2⟩ | ⟨d, h1, _⟩
    · exact absurd hA h2
    · rw [h1]; simp [Retriever.populate]
  · intro hA
    rcases getImageInternal_outcome env r index colorFormat metaOnly thumbnail rect with
      ⟨h1, _⟩ | ⟨d, _, h2, h3, h4, _⟩
    · rw [h1]; simp [Retriever.clearCache]
    · exact absurd ⟨h2, h3, h4⟩ hA
  · unfold getImageAtIndex
    rcases getImageInternal_outcome env r index colorFormat metaOnly thumbnail none with
      ⟨h1, _⟩ | ⟨d, _, _, _, h4, _⟩
    · rw [h1]; simp [Retriever.clearCache]
    · simp at h4
  · intro hA
    rcases getFrameInternal_outcome env r timeUs option colorFormat metaOnly with
      ⟨_, _, h3⟩ | ⟨d, h1, h2, _⟩
    · exact absurd hA h3
    · refine ⟨by rw [h1]; rfl, h2, fun hlo hhi => ?_⟩
      rw [h2, toInt32_of_int timeUs hlo hhi]
  · intro hA
    rcases getFrameInternal_outcome env r timeUs option colorFormat metaOnly with
      ⟨h1, h2, _⟩ | ⟨d, _, _, h3, h4, h5, _⟩
    · exact ⟨h1, h2⟩
    · exact absurd ⟨h3, h4, h5⟩ hA

theorem cache_population_rule_witness :
    (getImageInternal (exampleEnv none 5) boundRetriever 1 0 false false
        (some ⟨0, 0, 10, 10⟩)).2.mLastDecodedIndex = 1 ∧
    (getFrameInternal (exampleEnv none 5) boundRetriever 7 4 0 false).2.mLastDecodedIndex = 7 ∧
    (getFrameInternal (exampleEnv none 5) boundRetriever 7 3 0 false).2.mDecoder = none :=
  ⟨((cache_population_rule (exampleEnv none 5) boundRetriever 1 7 4 0 false false
      (some ⟨0, 0, 10, 10⟩)).2.1 (by decide)).2,
    ((cache_population_rule (exampleEnv none 5) boundRetriever 1 7 4 0 false false
      (some ⟨0, 0, 10, 10⟩)).2.2.2.2.2.1 (by decide)).2.2 (by decide) (by decide),
    ((cache_population_rule (exampleEnv none 5) boundRetriever 1 7 3 0 false false
      (some ⟨0, 0, 10, 10⟩)).2.2.2.2.2.2 (by decide)).1⟩

theorem getImageRectAtIndex_hit (env : Env) (r : Retriever) (decoder : FrameDecoder)
    (K colorFormat left top right bottom : Int)
    (hd : r.mDecoder = some decoder) (hK : r.mLastDecodedIndex = K) :
    getImageRectAtIndex env r K colorFormat left top right bottom =
      ((env.extractFrame decoder (some ⟨left, top, right, bottom⟩)).1,
        { r with mDecoder := some { decoder with
            state := (env.extractFrame decoder (some ⟨left, top, right, bottom⟩)).2 } }) := by
  simp [getImageRectAtIndex, hd, hK]

theorem getImageRectAtIndex_miss (env : Env) (r : Retriever)
    (K colorFormat left top right bottom : Int) (hK : K ≠ r.mLastDecodedIndex) :
    getImageRectAtIndex env r K colorFormat left top right bottom =
      getImageInternal env r K colorFormat false false (some ⟨left, top, right, bottom⟩) := by
  unfold getImageRectAtIndex
  cases r.mDecoder <;> simp [hK]

/-- After a `getImageRectAtIndex` call at `K` that returned an artifact the
cache holds a decoder with retained index `K`. -/
theorem getImageRectAtIndex_success (env : Env) (r : Retriever)
    (K colorFormat left top right bottom : Int) (frame : IMemory)
    (h : (getImageRectAtIndex env r K colorFormat left top right bottom).1 = some frame) :
    ∃ decoder,
      (getImageRectAtIndex env r K colorFormat left top right bottom).2.mDecoder =
        some decoder ∧
      (getImageRectAtIndex env r K colorFormat left top right bottom).2.mLastDecodedIndex
        = K := by
  by_cases hK : K = r.mLastDecodedIndex
  · cases hd : r.mDecoder with
    | some decoder =>
      rw [getImageRectAtIndex_hit env r decoder K colorFormat left top right bottom hd hK.symm]
      exact ⟨_, rfl, hK.symm⟩
    | none =>
      have hmiss : getImageRectAtIndex env r K colorFormat left top right bottom =
          getImageInternal env r K colorFormat false false
            (some ⟨left, top, right, bottom⟩) := by
        simp [getImageRectAtIndex, hd]
      rw [hmiss] at h ⊢
      rcases getImageInternal_outcome env r K colorFormat false false
          (some ⟨left, top, right, bottom⟩) with ⟨_, h2⟩ | ⟨d, h1, _⟩
      · exact absurd ⟨by simp [h], rfl, rfl⟩ h2
      · rw [h1]; exact ⟨d, rfl, rfl⟩
  · rw [getImageRectAtIndex_miss env r K colorFormat left top right bottom hK] at h ⊢
    rcases getImageInternal_outcome env r K colorFormat false false
        (some ⟨left, top, right, bottom⟩) with ⟨_, h2⟩ | ⟨d, h1, _⟩
    · exact absurd ⟨by simp [h], rfl, rfl⟩ h2
    · rw [h1]; exact ⟨d, rfl, rfl⟩

/-- C6. Cache same-index fast path.  After a `getImageRectAtIndex` call at
index `K` that returned an artifact (in particular one that succeeded through
the fallback engine) the cache holds a decoder with retained index `K`.  A
following `getImageRectAtIndex` at the same `K`, with any rectangle, returns
what `extractFrame(rect)` of that cached decoder returns, and the state is
unchanged but for the private state of the decoder object, so the same decoder
stays cached with the same retained index.  The answer is the same whatever
container reader, codec registry and colour format the call is made with, as
long as the cache and the behaviour of the decoder are the same.  A following
request at another index is not served from the cache: it is the result of
`getImageInternal`, which starts from the emptied cache. -/
theorem cache_same_index_fast_path (env : Env) (r : Retriever)
    (K colorFormat left top right bottom : Int) (frame : IMemory)
    (hfirst : (getImageRectAtIndex env r K colorFormat left top right bottom).1 = some frame) :
    ∃ decoder,
      (getImageRectAtIndex env r K colorFormat left top right bottom).2.mDecoder =
        some decoder ∧
      (getImageRectAtIndex env r K colorFormat left top right bottom).2.mLastDecodedIndex
        = K ∧
      (∀ (env2 : Env) (colorFormat2 left2 top2 right2 bottom2 : Int),
        getImageRectAtIndex env2
            (getImageRectAtIndex env r K colorFormat left top right bottom).2
            K colorFormat2 left2 top2 right2 bottom2 =
          ((env2.extractFrame decoder (some ⟨left2, top2, right2, bottom2⟩)).1,
            { (getImageRectAtIndex env r K colorFormat left top right bottom).2 with
              mDecoder := some { decoder with
                state := (env2.extractFrame decoder
                  (some ⟨left2, top2, right2, bottom2⟩)).2 } })) ∧
      (∀ (env2 env3 : Env) (r3 : Retriever) (colorFormat2 colorFormat3 : Int)
          (left2 top2 right2 bottom2 : Int),
        env3.extractFrame = env2.extractFrame → r3.mDecoder = some decoder →
        r3.mLastDecodedIndex = K →
        (getImageRectAtIndex env3 r3 K colorFormat3 left2 top2 right2 bottom2).1 =
          (getImageRectAtIndex env2
            (getImageRectAtIndex env r K colorFormat left top right bottom).2
            K colorFormat2 left2 top2 right2 bottom2).1) ∧
      (∀ (env2 : Env) (K2 colorFormat2 left2 top2 right2 bottom2 : Int), K2 ≠ K →
        getImageRectAtIndex env2
            (getImageRectAtIndex env r K colorFormat left top right bottom).2
            K2 colorFormat2 left2 top2 right2 bottom2 =
          getImageInternal env2
            (getImageRectAtIndex env r K colorFormat left top right bottom).2.clearCache
            K2 colorFormat2 false false (some ⟨left2, top2, right2, bottom2⟩)) := by
  obtain ⟨decoder, hd, hK⟩ :=
    getImageRectAtIndex_success env r K colorFormat left top right bottom frame hfirst
  refine ⟨decoder, hd, hK, ?_, ?_, ?_⟩
  · intro env2 colorFormat2 left2 top2 right2 bottom2
    exact getImageRectAtIndex_hit env2 _ decoder K colorFormat2 left2 top2 right2 bottom2 hd hK
  · intro env2 env3 r3 colorFormat2 colorFormat3 left2 top2 right2 bottom2 henv hd3 hK3
    rw [getImageRectAtIndex_hit env3 r3 decoder K colorFormat3 left2 top2 right2 bottom2 hd3 hK3,
      getImageRectAtIndex_hit env2 _ decoder K colorFormat2 left2 top2 right2 bottom2 hd hK,
      henv]
  · intro env2 K2 colorFormat2 left2 top2 right2 bottom2 hne
    rw [getImageRectAtIndex_miss env2 _ K2 colorFormat2 left2 top2 right2 bottom2
      (by rw [hK]; exact hne)]
    exact getImageInternal_clears _ _ _ _ _ _ _

theorem cache_same_index_fast_path_witness :
    ∃ decoder,
      (getImageRectAtIndex (exampleEnv none 5) boundRetriever 1 0 0 0 10 10).2.mDecoder =
        some decoder ∧
      getImageRectAtIndex (exampleEnv none 5)
          (getImageRectAtIndex (exampleEnv none 5) boundRetriever 1 0 0 0 10 10).2
          1 0 0 0 5 5 =
        (((exampleEnv none 5).extractFrame decoder (some ⟨0, 0, 5, 5⟩)).1,
          { (getImageRectAtIndex (exampleEnv none 5) boundRetriever 1 0 0 0 10 10).2 with
            mDecoder := some { decoder with
              state := ((exampleEnv none 5).extractFrame decoder (some ⟨0, 0, 5, 5⟩)).2 } }) :=
  (cache_same_index_fast_path (exampleEnv none 5) boundRetriever 1 0 0 0 10 10 ⟨1⟩
    (by decide)).imp fun _ h => ⟨h.1, h.2.2.1 (exampleEnv none 5) 0 0 0 5 5⟩

/-- C7. Sequential fast path state update.  With a populated cache and
`frameIndex` equal to the retained index + 1, `getFrameAtIndex` calls
`extractFrame` of the cached decoder.  If that returns an artifact, the
artifact is returned, the retained index becomes `frameIndex`, one more than
before, and the same decoder object stays cached; if it returns nothing, the
retained index and the cached decoder object are as before.  In both cases
the only thing that moves inside the decoder object is its private state,
advanced by its own `extractFrame`. -/
theorem sequential_fast_path_state (env : Env) (r : Retriever) (decoder : FrameDecoder)
    (frameIndex colorFormat : Int) (metaOnly : Bool)
    (hd : r.mDecoder = some decoder) (hidx : frameIndex = r.mLastDecodedIndex + 1) :
    (∀ frame, (env.extractFrame decoder none).1 = some frame →
      getFrameAtIndex env r frameIndex colorFormat metaOnly =
        (some frame,
          { r with
            mDecoder := some { decoder with state := (env.extractFrame decoder none).2 }
            mLastDecodedIndex := r.mLastDecodedIndex + 1 })) ∧
    ((env.extractFrame decoder none).1 = none →
      getFrameAtIndex env r frameIndex colorFormat metaOnly =
        (none,
          { r with
            mDecoder := some { decoder with state := (env.extractFrame decoder none).2 }
            mLastDecodedIndex := r.mLastDecodedIndex })) := by
  constructor
  · intro frame hf
    simp [getFrameAtIndex, hd, hidx, hf]
  · intro hf
    simp [getFrameAtIndex, hd, hidx, hf]

theorem sequential_fast_path_state_witness :
    getFrameAtIndex (exampleEnv none 5) (retrieverAfterFrame0 5) 1 0 false =
      (some ⟨2⟩,
        { retrieverAfterFrame0 5 with
          mDecoder := some { cachedFrameDecoder with
            state := ((exampleEnv none 5).extractFrame cachedFrameDecoder none).2 }
          mLastDecodedIndex := (retrieverAfterFrame0 5).mLastDecodedIndex + 1 }) :=
  (sequential_fast_path_state (exampleEnv none 5) (retrieverAfterFrame0 5) cachedFrameDecoder
    1 0 false (by decide) (by decide)).1 ⟨2⟩ (by decide)

/-- C8 (amended).  When `getFrameAtIndex` takes the fast path (cache populated,
`frameIndex` = retained index + 1) and the cached decoder yields no artifact,
the call returns the empty result at once.  It does not fall through to
`getFrameInternal`: whenever `getFrameInternal` would return an artifact for
this request the two results differ.  The retained index is as before and the
same decoder object stays cached. -/
theorem sequential_fast_path_failure (env : Env) (r : Retriever) (decoder : FrameDecoder)
    (frameIndex colorFormat : Int) (metaOnly : Bool)
    (hd : r.mDecoder = some decoder) (hidx : frameIndex = r.mLastDecodedIndex + 1)
    (hfail : (env.extractFrame decoder none).1 = none) :
    (getFrameAtIndex env r frameIndex colorFormat metaOnly).1 = none ∧
    ((getFrameInternal env r frameIndex env.defs.SEEK_FRAME_INDEX colorFormat
          metaOnly).1.isSome = true →
      (getFrameAtIndex env r frameIndex colorFormat metaOnly).1 ≠
        (getFrameInternal env r frameIndex env.defs.SEEK_FRAME_INDEX colorFormat metaOnly).1) ∧
    (getFrameAtIndex env r frameIndex colorFormat metaOnly).2.mLastDecodedIndex =
      r.mLastDecodedIndex ∧
    (getFrameAtIndex env r frameIndex colorFormat metaOnly).2.mDecoder =
      some { decoder with state := (env.extractFrame decoder none).2 } := by
  have hres : getFrameAtIndex env r frameIndex colorFormat metaOnly =
      (none, { r with
        mDecoder := some { decoder with state := (env.extractFrame decoder none).2 } }) := by
    simp [getFrameAtIndex, hd, hidx, hfail]
  rw [hres]
  refine ⟨rfl, ?_, rfl, rfl⟩
  intro hsome heq
  rw [← heq] at hsome
  simp at hsome

theorem sequential_fast_path_failure_witness :
    (getFrameAtIndex (exampleEnv none 1) (retrieverAfterFrame0 1) 1 0 false).1 = none ∧
    (getFrameAtIndex (exampleEnv none 1) (retrieverAfterFrame0 1) 1 0 false).2.mLastDecodedIndex
      = 0 :=
  have h := sequential_fast_path_failure (exampleEnv none 1) (retrieverAfterFrame0 1)
    cachedFrameDecoder 1 0 false (by decide) (by decide) (by decide)
  ⟨h.1, h.2.2.1⟩

/-- C8 as stated fails.  In the example environment a decoder yields one
frame only.  After `getFrameAtIndex(0)` the cache is populated with retained
index 0; `getFrameAtIndex(1)` takes the fast path, the cached decoder yields
nothing, and NULL is returned, although `getFrameInternal(1, SEEK_FRAME_INDEX)`
on the same state returns an artifact. -/
theorem sequential_fast_path_fallthrough_counterexample :
    (retrieverAfterFrame0 1).mDecoder = some cachedFrameDecoder ∧
    (1 : Int) = (retrieverAfterFrame0 1).mLastDecodedIndex + 1 ∧
    ((exampleEnv none 1).extractFrame cachedFrameDecoder none).1 = none ∧
    (getFrameAtIndex (exampleEnv none 1) (retrieverAfterFrame0 1) 1 0 false).1 = none ∧
    (getFrameInternal (exampleEnv none 1) (retrieverAfterFrame0 1) 1
        (exampleEnv none 1).defs.SEEK_FRAME_INDEX 0 false).1 = some ⟨1⟩ := by
  decide

/-! ## Metadata synthesis: the duration field -/

theorem KeyedVector.find_replace_self (key : MetadataKey) (value : String) :
    ∀ items : List (MetadataKey × String),
      (items.any (fun kv => decide (kv.1 = key)) = true) →
      ((KeyedVector.replace key value items).find? (fun kv => decide (kv.1 = key))).map Prod.snd
        = some value := by
  intro items
  induction items with
  | nil => intro h; simp at h
  | cons kv rest ih =>
    intro h
    by_cases hk : kv.1 = key
    · simp [KeyedVector.replace, hk]
    · have hrest : rest.any (fun kv => decide (kv.1 = key)) = true := by
        simpa [hk] using h
      simp only [KeyedVector.replace, hk, if_false]
      rw [List.find?_cons_of_neg _ (by simpa using hk)]
      exact ih hrest

theorem KeyedVector.find_replace_other (key other : MetadataKey) (value : String)
    (hne : other ≠ key) :
    ∀ items : List (MetadataKey × String),
      (KeyedVector.replace other value items).find? (fun kv => decide (kv.1 = key)) =
        items.find? (fun kv => decide (kv.1 = key)) := by
  intro items
  induction items with
  | nil => simp [KeyedVector.replace]
  | cons kv rest ih =>
    by_cases hk : kv.1 = other
    · have h1 : ¬ kv.1 = key := by rw [hk]; exact hne
      simp only [KeyedVector.replace, hk, if_true]
      rw [List.find?_cons_of_neg _ (by simpa using hne), List.find?_cons_of_neg _ (by simpa using h1)]
    · simp only [KeyedVector.replace, hk, if_false]
      by_cases hk2 : kv.1 = key
      · rw [List.find?_cons_of_pos _ (by simpa using hk2), List.find?_cons_of_pos _ (by simpa using hk2)]
      · rw [List.find?_cons_of_neg _ (by simpa using hk2), List.find?_cons_of_neg _ (by simpa using hk2)]
        exact ih

theorem KeyedVector.valueFor_add_self (m : KeyedVector) (key : MetadataKey) (value : String) :
    (m.add key value).valueFor key = some value := by
  unfold KeyedVector.add KeyedVector.valueFor
  by_cases h : m.items.any (fun kv => decide (kv.1 = key)) = true
  · simp only [h, if_true]
    exact KeyedVector.find_replace_self key value m.items h
  · simp only [h]
    have hnone : m.items.find? (fun kv => decide (kv.1 = key)) = none := by
      rw [List.find?_eq_none]
      intro x hx hxk
      exact h (List.any_eq_true.mpr ⟨x, hx, hxk⟩)
    simp [List.find?_append, hnone]

theorem KeyedVector.valueFor_add_other (m : KeyedVector) (key other : MetadataKey)
    (value : String) (hne : other ≠ key) :
    (m.add other value).valueFor key = m.valueFor key := by
  unfold KeyedVector.add KeyedVector.valueFor
  by_cases h : m.items.any (fun kv => decide (kv.1 = other)) = true
  · simp only [h, if_true]
    rw [KeyedVector.find_replace_other key other value hne]
  · simp only [h]
    simp [List.find?_append, hne]

theorem scanAudioTrack_maxDurationUs (trackMeta : MetaData) (s : TrackScan) :
    (scanAudioTrack trackMeta s).maxDurationUs = s.maxDurationUs := rfl

theorem scanVideoTrack_maxDurationUs (env : Env) (trackMeta : MetaData) (mime : String)
    (s : TrackScan) : (scanVideoTrack env trackMeta mime s).maxDurationUs = s.maxDurationUs := by
  unfold scanVideoTrack
  simp only []
  split
  · split <;> rfl
  · rfl

theorem scanImageTrack_maxDurationUs (trackMeta : MetaData) (s : TrackScan) :
    (scanImageTrack trackMeta s).maxDurationUs = s.maxDurationUs := by
  unfold scanImageTrack
  simp only []
  split
  · split
    · split <;> rfl
    · rfl
  · rfl

theorem scanTextTrack_maxDurationUs (trackMeta : MetaData) (s : TrackScan) :
    (scanTextTrack trackMeta s).maxDurationUs = s.maxDurationUs := by
  unfold scanTextTrack
  split <;> rfl

theorem scanTrack_maxDurationUs (env : Env) (s : TrackScan) (t : Track) :
    (scanTrack env s t).maxDurationUs =
      match t.meta.bind (fun meta => meta.findInt64 MetaKey.kKeyDuration) with
      | some durationUs => max s.maxDurationUs durationUs
      | none => s.maxDurationUs := by
  unfold scanTrack
  cases hm : t.meta with
  | none => simp
  | some trackMeta =>
    simp only [Option.some_bind]
    have hbranch : ∀ s1 : TrackScan,
        (match trackMeta.findCString MetaKey.kKeyMIMEType with
          | none => s1
          | some mime =>
            if (!s1.hasAudio && decide (strncasecmp "audio/" mime 6 = 0)) = true then
              scanAudioTrack trackMeta s1
            else if (!s1.hasVideo && decide (strncasecmp "video/" mime 6 = 0)) = true then
              scanVideoTrack env trackMeta mime s1
            else if strncasecmp "image/" mime 6 = 0 then scanImageTrack trackMeta s1
            else if strcasecmp mime env.defs.MEDIA_MIMETYPE_TEXT_3GPP = 0 then
              scanTextTrack trackMeta s1
            else s1).maxDurationUs = s1.maxDurationUs := by
      intro s1
      split
      · rfl
      · split
        · exact scanAudioTrack_maxDurationUs _ _
        · split
          · exact scanVideoTrack_maxDurationUs _ _ _ _
          · split
            · exact scanImageTrack_maxDurationUs _ _
            · split
              · exact scanTextTrack_maxDurationUs _ _
              · rfl
    rw [hbranch]
    cases hd : trackMeta.findInt64 MetaKey.kKeyDuration with
    | none => simp
    | some durationUs =>
      simp only []
      by_cases hgt : durationUs > s.maxDurationUs
      · simp only [hgt, if_true]
        exact (max_eq_right (le_of_lt hgt)).symm
      · simp only [hgt, if_false]
        exact (max_eq_left (not_lt.mp hgt)).symm

theorem scanTracks_maxDurationUs (env : Env) (tracks : List Track) :
    ∀ s : TrackScan,
      (scanTracks env tracks s).maxDurationUs =
        (trackDurations tracks).foldl max s.maxDurationUs := by
  induction tracks with
  | nil => intro s; rfl
  | cons t rest ih =>
    intro s
    have hstep := scanTrack_maxDurationUs env s t
    unfold scanTracks at ih ⊢
    simp only [List.foldl_cons, trackDurations]
    rw [ih (scanTrack env s t), hstep]
    cases hd : t.meta.bind (fun meta => meta.findInt64 MetaKey.kKeyDuration) with
    | none => simp [trackDurations, List.filterMap_cons, hd]
    | some d => simp [trackDurations, List.filterMap_cons, hd]

theorem addDerivedFields_duration (s : TrackScan) :
    (addDerivedFields s).valueFor MetadataKey.METADATA_KEY_DURATION =
      some (sprintfInt (durationMs s.maxDurationUs)) := by
  unfold addDerivedFields
  simp only []
  have hdur : ∀ m : KeyedVector,
      (m.add MetadataKey.METADATA_KEY_DURATION
        (sprintfInt (durationMs s.maxDurationUs))).valueFor MetadataKey.METADATA_KEY_DURATION =
        some (sprintfInt (durationMs s.maxDurationUs)) :=
    fun m => KeyedVector.valueFor_add_self m _ _
  split_ifs <;>
    simp only [KeyedVector.valueFor_add_other _ MetadataKey.METADATA_KEY_DURATION _ _
      (by decide : MetadataKey.METADATA_KEY_HAS_AUDIO ≠ MetadataKey.METADATA_KEY_DURATION),
      KeyedVector.valueFor_add_other _ MetadataKey.METADATA_KEY_DURATION _ _
      (by decide : MetadataKey.METADATA_KEY_HAS_VIDEO ≠ MetadataKey.METADATA_KEY_DURATION),
      KeyedVector.valueFor_add_other _ MetadataKey.METADATA_KEY_DURATION _ _
      (by decide : MetadataKey.METADATA_KEY_VIDEO_WIDTH ≠ MetadataKey.METADATA_KEY_DURATION),
      KeyedVector.valueFor_add_other _ MetadataKey.METADATA_KEY_DURATION _ _
      (by decide : MetadataKey.METADATA_KEY_VIDEO_HEIGHT ≠ MetadataKey.METADATA_KEY_DURATION),
      KeyedVector.valueFor_add_other _ MetadataKey.METADATA_KEY_DURATION _ _
      (by decide : MetadataKey.METADATA_KEY_VIDEO_ROTATION ≠ MetadataKey.METADATA_KEY_DURATION),
      KeyedVector.valueFor_add_other _ MetadataKey.METADATA_KEY_DURATION _ _
      (by decide :
        MetadataKey.METADATA_KEY_VIDEO_CODEC_MIME_TYPE ≠ MetadataKey.METADATA_KEY_DURATION),
      KeyedVector.valueFor_add_other _ MetadataKey.METADATA_KEY_DURATION _ _
      (by decide :
        MetadataKey.METADATA_KEY_VIDEO_FRAME_COUNT ≠ MetadataKey.METADATA_KEY_DURATION),
      KeyedVector.valueFor_add_other _ MetadataKey.METADATA_KEY_DURATION _ _
      (by decide : MetadataKey.METADATA_KEY_HAS_IMAGE ≠ MetadataKey.METADATA_KEY_DURATION),
      KeyedVector.valueFor_add_other _ MetadataKey.METADATA_KEY_DURATION _ _
      (by decide : MetadataKey.METADATA_KEY_IMAGE_COUNT ≠ MetadataKey.METADATA_KEY_DURATION),
      KeyedVector.valueFor_add_other _ MetadataKey.METADATA_KEY_DURATION _ _
      (by decide : MetadataKey.METADATA_KEY_IMAGE_PRIMARY ≠ MetadataKey.METADATA_KEY_DURATION),
      KeyedVector.valueFor_add_other _ MetadataKey.METADATA_KEY_DURATION _ _
      (by decide : MetadataKey.METADATA_KEY_IMAGE_WIDTH ≠ MetadataKey.METADATA_KEY_DURATION),
      KeyedVector.valueFor_add_other _ MetadataKey.METADATA_KEY_DURATION _ _
      (by decide : MetadataKey.METADATA_KEY_IMAGE_HEIGHT ≠ MetadataKey.METADATA_KEY_DURATION),
      KeyedVector.valueFor_add_other _ MetadataKey.METADATA_KEY_DURATION _ _
      (by decide : MetadataKey.METADATA_KEY_IMAGE_ROTATION ≠ MetadataKey.METADATA_KEY_DURATION),
      hdur]

theorem addBitrate_duration (env : Env) (mSource : Option DataSource) (numTracks : Nat)
    (s : TrackScan) (m : KeyedVector) :
    (addBitrate env mSource numTracks s m).valueFor MetadataKey.METADATA_KEY_DURATION =
      m.valueFor MetadataKey.METADATA_KEY_DURATION := by
  unfold addBitrate
  split
  · exact KeyedVector.valueFor_add_other _ _ _ _ (by decide)
  · split
    · exact KeyedVector.valueFor_add_other _ _ _ _ (by decide)
    · rfl

theorem rewriteMatroska_duration (meta : MetaData) (extractor : MediaExtractor)
    (numTracks : Nat) (m : KeyedVector) :
    (rewriteMatroska meta extractor numTracks m).valueFor MetadataKey.METADATA_KEY_DURATION =
      m.valueFor MetadataKey.METADATA_KEY_DURATION := by
  unfold rewriteMatroska
  repeat' split
  all_goals first
    | rfl
    | exact KeyedVector.valueFor_add_other _ _ _ _ (by decide)

theorem scanTrack_dimsOk (env : Env) (s : TrackScan) (t : Track)
    (hdims : ∀ meta, t.meta = some meta →
      (∀ w, meta.findInt32 MetaKey.kKeyWidth = some w → 0 ≤ w) ∧
      (∀ h, meta.findInt32 MetaKey.kKeyHeight = some h → 0 ≤ h))
    (hs : s.dimsOk) : (scanTrack env s t).dimsOk := by
  unfold scanTrack
  cases hm : t.meta with
  | none => exact hs
  | some trackMeta =>
    obtain ⟨hw, hh⟩ := hdims trackMeta hm
    simp only []
    -- the duration update leaves the invariant alone
    have hs1 : ∀ s1 : TrackScan, s1 = (match trackMeta.findInt64 MetaKey.kKeyDuration with
        | some durationUs =>
          if durationUs > s.maxDurationUs then { s with maxDurationUs := durationUs } else s
        | none => s) → s1.dimsOk := by
      intro s1 h1
      subst h1
      split
      · split
        · exact hs
        · exact hs
      · exact hs
    generalize (match trackMeta.findInt64 MetaKey.kKeyDuration with
        | some durationUs =>
          if durationUs > s.maxDurationUs then { s with maxDurationUs := durationUs } else s
        | none => s) = s1 at hs1 ⊢
    have h1 : s1.dimsOk := hs1 s1 rfl
    obtain ⟨hv, hi⟩ := h1
    split
    · exact ⟨hv, hi⟩
    · split
      · exact ⟨hv, hi⟩
      · split
        · rename_i hvid
          have hnv : s1.hasVideo = false := by
            simp only [Bool.and_eq_true, Bool.not_eq_true'] at hvid
            exact hvid.1
          unfold scanVideoTrack
          simp only []
          split
          · rename_i w hwf
            split
            · rename_i h hhf
              exact ⟨fun _ => ⟨hw w hwf, hh h hhf⟩, hi⟩
            · exact ⟨fun hc => by simp [hnv] at hc, hi⟩
          · exact ⟨fun hc => by simp [hnv] at hc, hi⟩
        · split
          · unfold scanImageTrack
            simp only []
            split
            · split
              · rename_i w hwf
                split
                · rename_i h hhf
                  exact ⟨hv, fun _ => ⟨hw w hwf, hh h hhf⟩⟩
                · exact ⟨hv, fun hp => ⟨hw w hwf, (hi hp).2⟩⟩
              · exact ⟨hv, hi⟩
            · exact ⟨hv, hi⟩
          · split
            · unfold scanTextTrack
              split
              · exact ⟨hv, hi⟩
              · exact ⟨hv, hi⟩
            · exact ⟨hv, hi⟩

theorem scanTracks_dimsOk (env : Env) (tracks : List Track) :
    ∀ s : TrackScan, dimensionsNonneg tracks → s.dimsOk → (scanTracks env tracks s).dimsOk := by
  induction tracks with
  | nil => intro s _ hs; exact hs
  | cons t rest ih =>
    intro s hdims hs
    unfold scanTracks at ih ⊢
    simp only [List.foldl_cons]
    apply ih
    · intro t2 ht2
      exact hdims t2 (List.mem_cons_of_mem _ ht2)
    · exact scanTrack_dimsOk env s t (hdims t (List.mem_cons_self _ _)) hs

theorem checksPass_of_dimsOk (s : TrackScan) (h : s.dimsOk) : checksPass s = true := by
  obtain ⟨hv, hi⟩ := h
  unfold checksPass
  simp only [Bool.and_eq_true, Bool.or_eq_true, Bool.not_eq_true', decide_eq_true_eq]
  constructor
  · by_cases hvid : s.hasVideo = true
    · exact Or.inr (hv hvid)
    · exact Or.inl (by simpa using hvid)
  · by_cases hp : 0 ≤ s.imagePrimary
    · exact Or.inr (hi hp)
    · left
      by_cases hc : 0 < s.imageCount
      · simp [hc, hp]
      · simp [hc]

theorem checksPass_of_dimensionsNonneg (env : Env) (tracks : List Track) (m : KeyedVector)
    (h : dimensionsNonneg tracks) :
    checksPass (scanTracks env tracks (TrackScan.start m)) = true :=
  checksPass_of_dimsOk _ (scanTracks_dimsOk env tracks _ h
    ⟨fun hc => by simp [TrackScan.start] at hc, fun hc => by simp [TrackScan.start] at hc⟩)

theorem foldl_max_ge (l : List Int) : ∀ init : Int, init ≤ l.foldl max init := by
  induction l with
  | nil => intro init; exact le_refl _
  | cons a rest ih =>
    intro init
    exact le_trans (le_max_left init a) (ih (max init a))

theorem parseMetaData_duration (env : Env) (r : Retriever) (extractor : MediaExtractor)
    (meta : MetaData) (hmeta : extractor.fileMeta = some meta) (r1 : Retriever)
    (h : parseMetaData env r extractor = some r1) :
    r1.mMetaData.valueFor MetadataKey.METADATA_KEY_DURATION =
      some (sprintfInt (durationMs (maxTrackDuration extractor.tracks))) := by
  unfold parseMetaData at h
  simp only [hmeta] at h
  split at h
  · simp only [Option.some.injEq] at h
    subst h
    simp only []
    rw [rewriteMatroska_duration, addBitrate_duration, addDerivedFields_duration,
      scanTracks_maxDurationUs]
    rfl
  · cases h

/-! ## Metadata synthesis: which keys each step writes -/

theorem KeyedVector.valueFor_add (m : KeyedVector) (other key : MetadataKey) (value : String) :
    (m.add other value).valueFor key = if other = key then some value else m.valueFor key := by
  by_cases h : other = key
  · subst h
    simp [KeyedVector.valueFor_add_self]
  · simp [h, KeyedVector.valueFor_add_other m key other value h]

theorem copyContainerFields_valueFor (meta : MetaData) (key : MetadataKey) :
    ∀ (rows : List Map) (acc : List (String × String) × KeyedVector),
      (∀ row ∈ rows, row.name = none → row.toKey ≠ key) →
      (copyContainerFields meta rows acc).2.valueFor key = acc.2.valueFor key := by
  intro rows
  induction rows with
  | nil => intro acc _; rfl
  | cons row rest ih =>
    intro acc h
    have hrest : ∀ row ∈ rest, row.name = none → row.toKey ≠ key :=
      fun x hx => h x (List.mem_cons_of_mem _ hx)
    rw [copyContainerFields]
    cases hv : meta.findCString row.fromKey with
    | none => exact ih acc hrest
    | some value =>
      cases hn : row.name with
      | some name => exact ih _ hrest
      | none =>
        simp only []
        rw [ih _ hrest]
        exact KeyedVector.valueFor_add_other _ _ _ _ (h row (List.mem_cons_self _ _) hn)

theorem addDetectedTag_valueFor (name value : String) (key : MetadataKey) :
    ∀ (rows : List Map) (m : KeyedVector),
      (∀ row ∈ rows, row.name ≠ none → row.toKey ≠ key) →
      (addDetectedTag name value rows m).valueFor key = m.valueFor key := by
  intro rows
  induction rows with
  | nil => intro m _; rfl
  | cons row rest ih =>
    intro m h
    have hrest : ∀ row ∈ rest, row.name ≠ none → row.toKey ≠ key :=
      fun x hx => h x (List.mem_cons_of_mem _ hx)
    rw [addDetectedTag]
    cases hn : row.name with
    | none => exact ih m hrest
    | some rowName =>
      simp only []
      split
      · rw [ih _ hrest]
        exact KeyedVector.valueFor_add_other _ _ _ _
          (h row (List.mem_cons_self _ _) (by simp [hn]))
      · exact ih m hrest

theorem addDetectedTags_valueFor (key : MetadataKey)
    (h : ∀ row ∈ kMap, row.name ≠ none → row.toKey ≠ key) :
    ∀ (tags : List (String × String)) (m : KeyedVector),
      (addDetectedTags tags m).valueFor key = m.valueFor key := by
  intro tags
  induction tags with
  | nil => intro m; rfl
  | cons tag rest ih =>
    intro m
    rw [addDetectedTags, ih, addDetectedTag_valueFor tag.1 tag.2 key kMap m h]

theorem addContainerFields_valueFor (env : Env) (meta : MetaData) (numTracks : Nat)
    (m : KeyedVector) (key : MetadataKey) (hkey : key ∉ containerFieldKeys) :
    (addContainerFields env meta numTracks m).valueFor key = m.valueFor key := by
  have hmap : ∀ row ∈ kMap, row.toKey ≠ key := by
    intro row hrow heq
    apply hkey
    rw [containerFieldKeys]
    exact List.mem_append_left _ (heq ▸ List.mem_map_of_mem Map.toKey hrow)
  have hother : ∀ k ∈ [MetadataKey.METADATA_KEY_NUM_TRACKS,
      MetadataKey.METADATA_KEY_CAPTURE_FRAMERATE, MetadataKey.METADATA_KEY_EXIF_OFFSET,
      MetadataKey.METADATA_KEY_EXIF_LENGTH, MetadataKey.METADATA_KEY_XMP_OFFSET,
      MetadataKey.METADATA_KEY_XMP_LENGTH], k ≠ key := by
    intro k hk heq
    apply hkey
    rw [containerFieldKeys]
    exact List.mem_append_right _ (heq ▸ hk)
  have h1 := hother MetadataKey.METADATA_KEY_NUM_TRACKS (by simp)
  have h2 := hother MetadataKey.METADATA_KEY_CAPTURE_FRAMERATE (by simp)
  have h3 := hother MetadataKey.METADATA_KEY_EXIF_OFFSET (by simp)
  have h4 := hother MetadataKey.METADATA_KEY_EXIF_LENGTH (by simp)
  have h5 := hother MetadataKey.METADATA_KEY_XMP_OFFSET (by simp)
  have h6 := hother MetadataKey.METADATA_KEY_XMP_LENGTH (by simp)
  have hbase : ((addDetectedTags (env.detectAndConvert (copyContainerFields meta kMap ([], m)).1)
      (copyContainerFields meta kMap ([], m)).2).add MetadataKey.METADATA_KEY_NUM_TRACKS
        (sprintfInt numTracks)).valueFor key = m.valueFor key := by
    rw [KeyedVector.valueFor_add_other _ _ _ _ h1,
      addDetectedTags_valueFor key (fun row hrow _ => hmap row hrow),
      copyContainerFields_valueFor meta key kMap _ (fun row hrow _ => hmap row hrow)]
  unfold addContainerFields
  simp only []
  split <;> split <;> split <;>
    simp only [KeyedVector.valueFor_add_other _ _ _ _ h2,
      KeyedVector.valueFor_add_other _ _ _ _ h3, KeyedVector.valueFor_add_other _ _ _ _ h4,
      KeyedVector.valueFor_add_other _ _ _ _ h5, KeyedVector.valueFor_add_other _ _ _ _ h6,
      hbase]

theorem addContainerFields_mimetype (env : Env) (meta : MetaData) (numTracks : Nat)
    (m : KeyedVector) :
    (addContainerFields env meta numTracks m).valueFor MetadataKey.METADATA_KEY_MIMETYPE =
      match meta.findCString MetaKey.kKeyMIMEType with
      | some fileMIME => some fileMIME
      | none => m.valueFor MetadataKey.METADATA_KEY_MIMETYPE := by
  have hcopy : (copyContainerFields meta kMap ([], m)).2.valueFor
      MetadataKey.METADATA_KEY_MIMETYPE =
      match meta.findCString MetaKey.kKeyMIMEType with
      | some fileMIME => some fileMIME
      | none => m.valueFor MetadataKey.METADATA_KEY_MIMETYPE := by
    rw [kMap, copyContainerFields]
    cases hv : meta.findCString MetaKey.kKeyMIMEType with
    | none =>
      simp only []
      rw [copyContainerFields_valueFor meta _ _ _ (by decide)]
    | some fileMIME =>
      simp only []
      rw [copyContainerFields_valueFor meta _ _ _ (by decide)]
      exact KeyedVector.valueFor_add_self _ _ _
  have hbase : ((addDetectedTags (env.detectAndConvert (copyContainerFields meta kMap ([], m)).1)
      (copyContainerFields meta kMap ([], m)).2).add MetadataKey.METADATA_KEY_NUM_TRACKS
        (sprintfInt numTracks)).valueFor MetadataKey.METADATA_KEY_MIMETYPE =
      match meta.findCString MetaKey.kKeyMIMEType with
      | some fileMIME => some fileMIME
      | none => m.valueFor MetadataKey.METADATA_KEY_MIMETYPE := by
    rw [KeyedVector.valueFor_add_other _ _ _ _ (by decide),
      addDetectedTags_valueFor _ (by decide), hcopy]
  unfold addContainerFields
  simp only []
  split <;> split <;> split <;>
    simp only [KeyedVector.valueFor_add_other _ MetadataKey.METADATA_KEY_MIMETYPE
        MetadataKey.METADATA_KEY_CAPTURE_FRAMERATE _ (by decide),
      KeyedVector.valueFor_add_other _ MetadataKey.METADATA_KEY_MIMETYPE
        MetadataKey.METADATA_KEY_EXIF_OFFSET _ (by decide),
      KeyedVector.valueFor_add_other _ MetadataKey.METADATA_KEY_MIMETYPE
        MetadataKey.METADATA_KEY_EXIF_LENGTH _ (by decide),
      KeyedVector.valueFor_add_other _ MetadataKey.METADATA_KEY_MIMETYPE
        MetadataKey.METADATA_KEY_XMP_OFFSET _ (by decide),
      KeyedVector.valueFor_add_other _ MetadataKey.METADATA_KEY_MIMETYPE
        MetadataKey.METADATA_KEY_XMP_LENGTH _ (by decide),
      hbase]

theorem parseColorAspects_valueFor (env : Env) (meta : MetaData) (m : KeyedVector)
    (key : MetadataKey) (hkey : key ∉ trackLoopKeys) :
    (parseColorAspects env meta m).valueFor key = m.valueFor key := by
  have h1 : MetadataKey.METADATA_KEY_COLOR_STANDARD ≠ key := by
    intro h; apply hkey; rw [← h]; decide
  have h2 : MetadataKey.METADATA_KEY_COLOR_TRANSFER ≠ key := by
    intro h; apply hkey; rw [← h]; decide
  have h3 : MetadataKey.METADATA_KEY_COLOR_RANGE ≠ key := by
    intro h; apply hkey; rw [← h]; decide
  unfold parseColorAspects
  split
  · rfl
  · split
    · rw [KeyedVector.valueFor_add_other _ _ _ _ h3, KeyedVector.valueFor_add_other _ _ _ _ h2,
        KeyedVector.valueFor_add_other _ _ _ _ h1]
    · rfl

theorem scanAudioTrack_valueFor (trackMeta : MetaData) (s : TrackScan) (key : MetadataKey)
    (hkey : key ∉ trackLoopKeys) :
    (scanAudioTrack trackMeta s).mMetaData.valueFor key = s.mMetaData.valueFor key := by
  have h1 : MetadataKey.METADATA_KEY_BITS_PER_SAMPLE ≠ key := by
    intro h; apply hkey; rw [← h]; decide
  have h2 : MetadataKey.METADATA_KEY_SAMPLERATE ≠ key := by
    intro h; apply hkey; rw [← h]; decide
  unfold scanAudioTrack
  simp only []
  split <;> split <;>
    simp only [KeyedVector.valueFor_add_other _ _ _ _ h1,
      KeyedVector.valueFor_add_other _ _ _ _ h2]

theorem scanVideoTrack_valueFor (env : Env) (trackMeta : MetaData) (mime : String)
    (s : TrackScan) (key : MetadataKey) (hkey : key ∉ trackLoopKeys) :
    (scanVideoTrack env trackMeta mime s).mMetaData.valueFor key = s.mMetaData.valueFor key := by
  unfold scanVideoTrack
  simp only []
  split
  · split
    · exact parseColorAspects_valueFor env trackMeta _ key hkey
    · rfl
  · rfl

theorem scanImageTrack_mMetaData (trackMeta : MetaData) (s : TrackScan) :
    (scanImageTrack trackMeta s).mMetaData = s.mMetaData := by
  unfold scanImageTrack
  simp only []
  split
  · split
    · split <;> rfl
    · rfl
  · rfl

theorem scanTextTrack_mMetaData (trackMeta : MetaData) (s : TrackScan) :
    (scanTextTrack trackMeta s).mMetaData = s.mMetaData := by
  unfold scanTextTrack
  split <;> rfl

theorem scanTrack_valueFor (env : Env) (s : TrackScan) (t : Track) (key : MetadataKey)
    (hkey : key ∉ trackLoopKeys) :
    (scanTrack env s t).mMetaData.valueFor key = s.mMetaData.valueFor key := by
  unfold scanTrack
  cases hm : t.meta with
  | none => rfl
  | some trackMeta =>
    simp only []
    have hs1 : ∀ s1 : TrackScan, s1 = (match trackMeta.findInt64 MetaKey.kKeyDuration with
        | some durationUs =>
          if durationUs > s.maxDurationUs then { s with maxDurationUs := durationUs } else s
        | none => s) → s1.mMetaData = s.mMetaData := by
      intro s1 h1
      subst h1
      split
      · split <;> rfl
      · rfl
    generalize (match trackMeta.findInt64 MetaKey.kKeyDuration with
        | some durationUs =>
          if durationUs > s.maxDurationUs then { s with maxDurationUs := durationUs } else s
        | none => s) = s1 at hs1 ⊢
    rw [← hs1 s1 rfl]
    split
    · rfl
    · split
      · exact scanAudioTrack_valueFor _ _ key hkey
      · split
        · exact scanVideoTrack_valueFor _ _ _ _ key hkey
        · split
          · rw [scanImageTrack_mMetaData]
          · split
            · rw [scanTextTrack_mMetaData]
            · rfl

theorem scanTracks_valueFor (env : Env) (key : MetadataKey) (hkey : key ∉ trackLoopKeys) :
    ∀ (tracks : List Track) (s : TrackScan),
      (scanTracks env tracks s).mMetaData.valueFor key = s.mMetaData.valueFor key := by
  intro tracks
  induction tracks with
  | nil => intro s; rfl
  | cons t rest ih =>
    intro s
    unfold scanTracks at ih ⊢
    simp only [List.foldl_cons]
    rw [ih, scanTrack_valueFor env s t key hkey]

theorem addBitrate_valueFor (env : Env) (mSource : Option DataSource) (numTracks : Nat)
    (s : TrackScan) (m : KeyedVector) (key : MetadataKey)
    (hkey : MetadataKey.METADATA_KEY_BITRATE ≠ key) :
    (addBitrate env mSource numTracks s m).valueFor key = m.valueFor key := by
  unfold addBitrate
  split
  · exact KeyedVector.valueFor_add_other _ _ _ _ hkey
  · split
    · exact KeyedVector.valueFor_add_other _ _ _ _ hkey
    · rfl

theorem rewriteMatroska_valueFor (meta : MetaData) (extractor : MediaExtractor)
    (numTracks : Nat) (m : KeyedVector) (key : MetadataKey)
    (hkey : MetadataKey.METADATA_KEY_MIMETYPE ≠ key) :
    (rewriteMatroska meta extractor numTracks m).valueFor key = m.valueFor key := by
  unfold rewriteMatroska
  repeat' split
  all_goals first
    | rfl
    | exact KeyedVector.valueFor_add_other _ _ _ _ hkey

theorem strncasecmpAux_symm :
    ∀ (n : Nat) (a b : List Char), strncasecmpAux a b n = 0 ↔ strncasecmpAux b a n = 0 := by
  intro n
  induction n with
  | zero => intro a b; simp [strncasecmpAux]
  | succ n ih =>
    intro a b
    cases a with
    | nil =>
      cases b with
      | nil => simp [strncasecmpAux]
      | cons y ys => simp [strncasecmpAux]
    | cons x xs =>
      cases b with
      | nil => simp [strncasecmpAux]
      | cons y ys =>
        simp only [strncasecmpAux]
        by_cases h : x.toLower = y.toLower
        · simp only [h, if_true]
          exact ih xs ys
        · have h2 : ¬ y.toLower = x.toLower := fun e => h e.symm
          simp only [h, h2, if_false]
          omega

theorem strncasecmp_symm (s1 s2 : String) (n : Nat) :
    strncasecmp s1 s2 n = 0 ↔ strncasecmp s2 s1 n = 0 :=
  strncasecmpAux_symm n s1.data s2.data

theorem addDerivedFields_valueFor (s : TrackScan) (key : MetadataKey)
    (hkey : key ∉ derivedFieldKeys) :
    (addDerivedFields s).valueFor key = s.mMetaData.valueFor key := by
  have hne : ∀ k ∈ derivedFieldKeys, k ≠ key := fun k hk heq => hkey (heq ▸ hk)
  unfold addDerivedFields
  simp only []
  split_ifs <;>
    simp only [KeyedVector.valueFor_add_other _ _ _ _ (hne _ (by decide :
        MetadataKey.METADATA_KEY_TIMED_TEXT_LANGUAGES ∈ derivedFieldKeys)),
      KeyedVector.valueFor_add_other _ _ _ _ (hne _ (by decide :
        MetadataKey.METADATA_KEY_DURATION ∈ derivedFieldKeys)),
      KeyedVector.valueFor_add_other _ _ _ _ (hne _ (by decide :
        MetadataKey.METADATA_KEY_HAS_AUDIO ∈ derivedFieldKeys)),
      KeyedVector.valueFor_add_other _ _ _ _ (hne _ (by decide :
        MetadataKey.METADATA_KEY_HAS_VIDEO ∈ derivedFieldKeys)),
      KeyedVector.valueFor_add_other _ _ _ _ (hne _ (by decide :
        MetadataKey.METADATA_KEY_VIDEO_WIDTH ∈ derivedFieldKeys)),
      KeyedVector.valueFor_add_other _ _ _ _ (hne _ (by decide :
        MetadataKey.METADATA_KEY_VIDEO_HEIGHT ∈ derivedFieldKeys)),
      KeyedVector.valueFor_add_other _ _ _ _ (hne _ (by decide :
        MetadataKey.METADATA_KEY_VIDEO_ROTATION ∈ derivedFieldKeys)),
      KeyedVector.valueFor_add_other _ _ _ _ (hne _ (by decide :
        MetadataKey.METADATA_KEY_VIDEO_CODEC_MIME_TYPE ∈ derivedFieldKeys)),
      KeyedVector.valueFor_add_other _ _ _ _ (hne _ (by decide :
        MetadataKey.METADATA_KEY_VIDEO_FRAME_COUNT ∈ derivedFieldKeys)),
      KeyedVector.valueFor_add_other _ _ _ _ (hne _ (by decide :
        MetadataKey.METADATA_KEY_HAS_IMAGE ∈ derivedFieldKeys)),
      KeyedVector.valueFor_add_other _ _ _ _ (hne _ (by decide :
        MetadataKey.METADATA_KEY_IMAGE_COUNT ∈ derivedFieldKeys)),
      KeyedVector.valueFor_add_other _ _ _ _ (hne _ (by decide :
        MetadataKey.METADATA_KEY_IMAGE_PRIMARY ∈ derivedFieldKeys)),
      KeyedVector.valueFor_add_other _ _ _ _ (hne _ (by decide :
        MetadataKey.METADATA_KEY_IMAGE_WIDTH ∈ derivedFieldKeys)),
      KeyedVector.valueFor_add_other _ _ _ _ (hne _ (by decide :
        MetadataKey.METADATA_KEY_IMAGE_HEIGHT ∈ derivedFieldKeys)),
      KeyedVector.valueFor_add_other _ _ _ _ (hne _ (by decide :
        MetadataKey.METADATA_KEY_IMAGE_ROTATION ∈ derivedFieldKeys))]

/-- What `parseMetaData` returns for a container that publishes metadata:
the new dictionary and album art when the `CHECK`s hold, an abort otherwise. -/
theorem parseMetaData_eq (env : Env) (r : Retriever) (extractor : MediaExtractor)
    (meta : MetaData) (hmeta : extractor.fileMeta = some meta) :
    parseMetaData env r extractor =
      if checksPass (synthesisScan env r extractor meta) = true then
        some { r with
          mAlbumArt := (captureAlbumArt meta r).mAlbumArt
          mMetaData := rewriteMatroska meta extractor extractor.countTracks
            (addBitrate env r.mSource extractor.countTracks (synthesisScan env r extractor meta)
              (addDerivedFields (synthesisScan env r extractor meta))) }
      else none := by
  unfold parseMetaData synthesisScan
  simp only [hmeta]

/-- The first audio track met by the loop over the tracks sets `hasAudio` and
`audioBitrate` and leaves the video and image locals alone. -/
theorem scanTrack_firstAudio (env : Env) (s : TrackScan) (t : Track) (trackMeta : MetaData)
    (hm : t.meta = some trackMeta) (haudio : isAudioTrack t = true)
    (hs : s.hasAudio = false) :
    (scanTrack env s t).hasAudio = true ∧
    (scanTrack env s t).audioBitrate =
      outParam (trackMeta.findInt32 MetaKey.kKeyBitRate) (-1) ∧
    (scanTrack env s t).hasVideo = s.hasVideo ∧
    (scanTrack env s t).imagePrimary = s.imagePrimary ∧
    (scanTrack env s t).imageCount = s.imageCount := by
  unfold isAudioTrack at haudio
  simp only [hm] at haudio
  cases hc : trackMeta.findCString MetaKey.kKeyMIMEType with
  | none => simp [hc] at haudio
  | some mime =>
    simp only [hc, decide_eq_true_eq] at haudio
    have hcode : strncasecmp "audio/" mime 6 = 0 := (strncasecmp_symm _ _ _).mp haudio
    unfold scanTrack
    simp only [hm, hc]
    have hs1 : ∀ s1 : TrackScan, s1 = (match trackMeta.findInt64 MetaKey.kKeyDuration with
        | some durationUs =>
          if durationUs > s.maxDurationUs then { s with maxDurationUs := durationUs } else s
        | none => s) →
        s1.hasAudio = false ∧ s1.hasVideo = s.hasVideo ∧ s1.imagePrimary = s.imagePrimary ∧
          s1.imageCount = s.imageCount := by
      intro s1 h1
      subst h1
      split
      · split <;> exact ⟨hs, rfl, rfl, rfl⟩
      · exact ⟨hs, rfl, rfl, rfl⟩
    generalize (match trackMeta.findInt64 MetaKey.kKeyDuration with
        | some durationUs =>
          if durationUs > s.maxDurationUs then { s with maxDurationUs := durationUs } else s
        | none => s) = s1 at hs1 ⊢
    obtain ⟨h1, h2, h3, h4⟩ := hs1 s1 rfl
    simp only [h1, hcode, Bool.not_false, decide_True, Bool.and_self, if_true]
    exact ⟨rfl, rfl, h2, h3, h4⟩

/-- The locals after the loop for a container whose only track is an audio
track. -/
theorem synthesisScan_soleAudio (env : Env) (r : Retriever) (extractor : MediaExtractor)
    (meta : MetaData) (t : Track) (trackMeta : MetaData)
    (htracks : extractor.tracks = [t]) (hm : t.meta = some trackMeta)
    (haudio : isAudioTrack t = true) :
    (synthesisScan env r extractor meta).hasAudio = true ∧
    (synthesisScan env r extractor meta).audioBitrate =
      outParam (trackMeta.findInt32 MetaKey.kKeyBitRate) (-1) ∧
    checksPass (synthesisScan env r extractor meta) = true := by
  unfold synthesisScan scanTracks
  rw [htracks]
  simp only [List.foldl_cons, List.foldl_nil]
  obtain ⟨h1, h2, h3, h4, _⟩ := scanTrack_firstAudio env
    (TrackScan.start (addContainerFields env meta extractor.countTracks r.mMetaData))
    t trackMeta hm haudio rfl
  refine ⟨h1, h2, ?_⟩
  unfold checksPass
  rw [h3, h4]
  simp [TrackScan.start]

theorem rewriteMatroska_of_audioOnly (meta : MetaData) (extractor : MediaExtractor)
    (m : KeyedVector) (h : isAudioOnlyMatroska meta extractor.tracks) :
    rewriteMatroska meta extractor extractor.countTracks m =
      m.add MetadataKey.METADATA_KEY_MIMETYPE "audio/x-matroska" := by
  obtain ⟨⟨t, htracks, haudio⟩, fileMIME, hfile, hmatroska⟩ := h
  unfold isAudioTrack at haudio
  cases hm : t.meta with
  | none => simp [hm] at haudio
  | some trackMeta =>
    simp only [hm] at haudio
    cases hc : trackMeta.findCString MetaKey.kKeyMIMEType with
    | none => simp [hc] at haudio
    | some trackMIME =>
      simp only [hc, decide_eq_true_eq] at haudio
      have hcode : strncasecmp "audio/" trackMIME 6 = 0 := (strncasecmp_symm _ _ _).mp haudio
      have hget : extractor.getTrackMetaData 0 = some trackMeta := by
        simp [MediaExtractor.getTrackMetaData, htracks, hm]
      unfold rewriteMatroska
      simp [MediaExtractor.countTracks, htracks, hfile, hmatroska, hget, hc, hcode]

theorem rewriteMatroska_of_not_audioOnly (meta : MetaData) (extractor : MediaExtractor)
    (m : KeyedVector) (h : ¬ isAudioOnlyMatroska meta extractor.tracks) :
    rewriteMatroska meta extractor extractor.countTracks m = m := by
  unfold rewriteMatroska
  split
  · rename_i hone
    split
    · rename_i fileMIME hfile
      split
      · rename_i hmatroska
        split
        · rename_i trackMeta hget
          split
          · rename_i trackMIME hc
            split
            · rename_i hcode
              exfalso
              apply h
              have hlen : extractor.tracks.length = 1 := hone
              obtain ⟨t, htracks⟩ := List.length_eq_one.mp hlen
              have hm : t.meta = some trackMeta := by
                simpa [MediaExtractor.getTrackMetaData, htracks] using hget
              refine ⟨⟨t, htracks, ?_⟩, fileMIME, hfile, hmatroska⟩
              unfold isAudioTrack
              simp only [hm, hc, decide_eq_true_eq]
              exact (strncasecmp_symm _ _ _).mp hcode
            · rfl
          · rfl
        · rfl
      · rfl
    · rfl
  · rfl

/-- Up to the matroska block the MIME-type field holds the container MIME. -/
theorem synthesis_mimetype_before_rewrite (env : Env) (r : Retriever)
    (extractor : MediaExtractor) (meta : MetaData) :
    (addBitrate env r.mSource extractor.countTracks (synthesisScan env r extractor meta)
        (addDerivedFields (synthesisScan env r extractor meta))).valueFor
        MetadataKey.METADATA_KEY_MIMETYPE =
      match meta.findCString MetaKey.kKeyMIMEType with
      | some fileMIME => some fileMIME
      | none => r.mMetaData.valueFor MetadataKey.METADATA_KEY_MIMETYPE := by
  rw [addBitrate_valueFor _ _ _ _ _ _ (by decide),
    addDerivedFields_valueFor _ _ (by decide)]
  unfold synthesisScan
  rw [scanTracks_valueFor env _ (by decide)]
  exact addContainerFields_mimetype env meta _ _

/-- The maximum duration the loop over the tracks of `parseMetaData` computes. -/
theorem synthesisScan_maxDurationUs (env : Env) (r : Retriever) (extractor : MediaExtractor)
    (meta : MetaData) :
    (synthesisScan env r extractor meta).maxDurationUs = maxTrackDuration extractor.tracks := by
  unfold synthesisScan maxTrackDuration
  rw [scanTracks_maxDurationUs]
  rfl

/-- C14. Estimated bitrate without a duration. On a bound retriever whose
metadata is not yet parsed, whose source has a known size, when the verbatim
case does not apply and no track publishes a positive duration (maximum
duration 0), extractMetadata still returns a bitrate field: the estimator is
called with the zero duration and its result is printed. -/
theorem estimated_bitrate_without_duration (env : Env) (r : Retriever)
    (extractor : MediaExtractor) (meta : MetaData) (sourceSize : Int)
    (hbound : r.mExtractor = some extractor) (hfresh : r.mParsedMetaData = false)
    (hmeta : extractor.fileMeta = some meta)
    (hsize : r.mSource.bind DataSource.size = some sourceSize)
    (hverbatim : ¬ verbatimCase env r extractor meta)
    (hduration : maxTrackDuration extractor.tracks = 0)
    (hdims : dimensionsNonneg extractor.tracks) :
    ∃ r1, extractMetadata env r MetadataKey.METADATA_KEY_BITRATE =
      some (some (sprintfInt (env.avgBitRate sourceSize 0)), r1) := by
  have hchecks : checksPass (synthesisScan env r extractor meta) = true :=
    checksPass_of_dimensionsNonneg env _ _ hdims
  have hparse := parseMetaData_eq env r extractor meta hmeta
  rw [if_pos hchecks] at hparse
  have hbit : (addBitrate env r.mSource extractor.countTracks (synthesisScan env r extractor meta)
      (addDerivedFields (synthesisScan env r extractor meta))).valueFor
        MetadataKey.METADATA_KEY_BITRATE = some (sprintfInt (env.avgBitRate sourceSize 0)) := by
    unfold addBitrate
    have hguard : ¬ (extractor.countTracks = 1 ∧
        (synthesisScan env r extractor meta).hasAudio = true ∧
        0 ≤ (synthesisScan env r extractor meta).audioBitrate) := hverbatim
    rw [if_neg hguard]
    simp only [hsize, synthesisScan_maxDurationUs, hduration]
    exact KeyedVector.valueFor_add_self _ _ _
  unfold extractMetadata
  simp only [hbound, hfresh, hparse, Bool.false_eq_true, if_false]
  rw [rewriteMatroska_valueFor _ _ _ _ _ (by decide), hbit]
  exact ⟨_, rfl⟩

theorem estimated_bitrate_without_duration_witness :
    maxTrackDuration stillImageContainer.tracks = 0 ∧
    ∃ r1, extractMetadata (exampleEnv none 5) stillImageRetriever
      MetadataKey.METADATA_KEY_BITRATE =
        some (some (sprintfInt ((exampleEnv none 5).avgBitRate 1000000 0)), r1) :=
  ⟨by decide,
   estimated_bitrate_without_duration (exampleEnv none 5) stillImageRetriever
    stillImageContainer ⟨[(MetaKey.kKeyMIMEType, MetaValue.cstring "image/heif")]⟩ 1000000
    rfl rfl rfl rfl (by unfold verbatimCase; decide) (by decide)
    (by
      intro t ht meta hm
      simp only [stillImageContainer, List.mem_singleton] at ht
      subst ht
      cases hm
      exact ⟨by decide, by decide⟩)⟩

/-! ## Rebinding -/

/-- C15. Rebinding clears metadata state. After each of the three setDataSource
overloads, whatever its status, the parsed flag is false, the dictionary is
empty and no album art is held; and the call is blind to the flag, dictionary
and album art held before: replacing them by any other values gives the same
status and the same state afterwards, so nothing they held can be returned by
a later call. -/
theorem rebinding_clears_metadata (env : Env) (r : Retriever) (uri : String)
    (fd offset length : Int) (source : DataSource) (mime : Option String) :
    (∀ res ∈ [setDataSourceURI env r uri, setDataSourceFd env r fd offset length,
        setDataSourceSource env r source mime],
      res.2.mParsedMetaData = false ∧ res.2.mMetaData = KeyedVector.empty ∧
        res.2.mAlbumArt = none) ∧
    (∀ (parsed : Bool) (dictionary : KeyedVector) (art : Option (List Nat)),
      setDataSourceURI env
          { r with mParsedMetaData := parsed, mMetaData := dictionary, mAlbumArt := art } uri =
        setDataSourceURI env r uri ∧
      setDataSourceFd env
          { r with mParsedMetaData := parsed, mMetaData := dictionary, mAlbumArt := art }
          fd offset length = setDataSourceFd env r fd offset length ∧
      setDataSourceSource env
          { r with mParsedMetaData := parsed, mMetaData := dictionary, mAlbumArt := art }
          source mime = setDataSourceSource env r source mime) := by
  refine ⟨?_, fun parsed dictionary art => ⟨rfl, rfl, rfl⟩⟩
  intro res hres
  simp only [List.mem_cons, List.mem_singleton, List.not_mem_nil, or_false] at hres
  rcases hres with rfl | rfl | rfl
  · unfold setDataSourceURI clearMetadata
    repeat' split
    all_goals exact ⟨rfl, rfl, rfl⟩
  · unfold setDataSourceFd clearMetadata
    simp only []
    repeat' split
    all_goals exact ⟨rfl, rfl, rfl⟩
  · unfold setDataSourceSource clearMetadata
    repeat' split
    all_goals exact ⟨rfl, rfl, rfl⟩

theorem setDataSourceURI_cache (env : Env) (r : Retriever) (uri : String) :
    (setDataSourceURI env r uri).2.mDecoder = r.mDecoder ∧
    (setDataSourceURI env r uri).2.mLastDecodedIndex = r.mLastDecodedIndex := by
  unfold setDataSourceURI clearMetadata
  repeat' split
  all_goals exact ⟨rfl, rfl⟩

theorem setDataSourceFd_cache (env : Env) (r : Retriever) (fd offset length : Int) :
    (setDataSourceFd env r fd offset length).2.mDecoder = r.mDecoder ∧
    (setDataSourceFd env r fd offset length).2.mLastDecodedIndex = r.mLastDecodedIndex := by
  unfold setDataSourceFd clearMetadata
  simp only []
  repeat' split
  all_goals exact ⟨rfl, rfl⟩

theorem setDataSourceSource_cache (env : Env) (r : Retriever) (source : DataSource)
    (mime : Option String) :
    (setDataSourceSource env r source mime).2.mDecoder = r.mDecoder ∧
    (setDataSourceSource env r source mime).2.mLastDecodedIndex = r.mLastDecodedIndex := by
  unfold setDataSourceSource clearMetadata
  repeat' split
  all_goals exact ⟨rfl, rfl⟩

/-- C16. Rebinding and the decoder cache. None of the three setDataSource
overloads touches the cached decoder or the retained index: when a decoder is
cached at index K before the call, it is still cached at K afterwards, whatever
the status, and a following getImageRectAtIndex(K) or getFrameAtIndex(K + 1) is
served by that decoder. In the example, a decoder cached for the video track
of one container yields frame 2 after a successful rebinding to a container
that has a single audio track, where a fresh retriever yields nothing. -/
theorem rebinding_keeps_decoder_cache (env : Env) (r : Retriever) (decoder : FrameDecoder)
    (K colorFormat left top right bottom : Int) (metaOnly : Bool) (uri : String)
    (fd offset length : Int) (source : DataSource) (mime : Option String) :
    (∀ res ∈ [setDataSourceURI env { r with mDecoder := some decoder, mLastDecodedIndex := K } uri,
        setDataSourceFd env { r with mDecoder := some decoder, mLastDecodedIndex := K }
          fd offset length,
        setDataSourceSource env { r with mDecoder := some decoder, mLastDecodedIndex := K }
          source mime],
      res.2.mDecoder = some decoder ∧ res.2.mLastDecodedIndex = K ∧
      (getImageRectAtIndex env res.2 K colorFormat left top right bottom).1 =
        (env.extractFrame decoder (some ⟨left, top, right, bottom⟩)).1 ∧
      (getFrameAtIndex env res.2 (K + 1) colorFormat metaOnly).1 =
        (env.extractFrame decoder none).1) ∧
    ((retrieverAfterFrame0 5).mDecoder = some cachedFrameDecoder ∧
      (setDataSourceSource rebindEnv (retrieverAfterFrame0 5) ⟨7, some 10⟩ none).1 = OK ∧
      (setDataSourceSource rebindEnv (retrieverAfterFrame0 5) ⟨7, some 10⟩ none).2.mExtractor =
        some matroskaAudioContainer ∧
      (getFrameAtIndex rebindEnv
        (setDataSourceSource rebindEnv (retrieverAfterFrame0 5) ⟨7, some 10⟩ none).2
        1 0 false).1 = some ⟨2⟩ ∧
      (getFrameAtIndex rebindEnv
        (setDataSourceSource rebindEnv Retriever.new ⟨7, some 10⟩ none).2 1 0 false).1 = none) := by
  refine ⟨?_, by decide⟩
  have key : ∀ r1 : Retriever, r1.mDecoder = some decoder → r1.mLastDecodedIndex = K →
      r1.mDecoder = some decoder ∧ r1.mLastDecodedIndex = K ∧
      (getImageRectAtIndex env r1 K colorFormat left top right bottom).1 =
        (env.extractFrame decoder (some ⟨left, top, right, bottom⟩)).1 ∧
      (getFrameAtIndex env r1 (K + 1) colorFormat metaOnly).1 =
        (env.extractFrame decoder none).1 := by
    intro r1 hd hK
    refine ⟨hd, hK, ?_, ?_⟩
    · rw [getImageRectAtIndex_hit env r1 decoder K colorFormat left top right bottom hd hK]
    · unfold getFrameAtIndex
      simp only [hd, hK, if_true]
      split <;> simp_all
  intro res hres
  simp only [List.mem_cons, List.mem_singleton, List.not_mem_nil, or_false] at hres
  rcases hres with rfl | rfl | rfl
  · exact key _ (setDataSourceURI_cache env _ uri).1 (setDataSourceURI_cache env _ uri).2
  · exact key _ (setDataSourceFd_cache env _ fd offset length).1
      (setDataSourceFd_cache env _ fd offset length).2
  · exact key _ (setDataSourceSource_cache env _ source mime).1
      (setDataSourceSource_cache env _ source mime).2

/-- C17. Binding failure. When the byte stream cannot be created from the uri,
or the file source fails its init check, setDataSource returns the error and
drops the source but keeps the container reader held before the call; only
when no container reader recognizes the stream are both the source and the
reader dropped. With a reader kept, extractMetadata after the failed call
parses the container of the earlier binding again. -/
theorem binding_failure_keeps_reader (env : Env) (r : Retriever) (uri : String)
    (fd offset length : Int) (source : DataSource) (mime : Option String) :
    (env.createFromURI uri = none →
      (setDataSourceURI env r uri).1 = UNKNOWN_ERROR ∧
      (setDataSourceURI env r uri).2.mSource = none ∧
      (setDataSourceURI env r uri).2.mExtractor = r.mExtractor ∧
      ∀ key, extractMetadata env (setDataSourceURI env r uri).2 key =
        extractMetadata env { clearMetadata r with mSource := none } key) ∧
    ((env.createFileSource fd offset length).2 ≠ OK →
      (setDataSourceFd env r fd offset length).1 = (env.createFileSource fd offset length).2 ∧
      (setDataSourceFd env r fd offset length).2.mSource = none ∧
      (setDataSourceFd env r fd offset length).2.mExtractor = r.mExtractor) ∧
    ((∀ created, env.createFromURI uri = some created →
        env.createExtractor created none = none →
        (setDataSourceURI env r uri).1 = UNKNOWN_ERROR ∧
        (setDataSourceURI env r uri).2.mSource = none ∧
        (setDataSourceURI env r uri).2.mExtractor = none) ∧
     ((env.createFileSource fd offset length).2 = OK →
        env.createExtractor (env.createFileSource fd offset length).1 none = none →
        (setDataSourceFd env r fd offset length).1 = UNKNOWN_ERROR ∧
        (setDataSourceFd env r fd offset length).2.mSource = none ∧
        (setDataSourceFd env r fd offset length).2.mExtractor = none) ∧
     (env.createExtractor source mime = none →
        (setDataSourceSource env r source mime).1 = UNKNOWN_ERROR ∧
        (setDataSourceSource env r source mime).2.mSource = none ∧
        (setDataSourceSource env r source mime).2.mExtractor = none)) := by
  refine ⟨fun h => ?_, fun h => ?_, fun created h1 h2 => ?_, fun h1 h2 => ?_, fun h => ?_⟩
  · simp [setDataSourceURI, h, clearMetadata]
  · simp [setDataSourceFd, h, clearMetadata]
  · simp [setDataSourceURI, h1, h2]
  · simp [setDataSourceFd, h1, h2]
  · simp [setDataSourceSource, h]

theorem binding_failure_keeps_reader_witness :
    ((setDataSourceURI (exampleEnv none 5) boundRetriever "file:///missing.mp4").1 =
        UNKNOWN_ERROR ∧
      (setDataSourceURI (exampleEnv none 5) boundRetriever "file:///missing.mp4").2.mSource =
        none ∧
      (setDataSourceURI (exampleEnv none 5) boundRetriever "file:///missing.mp4").2.mExtractor =
        boundRetriever.mExtractor ∧
      ∀ key, extractMetadata (exampleEnv none 5)
          (setDataSourceURI (exampleEnv none 5) boundRetriever "file:///missing.mp4").2 key =
        extractMetadata (exampleEnv none 5)
          { clearMetadata boundRetriever with mSource := none } key) ∧
    (extractMetadata (exampleEnv none 5)
        (setDataSourceURI (exampleEnv none 5) boundRetriever "file:///missing.mp4").2
        MetadataKey.METADATA_KEY_NUM_TRACKS).map Prod.fst = some (some "3") ∧
    (getFrameAtTime (exampleEnv none 5)
        (setDataSourceURI (exampleEnv none 5) boundRetriever "file:///missing.mp4").2
        0 0 0 false).1 = some ⟨1⟩ :=
  ⟨(binding_failure_keeps_reader (exampleEnv none 5) boundRetriever "file:///missing.mp4"
      0 0 0 ⟨0, none⟩ none).1 (by decide), by decide, by decide⟩

/-! ## Extraction and the metadata state -/

theorem Retriever.metadataUndisturbed_refl (r : Retriever) : r.metadataUndisturbed r :=
  ⟨rfl, rfl, fun _ h => h⟩

theorem captureAlbumArt_metadata (meta : MetaData) (r : Retriever) :
    r.metadataUndisturbed (captureAlbumArt meta r) := by
  unfold captureAlbumArt
  split
  · rename_i hnone
    exact ⟨rfl, rfl, fun art h => by rw [hnone] at h; cases h⟩
  · exact Retriever.metadataUndisturbed_refl r

theorem getImageInternal_metadata (env : Env) (r : Retriever) (index colorFormat : Int)
    (metaOnly thumbnail : Bool) (rect : Option FrameRect) :
    (getImageInternal env r index colorFormat metaOnly thumbnail rect).2.mMetaData =
        r.mMetaData ∧
    (getImageInternal env r index colorFormat metaOnly thumbnail rect).2.mParsedMetaData =
        r.mParsedMetaData ∧
    (getImageInternal env r index colorFormat metaOnly thumbnail rect).2.mAlbumArt =
        r.mAlbumArt := by
  rcases getImageInternal_outcome env r index colorFormat metaOnly thumbnail rect with
    ⟨h, _⟩ | ⟨d, h, _⟩
  · rw [h]; exact ⟨rfl, rfl, rfl⟩
  · rw [h]; exact ⟨rfl, rfl, rfl⟩

theorem frameDecodeLoop_undisturbed (env : Env) (trackMeta : MetaData) (source : IMediaSource)
    (timeUs option colorFormat : Int) (r0 r : Retriever) (h : r0.metadataUndisturbed r)
    (cs : List String) :
    r0.metadataUndisturbed
      (frameDecodeLoop env trackMeta source timeUs option colorFormat r cs).state := by
  rcases frameDecodeLoop_state env trackMeta source timeUs option colorFormat r cs with
    ⟨h1, _⟩ | ⟨d, h1, _⟩
  · rw [h1]; exact h
  · rw [h1]; exact h

theorem getFrameInternal_metadata (env : Env) (r : Retriever) (timeUs option colorFormat : Int)
    (metaOnly : Bool) :
    r.metadataUndisturbed (getFrameInternal env r timeUs option colorFormat metaOnly).2 := by
  have hclear : r.metadataUndisturbed r.clearCache := ⟨rfl, rfl, fun _ h => h⟩
  have hart : ∀ meta, r.metadataUndisturbed (captureAlbumArt meta r.clearCache) := by
    intro meta
    obtain ⟨h1, h2, h3⟩ := captureAlbumArt_metadata meta r.clearCache
    exact ⟨h1, h2, h3⟩
  unfold getFrameInternal
  simp only []
  split
  · exact hclear
  · split
    · exact hclear
    · split
      · exact hclear
      · split
        · exact hclear
        · split
          · exact hclear
          · split
            · exact hclear
            · split
              · exact hart _
              · split
                · exact hart _
                · exact frameDecodeLoop_undisturbed env _ _ timeUs option colorFormat r _
                    (hart _) _

/-- C18. Extraction does not disturb metadata or album art. Each of
getImageAtIndex, getImageRectAtIndex, getFrameAtTime and getFrameAtIndex,
whatever it returns, leaves the dictionary and the parsed flag as they were and
keeps album art that is held; the two image calls never write album art at
all; and parseMetaData too keeps album art that is held, so art is only ever
written when none is held. -/
theorem extraction_keeps_metadata (env : Env) (r : Retriever)
    (index timeUs option frameIndex colorFormat left top right bottom : Int)
    (metaOnly thumbnail : Bool) (extractor : MediaExtractor) :
    r.metadataUndisturbed (getImageAtIndex env r index colorFormat metaOnly thumbnail).2 ∧
    r.metadataUndisturbed
      (getImageRectAtIndex env r index colorFormat left top right bottom).2 ∧
    r.metadataUndisturbed (getFrameAtTime env r timeUs option colorFormat metaOnly).2 ∧
    r.metadataUndisturbed (getFrameAtIndex env r frameIndex colorFormat metaOnly).2 ∧
    (getImageAtIndex env r index colorFormat metaOnly thumbnail).2.mAlbumArt = r.mAlbumArt ∧
    (getImageRectAtIndex env r index colorFormat left top right bottom).2.mAlbumArt =
      r.mAlbumArt ∧
    (∀ r1 art, parseMetaData env r extractor = some r1 → r.mAlbumArt = some art →
      r1.mAlbumArt = some art) := by
  have himage : ∀ (mo th : Bool) (rect : Option FrameRect),
      r.metadataUndisturbed (getImageInternal env r index colorFormat mo th rect).2 ∧
      (getImageInternal env r index colorFormat mo th rect).2.mAlbumArt = r.mAlbumArt := by
    intro mo th rect
    obtain ⟨h1, h2, h3⟩ := getImageInternal_metadata env r index colorFormat mo th rect
    exact ⟨⟨h1, h2, fun art h => by rw [h3]; exact h⟩, h3⟩
  have hrect : r.metadataUndisturbed
        (getImageRectAtIndex env r index colorFormat left top right bottom).2 ∧
      (getImageRectAtIndex env r index colorFormat left top right bottom).2.mAlbumArt =
        r.mAlbumArt := by
    unfold getImageRectAtIndex
    simp only []
    split
    · split
      · exact ⟨⟨rfl, rfl, fun _ h => h⟩, rfl⟩
      · exact himage _ _ _
    · exact himage _ _ _
  refine ⟨(himage _ _ _).1, hrect.1, getFrameInternal_metadata env r _ _ _ _, ?_,
    (himage _ _ _).2, hrect.2, ?_⟩
  · unfold getFrameAtIndex
    split
    · split
      · simp only []
        split
        · exact ⟨rfl, rfl, fun _ h => h⟩
        · exact ⟨rfl, rfl, fun _ h => h⟩
      · exact getFrameInternal_metadata env r _ _ _ _
    · exact getFrameInternal_metadata env r _ _ _ _
  · intro r1 art hparse hart
    unfold parseMetaData at hparse
    split at hparse
    · cases hparse; exact hart
    · simp only [] at hparse
      split at hparse
      · cases hparse
        exact (captureAlbumArt_metadata _ r).2.2 art hart
      · cases hparse

/-! ## Has-video determination -/

/-- The duration step of the loop body changes `maxDurationUs` only. -/
theorem durationStep_eq (trackMeta : MetaData) (s : TrackScan) :
    ∃ x, (match trackMeta.findInt64 MetaKey.kKeyDuration with
        | some durationUs =>
          if durationUs > s.maxDurationUs then { s with maxDurationUs := durationUs } else s
        | none => s) = { s with maxDurationUs := x } := by
  split
  · split
    · exact ⟨_, rfl⟩
    · exact ⟨s.maxDurationUs, rfl⟩
  · exact ⟨s.maxDurationUs, rfl⟩

theorem scanImageTrack_videoIs (trackMeta : MetaData) (s : TrackScan) (a : VideoAttributes) :
    (scanImageTrack trackMeta s).videoIs a ↔ s.videoIs a := by
  unfold scanImageTrack TrackScan.videoIs
  simp only []
  split
  · split
    · split <;> exact Iff.rfl
    · exact Iff.rfl
  · exact Iff.rfl

theorem scanImageTrack_hasVideo (trackMeta : MetaData) (s : TrackScan) :
    (scanImageTrack trackMeta s).hasVideo = s.hasVideo := by
  unfold scanImageTrack
  simp only []
  split
  · split
    · split <;> rfl
    · rfl
  · rfl

theorem scanTextTrack_videoIs (trackMeta : MetaData) (s : TrackScan) (a : VideoAttributes) :
    (scanTextTrack trackMeta s).videoIs a ↔ s.videoIs a := by
  unfold scanTextTrack
  split <;> exact Iff.rfl

theorem scanTextTrack_hasVideo (trackMeta : MetaData) (s : TrackScan) :
    (scanTextTrack trackMeta s).hasVideo = s.hasVideo := by
  unfold scanTextTrack
  split <;> rfl

/-- Once `hasVideo` is set, no iteration of the loop changes a video local. -/
theorem scanTrack_video_done (env : Env) (s : TrackScan) (t : Track) (a : VideoAttributes)
    (hs : s.videoIs a) : (scanTrack env s t).videoIs a := by
  unfold scanTrack
  cases hm : t.meta with
  | none => exact hs
  | some trackMeta =>
    simp only []
    obtain ⟨x, hx⟩ := durationStep_eq trackMeta s
    rw [hx]
    have hs1 : TrackScan.videoIs { s with maxDurationUs := x } a := hs
    generalize ({ s with maxDurationUs := x } : TrackScan) = s1 at hs1 ⊢
    cases hc : trackMeta.findCString MetaKey.kKeyMIMEType with
    | none => exact hs1
    | some mime =>
      simp only [hs1.1, Bool.not_true, Bool.false_and, Bool.false_eq_true, if_false]
      split
      · exact hs1
      · split
        · exact (scanImageTrack_videoIs _ _ a).mpr hs1
        · split
          · exact (scanTextTrack_videoIs _ _ a).mpr hs1
          · exact hs1

theorem scanTracks_video_done (env : Env) (a : VideoAttributes) :
    ∀ (tracks : List Track) (s : TrackScan), s.videoIs a → (scanTracks env tracks s).videoIs a := by
  intro tracks
  induction tracks with
  | nil => intro s hs; exact hs
  | cons t rest ih =>
    intro s hs
    exact ih _ (scanTrack_video_done env s t a hs)

/-- A MIME that starts with "video/" does not start with "audio/". -/
theorem video_not_audio (mime : String) (h : strncasecmp mime "video/" 6 = 0) :
    strncasecmp "audio/" mime 6 ≠ 0 := by
  unfold strncasecmp at *
  have hv : "video/".data = 'v' :: "ideo/".data := rfl
  have ha : "audio/".data = 'a' :: "udio/".data := rfl
  rw [hv] at h
  rw [ha]
  cases hd : mime.data with
  | nil => rw [hd] at h; revert h; decide
  | cons c cs =>
    rw [hd] at h
    simp only [strncasecmpAux] at h ⊢
    have hn : (c.toLower.toNat : Int) = 118 := by
      have h118 : (('v' : Char).toLower.toNat : Int) = 118 := by decide
      by_cases hc : c.toLower = ('v' : Char).toLower
      · rw [hc]; exact h118
      · simp only [hc, if_false] at h
        omega
    have hne : ¬ ('a' : Char).toLower = c.toLower := by
      intro e
      rw [← e] at hn
      revert hn
      decide
    simp only [hne, if_false]
    have h97 : ((('a' : Char).toLower.toNat : Nat) : Int) = 97 := by decide
    omega

theorem scanAudioTrack_videoIs (trackMeta : MetaData) (s : TrackScan) (a : VideoAttributes) :
    (scanAudioTrack trackMeta s).videoIs a ↔ s.videoIs a := Iff.rfl

/-- A track that is not a video track with both dimensions leaves `hasVideo`
unset. -/
theorem scanTrack_video_skip (env : Env) (s : TrackScan) (t : Track)
    (hs : s.hasVideo = false) (ht : sizedVideoAttributes t = none) :
    (scanTrack env s t).hasVideo = false := by
  unfold scanTrack
  cases hm : t.meta with
  | none => exact hs
  | some trackMeta =>
    simp only []
    obtain ⟨x, hx⟩ := durationStep_eq trackMeta s
    rw [hx]
    have hs1 : TrackScan.hasVideo { s with maxDurationUs := x } = false := hs
    generalize ({ s with maxDurationUs := x } : TrackScan) = s1 at hs1 ⊢
    cases hc : trackMeta.findCString MetaKey.kKeyMIMEType with
    | none => exact hs1
    | some mime =>
      simp only []
      split
      · exact hs1
      · split
        · rename_i hvid
          simp only [Bool.and_eq_true, decide_eq_true_eq] at hvid
          have hvideo : strncasecmp mime "video/" 6 = 0 := (strncasecmp_symm _ _ _).mp hvid.2
          unfold sizedVideoAttributes at ht
          simp only [hm, hc, hvideo, if_true] at ht
          unfold scanVideoTrack
          simp only []
          split
          · rename_i w hw
            split
            · rename_i h hh
              simp [hw, hh] at ht
            · exact hs1
          · exact hs1
        · split
          · rw [scanImageTrack_hasVideo]; exact hs1
          · split
            · rw [scanTextTrack_hasVideo]; exact hs1
            · exact hs1

/-- The first video track with both dimensions sets the video locals. -/
theorem scanTrack_video_found (env : Env) (s : TrackScan) (t : Track) (a : VideoAttributes)
    (hs : s.hasVideo = false) (ht : sizedVideoAttributes t = some a) :
    (scanTrack env s t).videoIs a := by
  unfold sizedVideoAttributes at ht
  cases hm : t.meta with
  | none => simp [hm] at ht
  | some trackMeta =>
    simp only [hm] at ht
    cases hc : trackMeta.findCString MetaKey.kKeyMIMEType with
    | none => simp [hc] at ht
    | some mime =>
      simp only [hc] at ht
      by_cases hvideo : strncasecmp mime "video/" 6 = 0
      · simp only [hvideo, if_true] at ht
        cases hw : trackMeta.findInt32 MetaKey.kKeyWidth with
        | none => simp [hw] at ht
        | some w =>
          cases hh : trackMeta.findInt32 MetaKey.kKeyHeight with
          | none => simp [hw, hh] at ht
          | some h =>
            simp only [hw, hh, Option.some.injEq] at ht
            subst ht
            have haudio : strncasecmp "audio/" mime 6 ≠ 0 := video_not_audio mime hvideo
            have hcode : strncasecmp "video/" mime 6 = 0 := (strncasecmp_symm _ _ _).mp hvideo
            unfold scanTrack
            simp only [hm, hc]
            obtain ⟨x, hx⟩ := durationStep_eq trackMeta s
            rw [hx]
            have hs1 : TrackScan.hasVideo { s with maxDurationUs := x } = false := hs
            generalize ({ s with maxDurationUs := x } : TrackScan) = s1 at hs1 ⊢
            simp only [haudio, hcode, hs1, decide_False, decide_True, Bool.and_false,
              Bool.not_false, Bool.and_self, Bool.false_eq_true, if_false, if_true]
            unfold scanVideoTrack
            simp only [hw, hh]
            refine ⟨rfl, rfl, rfl, ?_, ?_, rfl⟩
            · show outParam (trackMeta.findInt32 MetaKey.kKeyRotation) 0 = _
              cases trackMeta.findInt32 MetaKey.kKeyRotation <;> rfl
            · show outParam (trackMeta.findInt32 MetaKey.kKeyFrameCount) 0 = _
              cases trackMeta.findInt32 MetaKey.kKeyFrameCount <;> rfl
      · simp [hvideo] at ht

/-- The video locals when the loop over the tracks is left. -/
theorem scanTracks_video (env : Env) :
    ∀ (tracks : List Track) (s : TrackScan), s.hasVideo = false →
      match firstSizedVideo tracks with
      | none => (scanTracks env tracks s).hasVideo = false
      | some a => (scanTracks env tracks s).videoIs a := by
  intro tracks
  induction tracks with
  | nil => intro s hs; exact hs
  | cons t rest ih =>
    intro s hs
    unfold firstSizedVideo
    rw [List.findSome?_cons]
    cases ht : sizedVideoAttributes t with
    | none =>
      simp only []
      exact ih _ (scanTrack_video_skip env s t hs ht)
    | some a =>
      simp only []
      exact scanTracks_video_done env a rest _ (scanTrack_video_found env s t a hs ht)

/-- C19. The assertions of parseMetaData. When the first video track that
carries both dimensions publishes a negative width or a negative height,
parseMetaData does not run to completion: CHECK(videoWidth >= 0) or
CHECK(videoHeight >= 0) fails, and so extractMetadata and extractAlbumArt on a
retriever bound to that container, with nothing parsed yet, abort. -/
theorem synthesis_aborts_on_negative_dimension (env : Env) (r : Retriever)
    (extractor : MediaExtractor) (meta : MetaData) (a : VideoAttributes)
    (hmeta : extractor.fileMeta = some meta)
    (hfirst : firstSizedVideo extractor.tracks = some a)
    (hneg : a.width < 0 ∨ a.height < 0) :
    parseMetaData env r extractor = none ∧
    (r.mExtractor = some extractor → r.mParsedMetaData = false →
      (∀ key, extractMetadata env r key = none) ∧ extractAlbumArt env r = none) := by
  have hscan : (synthesisScan env r extractor meta).videoIs a := by
    have h := scanTracks_video env extractor.tracks
      (TrackScan.start (addContainerFields env meta extractor.countTracks r.mMetaData)) rfl
    rw [hfirst] at h
    exact h
  obtain ⟨h1, h2, h3, _⟩ := hscan
  have hchecks : ¬ checksPass (synthesisScan env r extractor meta) = true := by
    unfold checksPass
    simp only [h1, h2, h3, Bool.not_true, Bool.false_or, Bool.and_eq_true, decide_eq_true_eq,
      not_and]
    intro hc
    exfalso
    omega
  have hparse := parseMetaData_eq env r extractor meta hmeta
  rw [if_neg hchecks] at hparse
  refine ⟨hparse, fun hbound hfresh => ⟨fun key => ?_, ?_⟩⟩
  · unfold extractMetadata
    simp only [hbound, hfresh, hparse, Bool.false_eq_true, if_false]
  · unfold extractAlbumArt
    simp only [hbound, hfresh, hparse, Bool.false_eq_true, if_false]

theorem synthesis_aborts_on_negative_dimension_witness :
    firstSizedVideo negativeWidthContainer.tracks =
      some { width := -1, height := 480, rotation := 0, frameCount := 0, mime := "video/avc" } ∧
    parseMetaData (exampleEnv none 5) negativeWidthRetriever negativeWidthContainer = none ∧
    (∀ key, extractMetadata (exampleEnv none 5) negativeWidthRetriever key = none) ∧
    extractAlbumArt (exampleEnv none 5) negativeWidthRetriever = none :=
  have h := synthesis_aborts_on_negative_dimension (exampleEnv none 5) negativeWidthRetriever
    negativeWidthContainer ⟨[(MetaKey.kKeyMIMEType, MetaValue.cstring "video/mp4")]⟩
    { width := -1, height := 480, rotation := 0, frameCount := 0, mime := "video/avc" }
    rfl (by decide) (Or.inl (by decide))
  ⟨by decide, h.1, (h.2 rfl rfl).1, (h.2 rfl rfl).2⟩

/-! ## Metadata idempotence -/

/-- The state after `getFrameInternal`: the cache is cleared, album art from
the container may have been captured, and a decoder may have been cached. -/
theorem getFrameInternal_state (env : Env) (r : Retriever) (timeUs option colorFormat : Int)
    (metaOnly : Bool) :
    ∃ r0, (r0 = r.clearCache ∨ ∃ meta, r0 = captureAlbumArt meta r.clearCache) ∧
      ((getFrameInternal env r timeUs option colorFormat metaOnly).2 = r0 ∨
        ∃ d, (getFrameInternal env r timeUs option colorFormat metaOnly).2 =
          r0.populate d (toInt32 timeUs)) := by
  have hclear : ∃ r0, (r0 = r.clearCache ∨ ∃ meta, r0 = captureAlbumArt meta r.clearCache) ∧
      (r.clearCache = r0 ∨ ∃ d, r.clearCache = r0.populate d (toInt32 timeUs)) :=
    ⟨_, Or.inl rfl, Or.inl rfl⟩
  have hart : ∀ meta, ∃ r0,
      (r0 = r.clearCache ∨ ∃ meta, r0 = captureAlbumArt meta r.clearCache) ∧
      (captureAlbumArt meta r.clearCache = r0 ∨
        ∃ d, captureAlbumArt meta r.clearCache = r0.populate d (toInt32 timeUs)) :=
    fun meta => ⟨_, Or.inr ⟨meta, rfl⟩, Or.inl rfl⟩
  unfold getFrameInternal
  simp only []
  split
  · exact hclear
  · split
    · exact hclear
    · split
      · exact hclear
      · split
        · exact hclear
        · split
          · exact hclear
          · split
            · exact hclear
            · split
              · exact hart _
              · split
                · exact hart _
                · rename_i fileMeta _ _ _ trackMeta _ _ _ source _ _ mime _ _ format _
                  refine ⟨captureAlbumArt fileMeta r.clearCache, Or.inr ⟨_, rfl⟩, ?_⟩
                  rcases frameDecodeLoop_state env trackMeta source timeUs option colorFormat
                      (captureAlbumArt fileMeta r.clearCache)
                      (env.findMatchingCodecs mime false
                        (if env.preferhw then 0 else env.defs.kPreferSoftwareCodecs) format) with
                    ⟨h1, _⟩ | ⟨d, h1, _⟩
                  · exact Or.inl h1
                  · exact Or.inr ⟨d, h1⟩

theorem captureAlbumArt_binding (meta : MetaData) (r : Retriever) :
    (captureAlbumArt meta r).mExtractor = r.mExtractor := by
  unfold captureAlbumArt
  split <;> rfl

theorem getFrameInternal_binding (env : Env) (r : Retriever) (timeUs option colorFormat : Int)
    (metaOnly : Bool) :
    (getFrameInternal env r timeUs option colorFormat metaOnly).2.mExtractor = r.mExtractor := by
  obtain ⟨r0, h0, h1⟩ := getFrameInternal_state env r timeUs option colorFormat metaOnly
  have hr0 : r0.mExtractor = r.mExtractor := by
    rcases h0 with rfl | ⟨meta, rfl⟩
    · rfl
    · exact captureAlbumArt_binding meta _
  rcases h1 with h | ⟨d, h⟩
  · rw [h]; exact hr0
  · rw [h]; exact hr0

theorem getImageInternal_binding (env : Env) (r : Retriever) (index colorFormat : Int)
    (metaOnly thumbnail : Bool) (rect : Option FrameRect) :
    (getImageInternal env r index colorFormat metaOnly thumbnail rect).2.mExtractor =
      r.mExtractor := by
  rcases getImageInternal_outcome env r index colorFormat metaOnly thumbnail rect with
    ⟨h, _⟩ | ⟨d, h, _⟩
  · rw [h]; rfl
  · rw [h]; rfl

theorem getImageRectAtIndex_sameMetadata (env : Env) (r : Retriever)
    (index colorFormat left top right bottom : Int) :
    r.sameMetadata (getImageRectAtIndex env r index colorFormat left top right bottom).2 := by
  have himage : ∀ rect, r.sameMetadata
      (getImageInternal env r index colorFormat false false rect).2 := fun rect =>
    ⟨getImageInternal_binding env r _ _ _ _ _,
      (getImageInternal_metadata env r _ _ _ _ _).2.1,
      (getImageInternal_metadata env r _ _ _ _ _).1⟩
  unfold getImageRectAtIndex
  simp only []
  split
  · split
    · exact ⟨rfl, rfl, rfl⟩
    · exact himage _
  · exact himage _

theorem getFrameInternal_sameMetadata (env : Env) (r : Retriever)
    (timeUs option colorFormat : Int) (metaOnly : Bool) :
    r.sameMetadata (getFrameInternal env r timeUs option colorFormat metaOnly).2 :=
  ⟨getFrameInternal_binding env r _ _ _ _,
    (getFrameInternal_metadata env r _ _ _ _).2.1,
    (getFrameInternal_metadata env r _ _ _ _).1⟩

theorem getFrameAtIndex_sameMetadata (env : Env) (r : Retriever)
    (frameIndex colorFormat : Int) (metaOnly : Bool) :
    r.sameMetadata (getFrameAtIndex env r frameIndex colorFormat metaOnly).2 := by
  unfold getFrameAtIndex
  split
  · split
    · simp only []
      split
      · exact ⟨rfl, rfl, rfl⟩
      · exact ⟨rfl, rfl, rfl⟩
    · exact getFrameInternal_sameMetadata env r _ _ _ _
  · exact getFrameInternal_sameMetadata env r _ _ _ _

/-- A call that does not enter `parseMetaData` completes and leaves the
container reader, the parsed flag and the dictionary as they were. -/
theorem Call.run_of_not_parses (env : Env) (r : Retriever) (c : Call)
    (h : c.parses r = false) :
    ∃ res r1, c.run env r = some (res, r1) ∧ r.sameMetadata r1 := by
  cases c with
  | metadata keyCode =>
    simp only [Call.parses, Bool.and_eq_false_imp, Option.isSome_iff_exists,
      Bool.not_eq_false'] at h
    unfold Call.run extractMetadata
    cases he : r.mExtractor with
    | none => exact ⟨_, _, rfl, rfl, rfl, rfl⟩
    | some extractor =>
      have hp : r.mParsedMetaData = true := h ⟨extractor, he⟩
      simp only [hp, if_true, Option.map_some']
      exact ⟨_, _, rfl, rfl, rfl, rfl⟩
  | albumArt =>
    simp only [Call.parses, Bool.and_eq_false_imp, Option.isSome_iff_exists,
      Bool.not_eq_false'] at h
    unfold Call.run extractAlbumArt
    cases he : r.mExtractor with
    | none => exact ⟨_, _, rfl, rfl, rfl, rfl⟩
    | some extractor =>
      have hp : r.mParsedMetaData = true := h ⟨extractor, he⟩
      simp only [hp, if_true, Option.map_some']
      exact ⟨_, _, rfl, rfl, rfl, rfl⟩
  | imageAtIndex index colorFormat metaOnly thumbnail =>
    exact ⟨_, _, rfl, getImageInternal_binding env r _ _ _ _ _,
      (getImageInternal_metadata env r _ _ _ _ _).2.1,
      (getImageInternal_metadata env r _ _ _ _ _).1⟩
  | imageRectAtIndex index colorFormat left top right bottom =>
    exact ⟨_, _, rfl, getImageRectAtIndex_sameMetadata env r _ _ _ _ _ _⟩
  | frameAtTime timeUs option colorFormat metaOnly =>
    exact ⟨_, _, rfl, getFrameInternal_sameMetadata env r _ _ _ _⟩
  | frameAtIndex frameIndex colorFormat metaOnly =>
    exact ⟨_, _, rfl, getFrameAtIndex_sameMetadata env r _ _ _⟩

/-- A call that enters `parseMetaData` and returns leaves the parsed flag
set. -/
theorem Call.run_of_parses (env : Env) (r : Retriever) (c : Call) (h : c.parses r = true)
    (res : CallResult) (r1 : Retriever) (hrun : c.run env r = some (res, r1)) :
    r1.settled := by
  cases c with
  | metadata keyCode =>
    simp only [Call.parses, Bool.and_eq_true, Option.isSome_iff_exists,
      Bool.not_eq_true'] at h
    obtain ⟨⟨extractor, he⟩, hp⟩ := h
    unfold Call.run extractMetadata at hrun
    simp only [he, hp, Bool.false_eq_true, if_false] at hrun
    cases hparse : parseMetaData env r extractor with
    | none => simp [hparse] at hrun
    | some r2 =>
      simp only [hparse, Option.map_some', Option.some.injEq, Prod.mk.injEq] at hrun
      rw [← hrun.2]
      exact Or.inr rfl
  | albumArt =>
    simp only [Call.parses, Bool.and_eq_true, Option.isSome_iff_exists,
      Bool.not_eq_true'] at h
    obtain ⟨⟨extractor, he⟩, hp⟩ := h
    unfold Call.run extractAlbumArt at hrun
    simp only [he, hp, Bool.false_eq_true, if_false] at hrun
    cases hparse : parseMetaData env r extractor with
    | none => simp [hparse] at hrun
    | some r2 =>
      simp only [hparse, Option.map_some', Option.some.injEq, Prod.mk.injEq] at hrun
      rw [← hrun.2]
      exact Or.inr rfl
  | imageAtIndex index colorFormat metaOnly thumbnail => simp [Call.parses] at h
  | imageRectAtIndex index colorFormat left top right bottom => simp [Call.parses] at h
  | frameAtTime timeUs option colorFormat metaOnly => simp [Call.parses] at h
  | frameAtIndex frameIndex colorFormat metaOnly => simp [Call.parses] at h

theorem Call.parses_of_settled (r : Retriever) (c : Call) (h : r.settled) :
    c.parses r = false := by
  cases c <;> rcases h with h | h <;> simp [Call.parses, h]

theorem Retriever.settled_of_sameMetadata (r r1 : Retriever) (h : r.sameMetadata r1)
    (hs : r.settled) : r1.settled := by
  rcases hs with hs | hs
  · exact Or.inl (h.1.trans hs)
  · exact Or.inr (h.2.1.trans hs)

/-- From a settled state every sequence of calls completes, never enters
`parseMetaData` and leaves the metadata as it was. -/
theorem runCalls_of_settled (env : Env) :
    ∀ (calls : List Call) (r : Retriever), r.settled →
      ∃ results r2, runCalls env r calls = some (results, r2, 0) ∧ r.sameMetadata r2 := by
  intro calls
  induction calls with
  | nil => intro r _; exact ⟨[], r, rfl, rfl, rfl, rfl⟩
  | cons c rest ih =>
    intro r hs
    have hp := Call.parses_of_settled r c hs
    obtain ⟨res, r1, hrun, hsame⟩ := Call.run_of_not_parses env r c hp
    obtain ⟨results, r2, hrest, hsame2⟩ :=
      ih r1 (Retriever.settled_of_sameMetadata r r1 hsame hs)
    refine ⟨res :: results, r2, ?_, ?_⟩
    · simp [runCalls, hrun, hrest, hp]
    · exact ⟨hsame2.1.trans hsame.1, hsame2.2.1.trans hsame.2.1, hsame2.2.2.trans hsame.2.2⟩

/-- Whatever the state, a sequence of calls enters `parseMetaData` at most
once. -/
theorem runCalls_parses_le_one (env : Env) :
    ∀ (calls : List Call) (r : Retriever) (out : List CallResult × Retriever × Nat),
      runCalls env r calls = some out → out.2.2 ≤ 1 := by
  intro calls
  induction calls with
  | nil =>
    intro r out h
    simp only [runCalls, Option.some.injEq] at h
    rw [← h]
    exact Nat.zero_le 1
  | cons c rest ih =>
    intro r out h
    unfold runCalls at h
    cases hrun : c.run env r with
    | none => simp [hrun] at h
    | some first =>
      obtain ⟨res, r1⟩ := first
      simp only [hrun] at h
      cases hrest : runCalls env r1 rest with
      | none => simp [hrest] at h
      | some tail =>
        obtain ⟨results, r2, n⟩ := tail
        simp only [hrest, Option.some.injEq] at h
        rw [← h]
        by_cases hp : c.parses r = true
        · have hs := Call.run_of_parses env r c hp res r1 hrun
          obtain ⟨results', r2', hrest', _⟩ := runCalls_of_settled env rest r1 hs
          rw [hrest] at hrest'
          simp only [Option.some.injEq, Prod.mk.injEq] at hrest'
          simp [hp, hrest'.2.2]
        · have hn := ih r1 _ hrest
          simp only [hp, Bool.false_eq_true, if_false]
          simpa using hn

/-- In a settled state `extractMetadata` reads the dictionary and changes
nothing. -/
theorem extractMetadata_of_settled (env : Env) (r : Retriever) (key : MetadataKey)
    (hs : r.settled) :
    extractMetadata env r key =
      some (match r.mExtractor with
            | none => none
            | some _ => r.mMetaData.valueFor key, r) := by
  unfold extractMetadata
  cases he : r.mExtractor with
  | none => rfl
  | some extractor =>
    rcases hs with hs | hs
    · rw [he] at hs; cases hs
    · simp only [hs, if_true]

/-- A call of `extractMetadata` that returns leaves a settled state in which
the same call returns the same value. -/
theorem extractMetadata_settles (env : Env) (r : Retriever) (key : MetadataKey)
    (value : Option String) (r1 : Retriever)
    (h : extractMetadata env r key = some (value, r1)) :
    r1.settled ∧ value = (match r1.mExtractor with
                          | none => none
                          | some _ => r1.mMetaData.valueFor key) := by
  unfold extractMetadata at h
  cases he : r.mExtractor with
  | none =>
    simp only [he, Option.some.injEq, Prod.mk.injEq] at h
    obtain ⟨hv, hr⟩ := h
    subst hr
    exact ⟨Or.inl he, by rw [he]; exact hv.symm⟩
  | some extractor =>
    simp only [he] at h
    by_cases hp : r.mParsedMetaData = true
    · simp only [hp, if_true, Option.some.injEq, Prod.mk.injEq] at h
      obtain ⟨hv, hr⟩ := h
      subst hr
      exact ⟨Or.inr hp, by rw [he]; exact hv.symm⟩
    · have hp2 : r.mParsedMetaData = false := by simpa using hp
      simp only [hp2] at h
      cases hparse : parseMetaData env r extractor with
      | none => simp [hparse] at h
      | some r2 =>
        simp only [hparse, Bool.false_eq_true, if_false, Option.some.injEq,
          Prod.mk.injEq] at h
        obtain ⟨hv, hr⟩ := h
        subst hr
        have hext : r2.mExtractor = r.mExtractor := by
          unfold parseMetaData at hparse
          split at hparse
          · cases hparse; rfl
          · simp only [] at hparse
            split at hparse
            · cases hparse; rfl
            · cases hparse
        refine ⟨Or.inr rfl, ?_⟩
        simp only [hext, he]
        exact hv.symm

/-- C12. Metadata idempotence. Whatever the state, a sequence of
extractMetadata, extractAlbumArt and frame or image extraction calls with no
setDataSource in between enters parseMetaData at most once; and once a call of
extractMetadata for a key has returned a value, every such sequence of further
calls completes without entering parseMetaData, and a second call of
extractMetadata for that key afterwards returns the identical value and leaves
the state as it is. -/
theorem metadata_idempotence (env : Env) (r : Retriever) (calls : List Call)
    (key : MetadataKey) :
    (∀ out, runCalls env r calls = some out → out.2.2 ≤ 1) ∧
    (∀ value r1, extractMetadata env r key = some (value, r1) →
      ∃ results r2, runCalls env r1 calls = some (results, r2, 0) ∧
        extractMetadata env r2 key = some (value, r2)) := by
  refine ⟨fun out h => runCalls_parses_le_one env calls r out h, ?_⟩
  intro value r1 hfirst
  obtain ⟨hs, hv⟩ := extractMetadata_settles env r key value r1 hfirst
  obtain ⟨results, r2, hrun, hsame⟩ := runCalls_of_settled env calls r1 hs
  refine ⟨results, r2, hrun, ?_⟩
  rw [extractMetadata_of_settled env r2 key (Retriever.settled_of_sameMetadata r1 r2 hsame hs),
    hsame.1, hsame.2.2, hv]

theorem metadata_idempotence_witness :
    (extractMetadata (exampleEnv none 5) boundRetriever
      MetadataKey.METADATA_KEY_NUM_TRACKS).map Prod.fst = some (some "3") ∧
    ∃ results r2,
      runCalls (exampleEnv none 5)
        ((extractMetadata (exampleEnv none 5) boundRetriever
          MetadataKey.METADATA_KEY_NUM_TRACKS).getD (none, boundRetriever)).2
        [Call.frameAtIndex 0 0 false, Call.albumArt,
         Call.metadata MetadataKey.METADATA_KEY_MIMETYPE] = some (results, r2, 0) ∧
      extractMetadata (exampleEnv none 5) r2 MetadataKey.METADATA_KEY_NUM_TRACKS =
        some (some "3", r2) :=
  ⟨by decide,
   (metadata_idempotence (exampleEnv none 5) boundRetriever
      [Call.frameAtIndex 0 0 false, Call.albumArt,
       Call.metadata MetadataKey.METADATA_KEY_MIMETYPE]
      MetadataKey.METADATA_KEY_NUM_TRACKS).2 (some "3") _ (by rfl)⟩

/-! ## Dimension negotiation -/

theorem find_filter_ne_other {α β : Type} [DecidableEq α] (key other : α) (h : key ≠ other) :
    ∀ l : List (α × β),
      (l.filter (fun kv => decide (kv.1 ≠ key))).find? (fun kv => decide (kv.1 = other)) =
        l.find? (fun kv => decide (kv.1 = other)) := by
  intro l
  induction l with
  | nil => rfl
  | cons x xs ih =>
    by_cases hx : x.1 = key
    · have hne : ¬ x.1 = other := fun e => h (hx.symm.trans e)
      have hf : ¬ (decide (x.1 ≠ key) = true) := by simp [hx]
      have hn : ¬ (decide (x.1 = other) = true) := by simp [hne]
      rw [@List.filter_cons_of_neg _ (fun kv => decide (kv.1 ≠ key)) x xs hf, ih,
        @List.find?_cons_of_neg _ (fun kv => decide (kv.1 = other)) x xs hn]
    · have hf : decide (x.1 ≠ key) = true := by simp [hx]
      rw [@List.filter_cons_of_pos _ (fun kv => decide (kv.1 ≠ key)) x xs hf]
      by_cases ho : x.1 = other
      · have hp : decide (x.1 = other) = true := by simp [ho]
        rw [@List.find?_cons_of_pos _ (fun kv => decide (kv.1 = other)) x _ hp,
          @List.find?_cons_of_pos _ (fun kv => decide (kv.1 = other)) x _ hp]
      · have hn : ¬ (decide (x.1 = other) = true) := by simp [ho]
        rw [@List.find?_cons_of_neg _ (fun kv => decide (kv.1 = other)) x _ hn,
          @List.find?_cons_of_neg _ (fun kv => decide (kv.1 = other)) x _ hn, ih]

theorem find_filter_ne_self {α β : Type} [DecidableEq α] (key : α) :
    ∀ l : List (α × β),
      (l.filter (fun kv => decide (kv.1 ≠ key))).find? (fun kv => decide (kv.1 = key)) =
        none := by
  intro l
  rw [List.find?_eq_none]
  intro x hx
  have := (List.mem_filter.mp hx).2
  simpa using this

theorem AMessage.findInt32_setInt32 (m : AMessage) (name other : String) (v : Int) :
    (m.setInt32 name v).findInt32 other =
      if name = other then some v else m.findInt32 other := by
  unfold AMessage.findInt32 AMessage.setInt32
  simp only [List.find?_append]
  by_cases h : name = other
  · subst h
    rw [find_filter_ne_self name m.int32s]
    simp
  · rw [find_filter_ne_other name other h m.int32s]
    simp only [h, if_false]
    cases hf : List.find? (fun kv => decide (kv.1 = other)) m.int32s with
    | none => simp [h]
    | some kv => simp

theorem MetaData.find_setCString_other (m : MetaData) (key other : MetaKey) (s : String)
    (h : key ≠ other) : (m.setCString key s).find other = m.find other := by
  unfold MetaData.find MetaData.setCString
  simp only [List.find?_cons, h, decide_False]
  rw [find_filter_ne_other key other h m.items]

theorem MetaData.findInt32_setCString_other (m : MetaData) (key other : MetaKey) (s : String)
    (h : key ≠ other) : (m.setCString key s).findInt32 other = m.findInt32 other := by
  unfold MetaData.findInt32
  rw [MetaData.find_setCString_other m key other s h]

/-- The remapped track attributes carry the integer attributes of the track. -/
theorem remapImageMime_findInt32 (d : MediaDefs) (mime : String) (trackMeta : MetaData)
    (key : MetaKey) (h : MetaKey.kKeyMIMEType ≠ key) :
    (remapImageMime d mime trackMeta).2.1.findInt32 key = trackMeta.findInt32 key := by
  unfold remapImageMime
  split
  · exact MetaData.findInt32_setCString_other _ _ _ _ h
  · split
    · exact MetaData.findInt32_setCString_other _ _ _ _ h
    · rfl

theorem remapImageMime_isHeif (d : MediaDefs) (mime : String) (trackMeta : MetaData) :
    (remapImageMime d mime trackMeta).2.2 = isRemappedMime d mime := by
  unfold remapImageMime isRemappedMime
  split
  · rename_i h; simp [h]
  · split
    · rename_i h1 h2; simp [h1, h2]
    · rename_i h1 h2; simp [h1, h2]

/-- The width and height of the format after the two overrides of
`getImageInternal`, and the entries the overrides leave alone. -/
theorem overrides_dimensions (trackMeta : MetaData) (converted : AMessage)
    (thumbnail isHeif : Bool) :
    ((tileDimensions trackMeta (thumbnailDimensions trackMeta converted thumbnail) thumbnail
          isHeif).findInt32 "width",
      (tileDimensions trackMeta (thumbnailDimensions trackMeta converted thumbnail) thumbnail
          isHeif).findInt32 "height") =
      negotiatedDimensions trackMeta converted thumbnail isHeif ∧
    (∀ name, name ≠ "width" → name ≠ "height" →
      (tileDimensions trackMeta (thumbnailDimensions trackMeta converted thumbnail) thumbnail
          isHeif).findInt32 name = converted.findInt32 name) := by
  have hset : ∀ (f : AMessage) (w h : Int),
      (((f.setInt32 "height" h).setInt32 "width" w).findInt32 "width",
        ((f.setInt32 "height" h).setInt32 "width" w).findInt32 "height") = (some w, some h) ∧
      ∀ name, name ≠ "width" → name ≠ "height" →
        ((f.setInt32 "height" h).setInt32 "width" w).findInt32 name = f.findInt32 name := by
    intro f w h
    refine ⟨?_, fun name h1 h2 => ?_⟩
    · simp only [AMessage.findInt32_setInt32]
      simp
    · simp only [AMessage.findInt32_setInt32]
      simp [Ne.symm h1, Ne.symm h2]
  cases thumbnail with
  | true =>
    have htile : ∀ f, tileDimensions trackMeta f true isHeif = f := by
      intro f; simp [tileDimensions]
    rw [htile]
    unfold thumbnailDimensions negotiatedDimensions thumbnailSize
    simp only [if_true]
    cases hh : trackMeta.findInt32 MetaKey.kKeyThumbnailHeight with
    | none =>
      cases hw : trackMeta.findInt32 MetaKey.kKeyThumbnailWidth <;>
        exact ⟨rfl, fun _ _ _ => rfl⟩
    | some h =>
      cases hw : trackMeta.findInt32 MetaKey.kKeyThumbnailWidth with
      | none => exact ⟨rfl, fun _ _ _ => rfl⟩
      | some w => exact hset converted w h
  | false =>
    have hthumb : thumbnailDimensions trackMeta converted false = converted := by
      simp [thumbnailDimensions]
    rw [hthumb]
    unfold tileDimensions negotiatedDimensions tileSize
    cases isHeif with
    | false => exact ⟨rfl, fun _ _ _ => rfl⟩
    | true =>
      simp only [Bool.not_false, Bool.and_self, if_true, Bool.false_eq_true, if_false]
      cases hw : trackMeta.findInt32 MetaKey.kKeyTileWidth with
      | none => exact ⟨rfl, fun _ _ _ => rfl⟩
      | some w =>
        cases hh : trackMeta.findInt32 MetaKey.kKeyTileHeight with
        | none =>
          simp only []
          split <;> exact ⟨rfl, fun _ _ _ => rfl⟩
        | some h =>
          simp only []
          by_cases hwp : 0 < w
          · by_cases hhp : 0 < h
            · simp only [hwp, hhp, if_true, and_self]
              exact hset converted w h
            · simp [hwp, hhp]
          · simp [hwp]

theorem negotiatedDimensions_remapped (d : MediaDefs) (mime : String) (trackMeta : MetaData)
    (converted : AMessage) (thumbnail remapped : Bool) :
    negotiatedDimensions (remapImageMime d mime trackMeta).2.1 converted thumbnail remapped =
      negotiatedDimensions trackMeta converted thumbnail remapped := by
  unfold negotiatedDimensions thumbnailSize tileSize
  simp only [remapImageMime_findInt32 d mime trackMeta _
      (by decide : MetaKey.kKeyMIMEType ≠ MetaKey.kKeyThumbnailWidth),
    remapImageMime_findInt32 d mime trackMeta _
      (by decide : MetaKey.kKeyMIMEType ≠ MetaKey.kKeyThumbnailHeight),
    remapImageMime_findInt32 d mime trackMeta _
      (by decide : MetaKey.kKeyMIMEType ≠ MetaKey.kKeyTileWidth),
    remapImageMime_findInt32 d mime trackMeta _
      (by decide : MetaKey.kKeyMIMEType ≠ MetaKey.kKeyTileHeight)]

/-- C23. Dimension negotiation. When getImageInternal selects track `p`, the
track publishes a MIME, its descriptor converts to a format and its stream can
be opened, a decode request (no metadata-only answer) hands the codec registry
one format, with which the decoder fallback loop then runs. The width and
height of that format are (a) the thumbnail dimensions of the track for a
thumbnail request on a track that carries both, (b) the tile dimensions of the
track for a full request on a track remapped from HEIC or AVIF whose tile
dimensions are both present and positive, and (c) the converted values
otherwise; every other entry is the converted one; and the format is the
converted format with at most one of the two overrides applied. -/
theorem dimension_negotiation (env : Env) (r : Retriever) (extractor : MediaExtractor)
    (index colorFormat : Int) (thumbnail : Bool) (rect : Option FrameRect) (p : Nat)
    (trackMeta : MetaData) (mime : String) (converted : AMessage) (source : IMediaSource)
    (hbound : r.mExtractor = some extractor)
    (hsel : imageTrackLoop index extractor.tracks 0 0 = p) (hp : p < extractor.tracks.length)
    (hmeta : extractor.getTrackMetaData p = some trackMeta)
    (hmime : trackMeta.findCString MetaKey.kKeyMIMEType = some mime)
    (hconv : env.convertMetaDataToMessage (remapImageMime env.defs mime trackMeta).2.1 =
      some converted)
    (hsource : extractor.getTrack p = some source) :
    ∃ format : AMessage,
      getImageInternal env r index colorFormat false thumbnail rect =
        ((imageDecodeLoop env (remapImageMime env.defs mime trackMeta).2.1 source index
            colorFormat thumbnail rect r.clearCache
            (env.findMatchingCodecs (remapImageMime env.defs mime trackMeta).1 false
              (if env.preferhw then 0 else env.defs.kPreferSoftwareCodecs) format)).frame,
         (imageDecodeLoop env (remapImageMime env.defs mime trackMeta).2.1 source index
            colorFormat thumbnail rect r.clearCache
            (env.findMatchingCodecs (remapImageMime env.defs mime trackMeta).1 false
              (if env.preferhw then 0 else env.defs.kPreferSoftwareCodecs) format)).state) ∧
      (format.findInt32 "width", format.findInt32 "height") =
        negotiatedDimensions trackMeta converted thumbnail (isRemappedMime env.defs mime) ∧
      (∀ name, name ≠ "width" → name ≠ "height" →
        format.findInt32 name = converted.findInt32 name) ∧
      (format = thumbnailDimensions (remapImageMime env.defs mime trackMeta).2.1 converted
          thumbnail ∨
        format = tileDimensions (remapImageMime env.defs mime trackMeta).2.1 converted thumbnail
          (remapImageMime env.defs mime trackMeta).2.2) := by
  refine ⟨tileDimensions (remapImageMime env.defs mime trackMeta).2.1
    (thumbnailDimensions (remapImageMime env.defs mime trackMeta).2.1 converted thumbnail)
    thumbnail (remapImageMime env.defs mime trackMeta).2.2, ?_, ?_, ?_, ?_⟩
  · rw [getImageInternal_found env r extractor index colorFormat false thumbnail rect p hbound
      hsel hp]
    unfold decodeImageTrack
    simp only [hmeta, hmime, hconv, hsource, Bool.false_eq_true, if_false]
    rfl
  · rw [(overrides_dimensions _ converted thumbnail _).1, negotiatedDimensions_remapped,
      remapImageMime_isHeif]
  · exact (overrides_dimensions _ converted thumbnail _).2
  · cases thumbnail with
    | true => left; simp [tileDimensions]
    | false => right; simp [thumbnailDimensions]

theorem dimension_negotiation_witness :
    (∃ format : AMessage,
      (format.findInt32 "width", format.findInt32 "height") = (some 512, some 512) ∧
      getImageInternal (exampleEnv none 5) tiledImageRetriever (-1) 0 false false none =
        ((imageDecodeLoop (exampleEnv none 5)
            (remapImageMime androidDefs "image/vnd.android.heic"
              ⟨(MetaKey.kKeyMIMEType, MetaValue.cstring "image/vnd.android.heic") ::
                [(MetaKey.kKeyTrackIsDefault, MetaValue.int32 1),
                 (MetaKey.kKeyWidth, MetaValue.int32 4000),
                 (MetaKey.kKeyHeight, MetaValue.int32 3000),
                 (MetaKey.kKeyTileWidth, MetaValue.int32 512),
                 (MetaKey.kKeyTileHeight, MetaValue.int32 512),
                 (MetaKey.kKeyThumbnailWidth, MetaValue.int32 320),
                 (MetaKey.kKeyThumbnailHeight, MetaValue.int32 240)]⟩).2.1 ⟨0⟩ (-1) 0 false none
            tiledImageRetriever.clearCache
            ((exampleEnv none 5).findMatchingCodecs "video/hevc" false 1 format)).frame,
         (imageDecodeLoop (exampleEnv none 5)
            (remapImageMime androidDefs "image/vnd.android.heic"
              ⟨(MetaKey.kKeyMIMEType, MetaValue.cstring "image/vnd.android.heic") ::
                [(MetaKey.kKeyTrackIsDefault, MetaValue.int32 1),
                 (MetaKey.kKeyWidth, MetaValue.int32 4000),
                 (MetaKey.kKeyHeight, MetaValue.int32 3000),
                 (MetaKey.kKeyTileWidth, MetaValue.int32 512),
                 (MetaKey.kKeyTileHeight, MetaValue.int32 512),
                 (MetaKey.kKeyThumbnailWidth, MetaValue.int32 320),
                 (MetaKey.kKeyThumbnailHeight, MetaValue.int32 240)]⟩).2.1 ⟨0⟩ (-1) 0 false none
            tiledImageRetriever.clearCache
            ((exampleEnv none 5).findMatchingCodecs "video/hevc" false 1 format)).state)) ∧
    (∃ format : AMessage,
      (format.findInt32 "width", format.findInt32 "height") = (some 320, some 240)) := by
  obtain ⟨format, h1, h2, _, _⟩ := dimension_negotiation (exampleEnv none 5)
    tiledImageRetriever tiledImageContainer (-1) 0 false none 0 _ "image/vnd.android.heic"
    ⟨[("profile", 2)]⟩ ⟨0⟩ rfl (by decide) (by decide) rfl (by decide) rfl rfl
  obtain ⟨format2, _, h3, _, _⟩ := dimension_negotiation (exampleEnv none 5)
    tiledImageRetriever tiledImageContainer (-1) 0 true none 0 _ "image/vnd.android.heic"
    ⟨[("profile", 2)]⟩ ⟨0⟩ rfl (by decide) (by decide) rfl (by decide) rfl rfl
  exact ⟨⟨format, h2.trans (by decide), h1⟩, ⟨format2, h3.trans (by decide)⟩⟩

/-! ## Timed-text languages -/

theorem strncasecmpAux_head_ne (a b : Char) (as bs : List Char) (n : Nat)
    (h : (a.toLower.toNat : Int) ≠ b.toLower.toNat) :
    strncasecmpAux (a :: as) (b :: bs) (n + 1) ≠ 0 := by
  simp only [strncasecmpAux]
  split
  · rename_i e
    rw [e] at h
    exact absurd rfl h
  · omega

theorem strncasecmpAux_head_eq (a : Char) (as x : List Char) (n : Nat)
    (h : strncasecmpAux (a :: as) x (n + 1) = 0) (ha : a.toLower.toNat ≠ 0) :
    ∃ b bs, x = b :: bs ∧ (b.toLower.toNat : Int) = a.toLower.toNat := by
  cases x with
  | nil =>
    simp only [strncasecmpAux] at h
    omega
  | cons b bs =>
    refine ⟨b, bs, rfl, ?_⟩
    simp only [strncasecmpAux] at h
    split at h
    · rename_i e
      rw [e]
    · omega

/-- A MIME that starts with "audio/", "video/" or "image/" is not the 3GPP
timed-text MIME. -/
theorem text_mime_not_media (mime : String)
    (h : strncasecmp "audio/" mime 6 = 0 ∨ strncasecmp "video/" mime 6 = 0 ∨
      strncasecmp "image/" mime 6 = 0) :
    strcasecmp mime "text/3gpp-tt" ≠ 0 := by
  unfold strcasecmp
  unfold strncasecmp at h
  have ht : "text/3gpp-tt".data = 't' :: "ext/3gpp-tt".data := rfl
  have ha : "audio/".data = 'a' :: "udio/".data := rfl
  have hv : "video/".data = 'v' :: "ideo/".data := rfl
  have hi : "image/".data = 'i' :: "mage/".data := rfl
  rw [ht]
  rw [ha, hv, hi] at h
  rcases h with h | h | h
  · obtain ⟨b, bs, hb, hval⟩ := strncasecmpAux_head_eq _ _ _ 5 h (by decide)
    rw [hb]
    apply strncasecmpAux_head_ne
    rw [hval]
    decide
  · obtain ⟨b, bs, hb, hval⟩ := strncasecmpAux_head_eq _ _ _ 5 h (by decide)
    rw [hb]
    apply strncasecmpAux_head_ne
    rw [hval]
    decide
  · obtain ⟨b, bs, hb, hval⟩ := strncasecmpAux_head_eq _ _ _ 5 h (by decide)
    rw [hb]
    apply strncasecmpAux_head_ne
    rw [hval]
    decide

theorem scanVideoTrack_timedTextLang (env : Env) (trackMeta : MetaData) (mime : String)
    (s : TrackScan) : (scanVideoTrack env trackMeta mime s).timedTextLang = s.timedTextLang := by
  unfold scanVideoTrack
  simp only []
  split
  · split <;> rfl
  · rfl

theorem scanImageTrack_timedTextLang (trackMeta : MetaData) (s : TrackScan) :
    (scanImageTrack trackMeta s).timedTextLang = s.timedTextLang := by
  unfold scanImageTrack
  simp only []
  split
  · split
    · split <;> rfl
    · rfl
  · rfl

/-- What one iteration of the loop over the tracks does to `timedTextLang`. -/
theorem scanTrack_timedTextLang (env : Env) (s : TrackScan) (t : Track)
    (hdefs : env.defs.MEDIA_MIMETYPE_TEXT_3GPP = "text/3gpp-tt") :
    (scanTrack env s t).timedTextLang =
      match textLanguage env.defs t with
      | some lang => (s.timedTextLang ++ lang) ++ ":"
      | none => s.timedTextLang := by
  unfold scanTrack textLanguage
  cases hm : t.meta with
  | none => rfl
  | some trackMeta =>
    simp only []
    obtain ⟨x, hx⟩ := durationStep_eq trackMeta s
    rw [hx]
    have hs1 : TrackScan.timedTextLang { s with maxDurationUs := x } = s.timedTextLang := rfl
    generalize ({ s with maxDurationUs := x } : TrackScan) = s1 at hs1 ⊢
    cases hc : trackMeta.findCString MetaKey.kKeyMIMEType with
    | none => exact hs1
    | some mime =>
      simp only [hdefs]
      split
      · rename_i haudio
        simp only [Bool.and_eq_true, decide_eq_true_eq] at haudio
        rw [if_neg (text_mime_not_media mime (Or.inl haudio.2))]
        exact hs1
      · split
        · rename_i hvideo
          simp only [Bool.and_eq_true, decide_eq_true_eq] at hvideo
          rw [if_neg (text_mime_not_media mime (Or.inr (Or.inl hvideo.2))),
            scanVideoTrack_timedTextLang]
          exact hs1
        · split
          · rename_i himage
            rw [if_neg (text_mime_not_media mime (Or.inr (Or.inr himage))),
              scanImageTrack_timedTextLang]
            exact hs1
          · split
            · unfold scanTextTrack
              cases hl : trackMeta.findCString MetaKey.kKeyMediaLanguage with
              | none => exact hs1
              | some lang => simp only [hs1]
            · exact hs1

/-- The value of `timedTextLang` when the loop over the tracks is left. -/
theorem scanTracks_timedTextLang (env : Env)
    (hdefs : env.defs.MEDIA_MIMETYPE_TEXT_3GPP = "text/3gpp-tt") :
    ∀ (tracks : List Track) (s : TrackScan),
      (scanTracks env tracks s).timedTextLang =
        colonTerminated s.timedTextLang (textLanguages env.defs tracks) := by
  intro tracks
  induction tracks with
  | nil => intro s; rfl
  | cons t rest ih =>
    intro s
    have hstep := scanTrack_timedTextLang env s t hdefs
    show (scanTracks env rest (scanTrack env s t)).timedTextLang = _
    rw [ih, hstep]
    unfold textLanguages
    rw [List.filterMap_cons]
    cases textLanguage env.defs t with
    | none => rfl
    | some lang => rfl

theorem colonTerminated_ends (langs : List String) :
    ∀ acc : String, langs ≠ [] → ∃ joined, colonTerminated acc langs = joined ++ ":" := by
  induction langs with
  | nil => intro acc h; exact absurd rfl h
  | cons lang rest ih =>
    intro acc _
    cases rest with
    | nil => exact ⟨acc ++ lang, rfl⟩
    | cons next more => exact ih ((acc ++ lang) ++ ":") (by simp)

theorem colonTerminated_eq_empty (langs : List String) :
    colonTerminated "" langs = "" ↔ langs = [] := by
  constructor
  · intro h
    by_contra hne
    obtain ⟨joined, hj⟩ := colonTerminated_ends langs "" hne
    rw [hj] at h
    have hlen := congrArg String.length h
    simp only [String.length_append] at hlen
    have hcolon : ":".length = 1 := by decide
    have hzero : "".length = 0 := by decide
    omega
  · intro h
    rw [h]
    rfl

/-- The timed-text field after the derived-field block. -/
theorem addDerivedFields_timedText (s : TrackScan) :
    (addDerivedFields s).valueFor MetadataKey.METADATA_KEY_TIMED_TEXT_LANGUAGES =
      if s.timedTextLang ≠ "" then some s.timedTextLang
      else s.mMetaData.valueFor MetadataKey.METADATA_KEY_TIMED_TEXT_LANGUAGES := by
  unfold addDerivedFields
  simp only []
  split_ifs <;> simp [KeyedVector.valueFor_add]

/-- C22. Timed-text language list. With the 3GPP timed-text MIME
"text/3gpp-tt", on a retriever freshly bound (nothing parsed, empty
dictionary) to a container that publishes container metadata and whose tracks
publish no negative width or height, extractMetadata completes for
METADATA_KEY_TIMED_TEXT_LANGUAGES; the field is absent when no 3GPP
timed-text track publishes a language, and otherwise it is the language codes
of those tracks in container order, each one followed by a colon, so that the
value ends in a colon. -/
theorem timed_text_languages_format (env : Env) (r : Retriever) (extractor : MediaExtractor)
    (meta : MetaData) (hdefs : env.defs.MEDIA_MIMETYPE_TEXT_3GPP = "text/3gpp-tt")
    (hbound : r.mExtractor = some extractor) (hfresh : r.mParsedMetaData = false)
    (hempty : r.mMetaData = KeyedVector.empty) (hmeta : extractor.fileMeta = some meta)
    (hdims : dimensionsNonneg extractor.tracks) :
    (∃ r1, extractMetadata env r MetadataKey.METADATA_KEY_TIMED_TEXT_LANGUAGES =
      some (if textLanguages env.defs extractor.tracks = [] then none
            else some (colonTerminated "" (textLanguages env.defs extractor.tracks)), r1)) ∧
    (textLanguages env.defs extractor.tracks ≠ [] →
      ∃ joined, colonTerminated "" (textLanguages env.defs extractor.tracks) = joined ++ ":") := by
  refine ⟨?_, colonTerminated_ends _ ""⟩
  have hchecks : checksPass (synthesisScan env r extractor meta) = true :=
    checksPass_of_dimensionsNonneg env _ _ hdims
  have hparse := parseMetaData_eq env r extractor meta hmeta
  rw [if_pos hchecks] at hparse
  have hlang : (synthesisScan env r extractor meta).timedTextLang =
      colonTerminated "" (textLanguages env.defs extractor.tracks) :=
    scanTracks_timedTextLang env hdefs extractor.tracks _
  have hbase : (synthesisScan env r extractor meta).mMetaData.valueFor
      MetadataKey.METADATA_KEY_TIMED_TEXT_LANGUAGES = none := by
    unfold synthesisScan
    rw [scanTracks_valueFor env _ (by decide)]
    show (addContainerFields env meta extractor.countTracks r.mMetaData).valueFor
      MetadataKey.METADATA_KEY_TIMED_TEXT_LANGUAGES = none
    rw [addContainerFields_valueFor env meta _ _ _ (by decide), hempty]
    rfl
  unfold extractMetadata
  simp only [hbound, hfresh, hparse, Bool.false_eq_true, if_false]
  rw [rewriteMatroska_valueFor _ _ _ _ _ (by decide),
    addBitrate_valueFor _ _ _ _ _ _ (by decide), addDerivedFields_timedText, hlang, hbase]
  by_cases hnil : textLanguages env.defs extractor.tracks = []
  · rw [if_pos hnil, if_neg (not_not.mpr ((colonTerminated_eq_empty _).mpr hnil))]
    exact ⟨_, rfl⟩
  · rw [if_neg hnil, if_pos (fun h => hnil ((colonTerminated_eq_empty _).mp h))]
    exact ⟨_, rfl⟩

theorem timed_text_languages_format_witness :
    textLanguages androidDefs timedTextContainer.tracks = ["eng", "chi"] ∧
    colonJoined ["eng", "chi"] = "eng:chi" ∧
    ∃ r1, extractMetadata (exampleEnv none 5) timedTextRetriever
      MetadataKey.METADATA_KEY_TIMED_TEXT_LANGUAGES = some (some "eng:chi:", r1) := by
  obtain ⟨r1, h⟩ := (timed_text_languages_format (exampleEnv none 5) timedTextRetriever
    timedTextContainer ⟨[(MetaKey.kKeyMIMEType, MetaValue.cstring "video/mp4")]⟩ rfl rfl rfl rfl
    rfl
    (by
      intro t ht meta hm
      simp only [timedTextContainer, List.mem_cons, List.mem_singleton, List.not_mem_nil,
        or_false] at ht
      rcases ht with rfl | rfl | rfl <;> cases hm <;> exact ⟨by decide, by decide⟩)).1
  have hlangs : textLanguages (exampleEnv none 5).defs timedTextContainer.tracks =
      ["eng", "chi"] := by decide
  rw [hlangs] at h
  exact ⟨by decide, by decide, r1, h⟩

/-! ## The primary image -/

/-- A MIME that starts with "image/" starts neither with "audio/" nor with
"video/". -/
theorem image_mime_not_audio_video (mime : String) (h : strncasecmp "image/" mime 6 = 0) :
    strncasecmp "audio/" mime 6 ≠ 0 ∧ strncasecmp "video/" mime 6 ≠ 0 := by
  unfold strncasecmp at *
  have ha : "audio/".data = 'a' :: "udio/".data := rfl
  have hv : "video/".data = 'v' :: "ideo/".data := rfl
  have hi : "image/".data = 'i' :: "mage/".data := rfl
  rw [hi] at h
  rw [ha, hv]
  obtain ⟨b, bs, hb, hval⟩ := strncasecmpAux_head_eq _ _ _ 5 h (by decide)
  rw [hb]
  constructor
  · apply strncasecmpAux_head_ne
    rw [hval]
    decide
  · apply strncasecmpAux_head_ne
    rw [hval]
    decide

theorem scanVideoTrack_image (env : Env) (trackMeta : MetaData) (mime : String)
    (s : TrackScan) :
    (scanVideoTrack env trackMeta mime s).imageCount = s.imageCount ∧
    (scanVideoTrack env trackMeta mime s).imagePrimary = s.imagePrimary := by
  unfold scanVideoTrack
  simp only []
  split
  · split <;> exact ⟨rfl, rfl⟩
  · exact ⟨rfl, rfl⟩

theorem scanTextTrack_image (trackMeta : MetaData) (s : TrackScan) :
    (scanTextTrack trackMeta s).imageCount = s.imageCount ∧
    (scanTextTrack trackMeta s).imagePrimary = s.imagePrimary := by
  unfold scanTextTrack
  split <;> exact ⟨rfl, rfl⟩

/-- What one iteration of the loop over the tracks does to the image counter
and the primary index. -/
theorem scanTrack_image (env : Env) (s : TrackScan) (t : Track) :
    (scanTrack env s t).imageCount = s.imageCount + (if isImageTrack t then 1 else 0) ∧
    (scanTrack env s t).imagePrimary =
      if isSizedPrimaryImage t then s.imageCount else s.imagePrimary := by
  cases hm : t.meta with
  | none =>
    have h1 : isImageTrack t = false := by simp [isImageTrack, hm]
    have h2 : isSizedPrimaryImage t = false := by
      simp [isSizedPrimaryImage, isPrimaryImageTrack, h1]
    simp [scanTrack, hm, h1, h2]
  | some trackMeta =>
    cases hc : trackMeta.findCString MetaKey.kKeyMIMEType with
    | none =>
      have h1 : isImageTrack t = false := by simp [isImageTrack, hm, hc]
      have h2 : isSizedPrimaryImage t = false := by
        simp [isSizedPrimaryImage, isPrimaryImageTrack, h1]
      obtain ⟨x, hx⟩ := durationStep_eq trackMeta s
      unfold scanTrack
      simp only [hm, hc, hx, h1, h2, Bool.false_eq_true, if_false, add_zero, and_self]
    | some mime =>
      have h1 : isImageTrack t = decide (strncasecmp mime "image/" 6 = 0) := by
        simp [isImageTrack, hm, hc]
      have h2 : isSizedPrimaryImage t =
          (decide (strncasecmp mime "image/" 6 = 0) &&
            isTrue32 (trackMeta.findInt32 MetaKey.kKeyTrackIsDefault) &&
            ((trackMeta.findInt32 MetaKey.kKeyWidth).isSome &&
              (trackMeta.findInt32 MetaKey.kKeyHeight).isSome)) := by
        simp [isSizedPrimaryImage, isPrimaryImageTrack, isImageTrack, hm, hc]
      rw [h1, h2]
      unfold scanTrack
      simp only [hm, hc]
      obtain ⟨x, hx⟩ := durationStep_eq trackMeta s
      rw [hx]
      have hs1 : TrackScan.imageCount { s with maxDurationUs := x } = s.imageCount ∧
          TrackScan.imagePrimary { s with maxDurationUs := x } = s.imagePrimary := ⟨rfl, rfl⟩
      generalize ({ s with maxDurationUs := x } : TrackScan) = s1 at hs1 ⊢
      obtain ⟨hcount, hprimary⟩ := hs1
      by_cases himg : strncasecmp mime "image/" 6 = 0
      · have hcode : strncasecmp "image/" mime 6 = 0 := (strncasecmp_symm _ _ _).mp himg
        obtain ⟨hna, hnv⟩ := image_mime_not_audio_video mime hcode
        simp only [hna, hnv, hcode, himg, decide_False, decide_True, Bool.and_false,
          Bool.false_eq_true, if_false, if_true, Bool.true_and]
        unfold scanImageTrack
        cases hflag : isTrue32 (trackMeta.findInt32 MetaKey.kKeyTrackIsDefault) with
        | false => simp [hcount, hprimary]
        | true =>
          cases hw : trackMeta.findInt32 MetaKey.kKeyWidth with
          | none => simp [hcount, hprimary]
          | some w =>
            cases hh : trackMeta.findInt32 MetaKey.kKeyHeight with
            | none => simp [hcount, hprimary]
            | some h => simp [hcount, hprimary]
      · have hcode : ¬ strncasecmp "image/" mime 6 = 0 :=
          fun e => himg ((strncasecmp_symm _ _ _).mp e)
        simp only [himg, hcode, decide_False, Bool.false_and, Bool.false_eq_true, if_false,
          add_zero]
        split
        · exact ⟨hcount, hprimary⟩
        · split
          · exact ⟨(scanVideoTrack_image env _ _ _).1.trans hcount,
              (scanVideoTrack_image env _ _ _).2.trans hprimary⟩
          · split
            · exact ⟨(scanTextTrack_image _ _).1.trans hcount,
                (scanTextTrack_image _ _).2.trans hprimary⟩
            · exact ⟨hcount, hprimary⟩

/-- The image counter and the primary index when the loop over the tracks is
left. -/
theorem scanTracks_image (env : Env) :
    ∀ (tracks : List Track) (s : TrackScan),
      (scanTracks env tracks s).imageCount =
        s.imageCount + ((tracks.filter isImageTrack).length : Int) ∧
      (scanTracks env tracks s).imagePrimary =
        primaryIndex tracks s.imageCount s.imagePrimary := by
  intro tracks
  induction tracks with
  | nil => intro s; exact ⟨by simp [scanTracks], rfl⟩
  | cons t rest ih =>
    intro s
    obtain ⟨h1, h2⟩ := scanTrack_image env s t
    obtain ⟨h3, h4⟩ := ih (scanTrack env s t)
    have hstep : scanTracks env (t :: rest) s = scanTracks env rest (scanTrack env s t) := rfl
    rw [hstep, h3, h4, h1, h2]
    by_cases himg : isImageTrack t = true
    · simp only [himg, if_true, List.filter_cons_of_pos, List.length_cons, primaryIndex]
      constructor
      · push_cast; omega
      · trivial
    · have hsized : isSizedPrimaryImage t = false := by
        unfold isSizedPrimaryImage isPrimaryImageTrack
        simp [himg]
      simp only [himg, hsized, Bool.false_eq_true, if_false, add_zero, primaryIndex]
      constructor
      · rw [List.filter_cons_of_neg himg]
      · trivial

theorem isImageTrack_of_sized (t : Track) (h : isSizedPrimaryImage t = true) :
    isImageTrack t = true := by
  unfold isSizedPrimaryImage isPrimaryImageTrack at h
  simp only [Bool.and_eq_true] at h
  exact h.1.1

/-- The primary index the loop computes is the position, among the image
tracks, of the last one that is flagged primary with both dimensions. -/
theorem primaryIndex_spec :
    ∀ (tracks : List Track) (count primary : Int),
      ((∀ t ∈ tracks, isSizedPrimaryImage t = false) ∧
        primaryIndex tracks count primary = primary) ∨
      (∃ P : Nat, IsLastSizedPrimary tracks P ∧
        primaryIndex tracks count primary = count + P) := by
  intro tracks
  induction tracks with
  | nil => intro count primary; left; exact ⟨fun t ht => by simp at ht, rfl⟩
  | cons t rest ih =>
    intro count primary
    by_cases himg : isImageTrack t = true
    · have hstep : primaryIndex (t :: rest) count primary =
          primaryIndex rest (count + 1)
            (if isSizedPrimaryImage t then count else primary) := by
        simp [primaryIndex, himg]
      have hfilter : (t :: rest).filter isImageTrack = t :: rest.filter isImageTrack :=
        List.filter_cons_of_pos himg
      rcases ih (count + 1) (if isSizedPrimaryImage t then count else primary) with
        ⟨hnone, hval⟩ | ⟨P, ⟨⟨u, hget, hu⟩, hlast⟩, hval⟩
      · by_cases hsized : isSizedPrimaryImage t = true
        · right
          refine ⟨0, ⟨⟨t, by rw [hfilter]; rfl, hsized⟩, ?_⟩, ?_⟩
          · intro k u hk hget
            rw [hfilter] at hget
            cases k with
            | zero => omega
            | succ k' =>
              simp only [List.get?_cons_succ] at hget
              exact hnone u (List.mem_of_mem_filter (List.get?_mem hget))
          · rw [hstep, hval]
            simp [hsized]
        · left
          refine ⟨?_, ?_⟩
          · intro u hu
            rcases List.mem_cons.mp hu with rfl | hmem
            · simpa using hsized
            · exact hnone u hmem
          · rw [hstep, hval]
            simp [hsized]
      · right
        refine ⟨P + 1, ⟨⟨u, by rw [hfilter]; simpa using hget, hu⟩, ?_⟩, ?_⟩
        · intro k v hk hgetk
          rw [hfilter] at hgetk
          cases k with
          | zero => omega
          | succ k' =>
            simp only [List.get?_cons_succ] at hgetk
            exact hlast k' v (by omega) hgetk
        · rw [hstep, hval]
          push_cast
          omega
    · have hstep : primaryIndex (t :: rest) count primary = primaryIndex rest count primary := by
        simp [primaryIndex, himg]
      have hfilter : (t :: rest).filter isImageTrack = rest.filter isImageTrack :=
        List.filter_cons_of_neg himg
      have hsized : isSizedPrimaryImage t = false := by
        by_contra h
        exact himg (isImageTrack_of_sized t (by simpa using h))
      rcases ih count primary with ⟨hnone, hval⟩ | ⟨P, hP, hval⟩
      · left
        refine ⟨?_, by rw [hstep, hval]⟩
        intro u hu
        rcases List.mem_cons.mp hu with rfl | hmem
        · exact hsized
        · exact hnone u hmem
      · right
        refine ⟨P, ?_, by rw [hstep, hval]⟩
        unfold IsLastSizedPrimary
        rw [hfilter]
        exact hP

theorem IsLastSizedPrimary_unique (tracks : List Track) (P Q : Nat)
    (hP : IsLastSizedPrimary tracks P) (hQ : IsLastSizedPrimary tracks Q) : P = Q := by
  obtain ⟨⟨t, hgetP, htP⟩, hlastP⟩ := hP
  obtain ⟨⟨u, hgetQ, huQ⟩, hlastQ⟩ := hQ
  rcases Nat.lt_trichotomy P Q with h | h | h
  · have := hlastP Q u h hgetQ
    rw [this] at huQ
    cases huQ
  · exact h
  · have := hlastQ P t h hgetP
    rw [this] at htP
    cases htP

/-- The image fields after the derived-field block when the image block is
entered. -/
theorem addDerivedFields_image (s : TrackScan)
    (h : 0 < s.imageCount ∧ 0 ≤ s.imagePrimary) :
    (addDerivedFields s).valueFor MetadataKey.METADATA_KEY_HAS_IMAGE = some "yes" ∧
    (addDerivedFields s).valueFor MetadataKey.METADATA_KEY_IMAGE_COUNT =
      some (sprintfInt s.imageCount) ∧
    (addDerivedFields s).valueFor MetadataKey.METADATA_KEY_IMAGE_PRIMARY =
      some (sprintfInt s.imagePrimary) ∧
    (addDerivedFields s).valueFor MetadataKey.METADATA_KEY_IMAGE_WIDTH =
      some (sprintfInt s.imageWidth) ∧
    (addDerivedFields s).valueFor MetadataKey.METADATA_KEY_IMAGE_HEIGHT =
      some (sprintfInt s.imageHeight) ∧
    (addDerivedFields s).valueFor MetadataKey.METADATA_KEY_IMAGE_ROTATION =
      some (sprintfInt s.imageRotation) := by
  unfold addDerivedFields
  simp only [h, and_self, if_true]
  refine ⟨?_, ?_, ?_, ?_, ?_, ?_⟩ <;> simp [KeyedVector.valueFor_add]

/-- The image fields after the derived-field block when the image block is
not entered. -/
theorem addDerivedFields_noImage (s : TrackScan)
    (h : ¬ (0 < s.imageCount ∧ 0 ≤ s.imagePrimary)) (key : MetadataKey)
    (hkey : key ∈ imageFieldKeys) :
    (addDerivedFields s).valueFor key = s.mMetaData.valueFor key := by
  unfold addDerivedFields
  simp only [h, if_false]
  simp only [imageFieldKeys, List.mem_cons, List.mem_singleton, List.not_mem_nil,
    or_false] at hkey
  rcases hkey with rfl | rfl | rfl | rfl | rfl | rfl <;>
    split_ifs <;> simp [KeyedVector.valueFor_add]

/-- The image counter and the primary index with which `parseMetaData` leaves
its loop over the tracks. -/
theorem synthesisScan_image (env : Env) (r : Retriever) (extractor : MediaExtractor)
    (meta : MetaData) :
    (synthesisScan env r extractor meta).imageCount =
      ((extractor.tracks.filter isImageTrack).length : Int) ∧
    (((∀ t ∈ extractor.tracks, isSizedPrimaryImage t = false) ∧
        (synthesisScan env r extractor meta).imagePrimary = -1) ∨
      (∃ P : Nat, IsLastSizedPrimary extractor.tracks P ∧
        (synthesisScan env r extractor meta).imagePrimary = P)) := by
  obtain ⟨h1, h2⟩ := scanTracks_image env extractor.tracks
    (TrackScan.start (addContainerFields env meta extractor.countTracks r.mMetaData))
  have hc : (synthesisScan env r extractor meta).imageCount =
      ((extractor.tracks.filter isImageTrack).length : Int) := by
    unfold synthesisScan
    rw [h1]
    simp [TrackScan.start]
  have hp : (synthesisScan env r extractor meta).imagePrimary =
      primaryIndex extractor.tracks 0 (-1) := h2
  refine ⟨hc, ?_⟩
  rcases primaryIndex_spec extractor.tracks 0 (-1) with ⟨hnone, hval⟩ | ⟨P, hP, hval⟩
  · left; exact ⟨hnone, hp.trans hval⟩
  · right; exact ⟨P, hP, hp.trans (by rw [hval]; simp)⟩

/-- The blocks after the derived fields leave the image fields alone. -/
theorem synthesis_imageKey (env : Env) (mSource : Option DataSource) (meta : MetaData)
    (extractor : MediaExtractor) (s : TrackScan) (m : KeyedVector) (key : MetadataKey)
    (hkey : key ∈ imageFieldKeys) :
    (rewriteMatroska meta extractor extractor.countTracks
      (addBitrate env mSource extractor.countTracks s m)).valueFor key = m.valueFor key := by
  have h1 : MetadataKey.METADATA_KEY_MIMETYPE ≠ key := by
    intro e; subst e; revert hkey; decide
  have h2 : MetadataKey.METADATA_KEY_BITRATE ≠ key := by
    intro e; subst e; revert hkey; decide
  rw [rewriteMatroska_valueFor _ _ _ _ _ h1, addBitrate_valueFor _ _ _ _ _ _ h2]

/-- No step before the derived fields writes an image field. -/
theorem synthesisScan_imageKey (env : Env) (r : Retriever) (extractor : MediaExtractor)
    (meta : MetaData) (key : MetadataKey) (hkey : key ∈ imageFieldKeys) :
    (synthesisScan env r extractor meta).mMetaData.valueFor key = r.mMetaData.valueFor key := by
  have h1 : key ∉ trackLoopKeys := by
    intro h
    simp only [imageFieldKeys, List.mem_cons, List.mem_singleton, List.not_mem_nil,
      or_false] at hkey
    rcases hkey with rfl | rfl | rfl | rfl | rfl | rfl <;> revert h <;> decide
  have h2 : key ∉ containerFieldKeys := by
    intro h
    simp only [imageFieldKeys, List.mem_cons, List.mem_singleton, List.not_mem_nil,
      or_false] at hkey
    rcases hkey with rfl | rfl | rfl | rfl | rfl | rfl <;> revert h <;> decide
  unfold synthesisScan
  rw [scanTracks_valueFor env key h1]
  exact addContainerFields_valueFor env meta _ _ key h2

/-- The image presence, count and primary index that a fresh synthesis
reports. -/
theorem synthesis_image_fields (env : Env) (r : Retriever) (extractor : MediaExtractor)
    (meta : MetaData) (hbound : r.mExtractor = some extractor)
    (hfresh : r.mParsedMetaData = false) (hempty : r.mMetaData = KeyedVector.empty)
    (hmeta : extractor.fileMeta = some meta) (hdims : dimensionsNonneg extractor.tracks) :
    ∃ r1, (∀ key, extractMetadata env r key = some (r1.mMetaData.valueFor key, r1)) ∧
      ((∀ t ∈ extractor.tracks, isSizedPrimaryImage t = false) →
        ∀ key ∈ imageFieldKeys, r1.mMetaData.valueFor key = none) ∧
      (∀ P, IsLastSizedPrimary extractor.tracks P →
        r1.mMetaData.valueFor MetadataKey.METADATA_KEY_HAS_IMAGE = some "yes" ∧
        r1.mMetaData.valueFor MetadataKey.METADATA_KEY_IMAGE_COUNT =
          some (sprintfInt ((extractor.tracks.filter isImageTrack).length : Int)) ∧
        r1.mMetaData.valueFor MetadataKey.METADATA_KEY_IMAGE_PRIMARY =
          some (sprintfInt (P : Int))) := by
  have hchecks : checksPass (synthesisScan env r extractor meta) = true :=
    checksPass_of_dimensionsNonneg env _ _ hdims
  have hparse := parseMetaData_eq env r extractor meta hmeta
  rw [if_pos hchecks] at hparse
  obtain ⟨hcount, hprimary⟩ := synthesisScan_image env r extractor meta
  refine ⟨{ r with
      mExtractor := some extractor
      mParsedMetaData := true
      mAlbumArt := (captureAlbumArt meta r).mAlbumArt
      mMetaData := rewriteMatroska meta extractor extractor.countTracks
        (addBitrate env r.mSource extractor.countTracks (synthesisScan env r extractor meta)
          (addDerivedFields (synthesisScan env r extractor meta))) }, fun key => ?_, ?_, ?_⟩
  · unfold extractMetadata
    simp only [hbound, hfresh, hparse, Bool.false_eq_true, if_false]
  · intro hnone key hkey
    have hprim : (synthesisScan env r extractor meta).imagePrimary = -1 := by
      rcases hprimary with ⟨_, h⟩ | ⟨P, ⟨⟨t, hget, ht⟩, _⟩, _⟩
      · exact h
      · have hmem : t ∈ extractor.tracks := List.mem_of_mem_filter (List.get?_mem hget)
        rw [hnone t hmem] at ht
        cases ht
    have hblock : ¬ (0 < (synthesisScan env r extractor meta).imageCount ∧
        0 ≤ (synthesisScan env r extractor meta).imagePrimary) := by
      rw [hprim]
      intro h
      omega
    show (rewriteMatroska meta extractor extractor.countTracks _).valueFor key = none
    rw [synthesis_imageKey env _ meta extractor _ _ key hkey,
      addDerivedFields_noImage _ hblock key hkey,
      synthesisScan_imageKey env r extractor meta key hkey, hempty]
    rfl
  · intro P hP
    have hprim : (synthesisScan env r extractor meta).imagePrimary = P := by
      rcases hprimary with ⟨hnone, _⟩ | ⟨Q, hQ, h⟩
      · obtain ⟨⟨t, hget, ht⟩, _⟩ := hP
        have hmem : t ∈ extractor.tracks := List.mem_of_mem_filter (List.get?_mem hget)
        rw [hnone t hmem] at ht
        cases ht
      · rw [h, IsLastSizedPrimary_unique _ _ _ hQ hP]
    have hlen : P < (extractor.tracks.filter isImageTrack).length := by
      obtain ⟨⟨t, hget, _⟩, _⟩ := hP
      exact (List.get?_eq_some.mp hget).1
    have hblock : 0 < (synthesisScan env r extractor meta).imageCount ∧
        0 ≤ (synthesisScan env r extractor meta).imagePrimary := by
      rw [hprim, hcount]
      constructor <;> omega
    obtain ⟨h1, h2, h3, _⟩ := addDerivedFields_image _ hblock
    show (rewriteMatroska meta extractor extractor.countTracks _).valueFor _ = _ ∧
      (rewriteMatroska meta extractor extractor.countTracks _).valueFor _ = _ ∧
      (rewriteMatroska meta extractor extractor.countTracks _).valueFor _ = _
    rw [synthesis_imageKey env _ meta extractor _ _ _ (by decide),
      synthesis_imageKey env _ meta extractor _ _ _ (by decide),
      synthesis_imageKey env _ meta extractor _ _ _ (by decide), h1, h2, h3, hcount, hprim]
    exact ⟨rfl, rfl, rfl⟩

/-- C21. Primary image fields. On a retriever freshly bound (nothing parsed,
empty dictionary) to a container that publishes container metadata and whose
tracks publish no negative width or height, extractMetadata completes for
every key; no image field is present when no image track is flagged primary
with both dimensions; otherwise has-image is "yes", the image count is the
number of image tracks and the primary index is the position, among the image
tracks, of the last one flagged primary with both dimensions. But an image
track flagged primary that publishes a width and no height is not ignored: it
leaves the primary index and the height alone and overwrites the image width
with its own and the image rotation with its own (0 when absent). So in the
example, where the first image track is flagged primary with 100x200 and
rotation 90 and the second is flagged primary with the width 50 only, the
dictionary reports the primary index 0 with the width 50, the height 200 and
the rotation 0. -/
theorem primary_image_fields (env : Env) (r : Retriever) (extractor : MediaExtractor)
    (meta : MetaData) (hbound : r.mExtractor = some extractor)
    (hfresh : r.mParsedMetaData = false) (hempty : r.mMetaData = KeyedVector.empty)
    (hmeta : extractor.fileMeta = some meta) (hdims : dimensionsNonneg extractor.tracks) :
    (∃ r1, (∀ key, extractMetadata env r key = some (r1.mMetaData.valueFor key, r1)) ∧
      ((∀ t ∈ extractor.tracks, isSizedPrimaryImage t = false) →
        ∀ key ∈ imageFieldKeys, r1.mMetaData.valueFor key = none) ∧
      (∀ P, IsLastSizedPrimary extractor.tracks P →
        r1.mMetaData.valueFor MetadataKey.METADATA_KEY_HAS_IMAGE = some "yes" ∧
        r1.mMetaData.valueFor MetadataKey.METADATA_KEY_IMAGE_COUNT =
          some (sprintfInt ((extractor.tracks.filter isImageTrack).length : Int)) ∧
        r1.mMetaData.valueFor MetadataKey.METADATA_KEY_IMAGE_PRIMARY =
          some (sprintfInt (P : Int)))) ∧
    (∀ (trackMeta : MetaData) (s : TrackScan) (width : Int),
      isTrue32 (trackMeta.findInt32 MetaKey.kKeyTrackIsDefault) = true →
      trackMeta.findInt32 MetaKey.kKeyWidth = some width →
      trackMeta.findInt32 MetaKey.kKeyHeight = none →
      (scanImageTrack trackMeta s).imagePrimary = s.imagePrimary ∧
      (scanImageTrack trackMeta s).imageHeight = s.imageHeight ∧
      (scanImageTrack trackMeta s).imageWidth = width ∧
      (scanImageTrack trackMeta s).imageRotation =
        outParam (trackMeta.findInt32 MetaKey.kKeyRotation) 0 ∧
      (scanImageTrack trackMeta s).imageCount = s.imageCount + 1) ∧
    [MetadataKey.METADATA_KEY_HAS_IMAGE, MetadataKey.METADATA_KEY_IMAGE_COUNT,
      MetadataKey.METADATA_KEY_IMAGE_PRIMARY, MetadataKey.METADATA_KEY_IMAGE_WIDTH,
      MetadataKey.METADATA_KEY_IMAGE_HEIGHT, MetadataKey.METADATA_KEY_IMAGE_ROTATION].map
        (fun key => (extractMetadata (exampleEnv none 5) mixedPrimaryRetriever key).map
          Prod.fst) =
      [some (some "yes"), some (some "2"), some (some "0"), some (some "50"),
        some (some "200"), some (some "0")] := by
  refine ⟨synthesis_image_fields env r extractor meta hbound hfresh hempty hmeta hdims, ?_,
    by decide⟩
  intro trackMeta s width hflag hw hh
  unfold scanImageTrack
  simp [hflag, hw, hh]

theorem primary_image_fields_witness :
    ∃ r1, (∀ key, extractMetadata (exampleEnv none 5) mixedPrimaryRetriever key =
        some (r1.mMetaData.valueFor key, r1)) ∧
      r1.mMetaData.valueFor MetadataKey.METADATA_KEY_HAS_IMAGE = some "yes" ∧
      r1.mMetaData.valueFor MetadataKey.METADATA_KEY_IMAGE_COUNT = some "2" ∧
      r1.mMetaData.valueFor MetadataKey.METADATA_KEY_IMAGE_PRIMARY = some "0" := by
  obtain ⟨r1, h1, _, h3⟩ := (primary_image_fields (exampleEnv none 5) mixedPrimaryRetriever
    mixedPrimaryContainer ⟨[(MetaKey.kKeyMIMEType, MetaValue.cstring "image/heif")]⟩
    rfl rfl rfl rfl
    (by
      intro t ht meta hm
      simp only [mixedPrimaryContainer, List.mem_cons, List.mem_singleton, List.not_mem_nil,
        or_false] at ht
      rcases ht with rfl | rfl <;> cases hm <;> exact ⟨by decide, by decide⟩)).1
  have hlast : IsLastSizedPrimary mixedPrimaryContainer.tracks 0 := by
    refine ⟨⟨_, rfl, by decide⟩, ?_⟩
    intro k u hk hget
    have hfilter : mixedPrimaryContainer.tracks.filter isImageTrack =
        mixedPrimaryContainer.tracks := by decide
    rw [hfilter] at hget
    cases k with
    | zero => omega
    | succ k' =>
      cases k' with
      | zero =>
        simp only [mixedPrimaryContainer, List.get?_cons_succ, List.get?_cons_zero,
          Option.some.injEq] at hget
        subst hget
        decide
      | succ k'' => simp [mixedPrimaryContainer] at hget
  exact ⟨r1, h1, h3 0 hlast⟩

/-! ## Selector and synthesizer -/

theorem isPrimary_of_sized (t : Track) (h : isSizedPrimaryImage t = true) :
    isPrimaryImageTrack t = true := by
  unfold isSizedPrimaryImage at h
  simp only [Bool.and_eq_true] at h
  exact h.1

/-- With a single image track flagged primary, at position `p` of the
container, the numeric index of the last image track flagged primary with both
dimensions selects position `p`. -/
theorem imageTrackLoop_of_last_sized (tracks : List Track) (p P : Nat)
    (hunique : ∀ q u, q ≠ p → tracks.get? q = some u → isPrimaryImageTrack u = false)
    (hP : IsLastSizedPrimary tracks P) :
    imageTrackLoop (P : Int) tracks 0 0 = p := by
  obtain ⟨⟨t, hget, ht⟩, _⟩ := hP
  have hlen : P < (imageTrackPositions tracks 0).length := by
    rw [imageTrackPositions_length]
    exact (List.get?_eq_some.mp hget).1
  obtain ⟨pos, hpos⟩ : ∃ pos, (imageTrackPositions tracks 0).get? P = some pos :=
    ⟨_, List.get?_eq_get hlen⟩
  have hloop : imageTrackLoop (P : Int) tracks 0 0 = pos := by
    have hidx : ((P : Int) - 0).toNat = P := by simp
    rw [imageTrackLoop_nonneg (P : Int) tracks 0 0 (le_refl 0) (by omega), hidx, hpos]
    rfl
  obtain ⟨_, htrack⟩ := imageTrackPositions_get tracks 0 P pos hpos
  rw [Nat.sub_zero, hget] at htrack
  rw [hloop]
  by_contra hne
  have := hunique pos t hne htrack
  rw [isPrimary_of_sized t ht] at this
  cases this

/-- C25. Selector and synthesizer. On a retriever freshly bound (nothing
parsed, empty dictionary) to a container that publishes container metadata,
whose tracks publish no negative width or height and in which exactly one
image track, at position `p`, is flagged primary: extractMetadata completes
for every key; when the dictionary carries a primary-image index P (that is,
when that track carries both dimensions, P being its position among the image
tracks), getImageInternal selects position `p` both for every negative index
and for the numeric index P, and goes on to decode that track; when the
flagged track lacks a dimension the dictionary carries no primary index. With
more than one image track flagged primary the two disagree: in the example,
two image tracks that are both flagged primary and both publish their
dimensions, the dictionary reports the primary index 1 (the last such track),
while getImageInternal selects track 0 (the first track flagged primary) for
the index -1 and track 1 for the index 1, and so decodes the "image/jpeg" track
for the default request and the "image/png" track for the reported index. -/
theorem selector_agrees_with_primary_index (env : Env) (r : Retriever)
    (extractor : MediaExtractor) (meta : MetaData) (p : Nat) (t : Track)
    (hbound : r.mExtractor = some extractor) (hfresh : r.mParsedMetaData = false)
    (hempty : r.mMetaData = KeyedVector.empty) (hmeta : extractor.fileMeta = some meta)
    (hdims : dimensionsNonneg extractor.tracks)
    (hget : extractor.tracks.get? p = some t) (hflag : isPrimaryImageTrack t = true)
    (hunique : ∀ q u, q ≠ p → extractor.tracks.get? q = some u →
      isPrimaryImageTrack u = false) :
    (∃ r1, (∀ key, extractMetadata env r key = some (r1.mMetaData.valueFor key, r1)) ∧
      (isSizedPrimaryImage t = false →
        r1.mMetaData.valueFor MetadataKey.METADATA_KEY_IMAGE_PRIMARY = none) ∧
      (∀ P, IsLastSizedPrimary extractor.tracks P →
        r1.mMetaData.valueFor MetadataKey.METADATA_KEY_IMAGE_PRIMARY =
          some (sprintfInt (P : Int)) ∧
        (∀ index : Int, index < 0 → imageTrackLoop index extractor.tracks 0 0 = p) ∧
        imageTrackLoop (P : Int) extractor.tracks 0 0 = p ∧
        ∀ (index colorFormat : Int) (metaOnly thumbnail : Bool) (rect : Option FrameRect),
          index < 0 ∨ index = P →
          getImageInternal env r index colorFormat metaOnly thumbnail rect =
            decodeImageTrack env { r with mDecoder := none, mLastDecodedIndex := -1 }
              extractor p index colorFormat metaOnly thumbnail rect)) ∧
    ((extractMetadata (exampleEnv none 5) twoPrimaryRetriever
        MetadataKey.METADATA_KEY_IMAGE_PRIMARY).map Prod.fst = some (some "1") ∧
      imageTrackLoop (-1) twoPrimaryContainer.tracks 0 0 = 0 ∧
      imageTrackLoop 1 twoPrimaryContainer.tracks 0 0 = 1 ∧
      (getImageInternal (exampleEnv none 5) twoPrimaryRetriever (-1) 0 false false
          (some ⟨0, 0, 1, 1⟩)).2.mDecoder.map
        (fun d => d.trackMeta.findCString MetaKey.kKeyMIMEType) = some (some "image/jpeg") ∧
      (getImageInternal (exampleEnv none 5) twoPrimaryRetriever 1 0 false false
          (some ⟨0, 0, 1, 1⟩)).2.mDecoder.map
        (fun d => d.trackMeta.findCString MetaKey.kKeyMIMEType) = some (some "image/png")) := by
  refine ⟨?_, by decide⟩
  obtain ⟨r1, h1, h2, h3⟩ :=
    synthesis_image_fields env r extractor meta hbound hfresh hempty hmeta hdims
  have hp : p < extractor.tracks.length := (List.get?_eq_some.mp hget).1
  have hneg : ∀ index : Int, index < 0 → imageTrackLoop index extractor.tracks 0 0 = p := by
    intro index hindex
    have := imageTrackLoop_neg_found index hindex extractor.tracks 0 0 p t (le_refl 0) hget
      hflag (fun q u hq hu => hunique q u (by omega) hu)
    simpa using this
  refine ⟨r1, h1, ?_, ?_⟩
  · intro hsized
    apply h2 _ _ (by decide)
    intro u hu
    obtain ⟨q, hq⟩ := List.get?_of_mem hu
    by_cases hqp : q = p
    · subst hqp
      rw [hget] at hq
      cases hq
      exact hsized
    · have hnot := hunique q u hqp hq
      unfold isSizedPrimaryImage
      simp [hnot]
  · intro P hP
    have hnum := imageTrackLoop_of_last_sized extractor.tracks p P hunique hP
    refine ⟨(h3 P hP).2.2, hneg, hnum, ?_⟩
    intro index colorFormat metaOnly thumbnail rect hindex
    apply getImageInternal_found env r extractor index colorFormat metaOnly thumbnail rect p
      hbound _ hp
    rcases hindex with h | h
    · exact hneg index h
    · rw [h]; exact hnum

theorem selector_agrees_with_primary_index_witness :
    ∃ r1, (∀ key, extractMetadata (exampleEnv none 5) singlePrimaryRetriever key =
        some (r1.mMetaData.valueFor key, r1)) ∧
      r1.mMetaData.valueFor MetadataKey.METADATA_KEY_IMAGE_PRIMARY = some "1" ∧
      imageTrackLoop (-1) singlePrimaryContainer.tracks 0 0 = 2 ∧
      imageTrackLoop 1 singlePrimaryContainer.tracks 0 0 = 2 := by
  obtain ⟨⟨r1, h1, _, h3⟩, _⟩ := selector_agrees_with_primary_index (exampleEnv none 5)
    singlePrimaryRetriever singlePrimaryContainer
    ⟨[(MetaKey.kKeyMIMEType, MetaValue.cstring "image/heif")]⟩ 2
    (exampleTrack "image/png"
      [(MetaKey.kKeyTrackIsDefault, MetaValue.int32 1),
       (MetaKey.kKeyWidth, MetaValue.int32 300), (MetaKey.kKeyHeight, MetaValue.int32 400)] 2)
    rfl rfl rfl rfl
    (by
      intro t ht meta hm
      simp only [singlePrimaryContainer, List.mem_cons, List.mem_singleton,
        List.not_mem_nil, or_false] at ht
      rcases ht with rfl | rfl | rfl <;> cases hm <;> exact ⟨by decide, by decide⟩)
    rfl (by decide)
    (by
      intro q u hq hu
      match q, hq, hu with
      | 0, _, hu => cases hu; decide
      | 1, _, hu => cases hu; decide
      | 2, hq, _ => exact absurd rfl hq
      | (n + 3), _, hu => simp [singlePrimaryContainer] at hu)
  have hlast : IsLastSizedPrimary singlePrimaryContainer.tracks 1 := by
    have hfilter : singlePrimaryContainer.tracks.filter isImageTrack =
        singlePrimaryContainer.tracks.tail := by decide
    refine ⟨⟨_, by rw [hfilter]; rfl, by decide⟩, ?_⟩
    intro k u hk hget
    rw [hfilter] at hget
    match k, hk, hget with
    | 0, hk, _ => omega
    | 1, hk, _ => omega
    | (n + 2), _, hget => simp [singlePrimaryContainer] at hget
  obtain ⟨h4, h5, h6, _⟩ := h3 1 hlast
  exact ⟨r1, h1, h4, h5 (-1) (by decide), h6⟩

/-! ## Fields of a synthesis that the assertions cut short -/

/-- When the first video track that carries both dimensions publishes a
negative one, `extractMetadata` on a bound retriever with nothing parsed yet
aborts in `parseMetaData`, whatever the key. -/
theorem extractMetadata_aborts (env : Env) (r : Retriever) (extractor : MediaExtractor)
    (meta : MetaData) (a : VideoAttributes) (key : MetadataKey)
    (hbound : r.mExtractor = some extractor) (hfresh : r.mParsedMetaData = false)
    (hmeta : extractor.fileMeta = some meta)
    (hfirst : firstSizedVideo extractor.tracks = some a)
    (hneg : a.width < 0 ∨ a.height < 0) :
    extractMetadata env r key = none := by
  have hscan : (synthesisScan env r extractor meta).videoIs a := by
    have h := scanTracks_video env extractor.tracks
      (TrackScan.start (addContainerFields env meta extractor.countTracks r.mMetaData)) rfl
    rw [hfirst] at h
    exact h
  obtain ⟨h1, h2, h3, _⟩ := hscan
  have hchecks : ¬ checksPass (synthesisScan env r extractor meta) = true := by
    unfold checksPass
    simp only [h1, h2, h3, Bool.not_true, Bool.false_or, Bool.and_eq_true, decide_eq_true_eq,
      not_and]
    intro hc
    exfalso
    omega
  have hparse := parseMetaData_eq env r extractor meta hmeta
  rw [if_neg hchecks] at hparse
  unfold extractMetadata
  simp only [hbound, hfresh, hparse, Bool.false_eq_true, if_false]

/-- C10. Duration rounding.  For every container that publishes container
metadata, whenever `parseMetaData` completes the dictionary holds under
`METADATA_KEY_DURATION` the decimal string of `(M + 500) / 1000` (truncating
division), where `M` is the maximum of 0 and all per-track durations in
microseconds, the biased value `M + 500` being replaced by `INT64_MAX` when
`M > INT64_MAX - 500`; the value that is divided never exceeds `INT64_MAX`.
`parseMetaData` completes for every container whose tracks publish no negative
width or height, and then `extractMetadata` returns that string.  It does not
complete for every container: when the first video track that carries both
dimensions publishes a negative one, `CHECK(videoWidth >= 0)` or
`CHECK(videoHeight >= 0)` fails after the duration was stored, and
`extractMetadata` on a bound retriever with nothing parsed yet returns no
duration at all. -/
theorem duration_rounding (env : Env) (r : Retriever) (extractor : MediaExtractor)
    (meta : MetaData) (hmeta : extractor.fileMeta = some meta) :
    (∀ r1, parseMetaData env r extractor = some r1 →
      r1.mMetaData.valueFor MetadataKey.METADATA_KEY_DURATION =
        some (sprintfInt (Int.tdiv
          (if maxTrackDuration extractor.tracks > INT64_MAX - 500 then INT64_MAX
            else maxTrackDuration extractor.tracks + 500) 1000))) ∧
    (dimensionsNonneg extractor.tracks → ∃ r1, parseMetaData env r extractor = some r1) ∧
    (dimensionsNonneg extractor.tracks → r.mExtractor = some extractor →
      r.mParsedMetaData = false →
      ∃ r2, extractMetadata env r MetadataKey.METADATA_KEY_DURATION =
        some (some (sprintfInt (Int.tdiv
          (if maxTrackDuration extractor.tracks > INT64_MAX - 500 then INT64_MAX
            else maxTrackDuration extractor.tracks + 500) 1000)), r2)) ∧
    0 ≤ maxTrackDuration extractor.tracks ∧
    (if maxTrackDuration extractor.tracks > INT64_MAX - 500 then INT64_MAX
      else maxTrackDuration extractor.tracks + 500) ≤ INT64_MAX ∧
    (∀ a, firstSizedVideo extractor.tracks = some a → a.width < 0 ∨ a.height < 0 →
      r.mExtractor = some extractor → r.mParsedMetaData = false →
      parseMetaData env r extractor = none ∧
      extractMetadata env r MetadataKey.METADATA_KEY_DURATION = none) := by
  have hcomplete : dimensionsNonneg extractor.tracks →
      ∃ r1, parseMetaData env r extractor = some r1 := by
    intro hdims
    unfold parseMetaData
    simp only [hmeta]
    rw [if_pos (checksPass_of_dimensionsNonneg env extractor.tracks _ hdims)]
    exact ⟨_, rfl⟩
  refine ⟨fun r1 h => parseMetaData_duration env r extractor meta hmeta r1 h, hcomplete, ?_,
    foldl_max_ge _ 0, ?_, ?_⟩
  · intro hdims hex hparsed
    obtain ⟨r1, hr1⟩ := hcomplete hdims
    refine ⟨{ r1 with mParsedMetaData := true }, ?_⟩
    unfold extractMetadata
    simp only [hex, hparsed, hr1]
    rw [parseMetaData_duration env r extractor meta hmeta r1 hr1]
    rfl
  · split
    · exact le_refl _
    · rename_i h
      omega
  · intro a hfirst hneg hbound hfresh
    have habort := extractMetadata_aborts env r extractor meta a
      MetadataKey.METADATA_KEY_DURATION hbound hfresh hmeta hfirst hneg
    refine ⟨?_, habort⟩
    cases hparse : parseMetaData env r extractor with
    | none => rfl
    | some r1 =>
      unfold extractMetadata at habort
      simp [hbound, hfresh, hparse] at habort

theorem duration_rounding_witness :
    (∃ r2, extractMetadata (exampleEnv none 5)
        { Retriever.new with mExtractor := some durationContainer }
        MetadataKey.METADATA_KEY_DURATION = some (some "3", r2)) ∧
    maxTrackDuration brokenVideoContainer.tracks = 2501 ∧
    parseMetaData (exampleEnv none 5) brokenVideoRetriever brokenVideoContainer = none ∧
    extractMetadata (exampleEnv none 5) brokenVideoRetriever
      MetadataKey.METADATA_KEY_DURATION = none :=
  ⟨(duration_rounding (exampleEnv none 5)
      { Retriever.new with mExtractor := some durationContainer } durationContainer
      ⟨[(MetaKey.kKeyMIMEType, MetaValue.cstring "audio/mp4")]⟩ rfl).2.2.1
      (by
        intro t ht meta hm
        simp only [durationContainer, List.mem_cons, List.mem_singleton, List.not_mem_nil,
          or_false] at ht
        rcases ht with rfl | rfl | rfl <;> cases hm <;> exact ⟨by decide, by decide⟩)
      rfl rfl,
    by decide,
    (duration_rounding (exampleEnv none 5) brokenVideoRetriever brokenVideoContainer
      ⟨[(MetaKey.kKeyMIMEType, MetaValue.cstring "video/mp4")]⟩ rfl).2.2.2.2.2
      { width := -1, height := 480, rotation := 0, frameCount := 0, mime := "video/avc" }
      (by decide) (Or.inl (by decide)) rfl rfl⟩

/-- C11. Matroska rewrite. On a bound retriever whose metadata is not yet
parsed: when the container has exactly one track, that track's MIME starts with
"audio/" and the container MIME equals "video/x-matroska" ignoring case,
extractMetadata completes and returns "audio/x-matroska" for
METADATA_KEY_MIMETYPE, which is not the container MIME; when one of the three
conditions fails, extractMetadata returns the container MIME (what the
dictionary held before when the container publishes none) whenever it returns,
and it returns whenever no track publishes a negative dimension. It does not
always return: when the first video track that carries both dimensions
publishes a negative one, the three conditions do not hold together and
`CHECK(videoWidth >= 0)` or `CHECK(videoHeight >= 0)` fails, so that
extractMetadata returns no MIME-type field at all. -/
theorem matroska_rewrite (env : Env) (r : Retriever) (extractor : MediaExtractor)
    (meta : MetaData) (hbound : r.mExtractor = some extractor)
    (hfresh : r.mParsedMetaData = false) (hmeta : extractor.fileMeta = some meta) :
    (isAudioOnlyMatroska meta extractor.tracks →
      (∃ r1, extractMetadata env r MetadataKey.METADATA_KEY_MIMETYPE =
        some (some "audio/x-matroska", r1)) ∧
      meta.findCString MetaKey.kKeyMIMEType ≠ some "audio/x-matroska") ∧
    (¬ isAudioOnlyMatroska meta extractor.tracks →
      (∀ v r1, extractMetadata env r MetadataKey.METADATA_KEY_MIMETYPE = some (v, r1) →
        v = match meta.findCString MetaKey.kKeyMIMEType with
            | some fileMIME => some fileMIME
            | none => r.mMetaData.valueFor MetadataKey.METADATA_KEY_MIMETYPE) ∧
      (dimensionsNonneg extractor.tracks →
        ∃ v r1, extractMetadata env r MetadataKey.METADATA_KEY_MIMETYPE = some (v, r1))) ∧
    (∀ a, firstSizedVideo extractor.tracks = some a → a.width < 0 ∨ a.height < 0 →
      ¬ isAudioOnlyMatroska meta extractor.tracks ∧
      extractMetadata env r MetadataKey.METADATA_KEY_MIMETYPE = none) := by
  have hparse := parseMetaData_eq env r extractor meta hmeta
  have hpositive : isAudioOnlyMatroska meta extractor.tracks →
      ∃ r1, extractMetadata env r MetadataKey.METADATA_KEY_MIMETYPE =
        some (some "audio/x-matroska", r1) := by
    intro h
    obtain ⟨⟨t, htracks, haudio⟩, _⟩ := id h
    have hm : ∃ trackMeta, t.meta = some trackMeta := by
      unfold isAudioTrack at haudio
      cases hm : t.meta with
      | none => simp [hm] at haudio
      | some trackMeta => exact ⟨trackMeta, rfl⟩
    obtain ⟨trackMeta, hm⟩ := hm
    have hchecks := (synthesisScan_soleAudio env r extractor meta t trackMeta htracks hm
      haudio).2.2
    rw [if_pos hchecks, rewriteMatroska_of_audioOnly meta extractor _ h] at hparse
    unfold extractMetadata
    simp only [hbound, hfresh, hparse, Bool.false_eq_true, if_false,
      KeyedVector.valueFor_add_self]
    exact ⟨_, rfl⟩
  refine ⟨fun h => ⟨hpositive h, ?_⟩, fun h => ⟨?_, ?_⟩, ?_⟩
  · obtain ⟨_, fileMIME, hfile, hmatroska⟩ := h
    rw [hfile]
    intro heq
    have : fileMIME = "audio/x-matroska" := Option.some.inj heq
    rw [this] at hmatroska
    revert hmatroska
    decide
  · intro v r1 hcall
    rw [rewriteMatroska_of_not_audioOnly meta extractor _ h] at hparse
    unfold extractMetadata at hcall
    by_cases hchecks : checksPass (synthesisScan env r extractor meta) = true
    · rw [if_pos hchecks] at hparse
      simp only [hbound, hfresh, hparse, Bool.false_eq_true, if_false, Option.some.injEq,
        Prod.mk.injEq] at hcall
      rw [← hcall.1]
      exact synthesis_mimetype_before_rewrite env r extractor meta
    · rw [if_neg hchecks] at hparse
      simp [hbound, hfresh, hparse] at hcall
  · intro hdims
    have hchecks : checksPass (synthesisScan env r extractor meta) = true :=
      checksPass_of_dimensionsNonneg env _ _ hdims
    rw [if_pos hchecks] at hparse
    unfold extractMetadata
    simp only [hbound, hfresh, hparse, Bool.false_eq_true, if_false]
    exact ⟨_, _, rfl⟩
  · intro a hfirst hneg
    have habort := extractMetadata_aborts env r extractor meta a
      MetadataKey.METADATA_KEY_MIMETYPE hbound hfresh hmeta hfirst hneg
    refine ⟨fun h => ?_, habort⟩
    obtain ⟨r1, hr1⟩ := hpositive h
    rw [habort] at hr1
    cases hr1

theorem matroska_rewrite_witness :
    ((∃ r1, extractMetadata (exampleEnv none 5) matroskaRetriever
        MetadataKey.METADATA_KEY_MIMETYPE = some (some "audio/x-matroska", r1)) ∧
      MetaData.findCString ⟨[(MetaKey.kKeyMIMEType, MetaValue.cstring "video/x-matroska")]⟩
        MetaKey.kKeyMIMEType ≠ some "audio/x-matroska") ∧
    (¬ isAudioOnlyMatroska ⟨[(MetaKey.kKeyMIMEType, MetaValue.cstring "video/x-matroska")]⟩
        brokenMatroskaContainer.tracks ∧
      extractMetadata (exampleEnv none 5) brokenMatroskaRetriever
        MetadataKey.METADATA_KEY_MIMETYPE = none) :=
  ⟨(matroska_rewrite (exampleEnv none 5) matroskaRetriever matroskaAudioContainer
      ⟨[(MetaKey.kKeyMIMEType, MetaValue.cstring "video/x-matroska")]⟩ rfl rfl rfl).1
      ⟨⟨_, rfl, by decide⟩, "video/x-matroska", by decide, by decide⟩,
   (matroska_rewrite (exampleEnv none 5) brokenMatroskaRetriever brokenMatroskaContainer
      ⟨[(MetaKey.kKeyMIMEType, MetaValue.cstring "video/x-matroska")]⟩ rfl rfl rfl).2.2
      { width := -1, height := 480, rotation := 0, frameCount := 0, mime := "video/avc" }
      (by decide) (Or.inl (by decide))⟩

/-! ## One cache for two kinds of decoder -/

theorem getFrameAtIndex_hit (env : Env) (r : Retriever) (decoder : FrameDecoder)
    (K colorFormat : Int) (metaOnly : Bool)
    (hd : r.mDecoder = some decoder) (hK : r.mLastDecodedIndex = K) :
    (getFrameAtIndex env r (K + 1) colorFormat metaOnly).1 =
      (env.extractFrame decoder none).1 := by
  unfold getFrameAtIndex
  simp only [hd, hK, if_true]
  split <;> simp_all

theorem getFrameAtIndex_miss (env : Env) (r : Retriever) (frameIndex colorFormat : Int)
    (metaOnly : Bool) (h : r.mDecoder = none ∨ frameIndex ≠ r.mLastDecodedIndex + 1) :
    getFrameAtIndex env r frameIndex colorFormat metaOnly =
      getFrameInternal env r frameIndex env.defs.SEEK_FRAME_INDEX colorFormat metaOnly := by
  unfold getFrameAtIndex
  rcases h with h | h
  · simp [h]
  · cases hd : r.mDecoder with
    | none => rfl
    | some d => simp [h]

/-- C24. The decoder cache is one slot that does not look at the kind of the
decoder it holds. A cached decoder, whatever its kind and whichever call cached
it, serves getImageRectAtIndex at the retained index and getFrameAtIndex at the
retained index + 1; with no decoder cached or with another index the two calls
run getImageInternal and getFrameInternal. So, from an empty cache, when
getImageRectAtIndex at index K returns an artifact the cache holds an image
decoder, and a following getFrameAtIndex(K + 1) is served by that image
decoder; and when getFrameAtIndex at frame K (an `int`) returns a frame the
cache holds a video decoder, and a following getImageRectAtIndex(K) is served
by that video decoder. -/
theorem cache_serves_other_kind (env : Env) (r : Retriever)
    (K colorFormat left top right bottom : Int) (metaOnly : Bool) :
    (∀ d, r.mDecoder = some d → r.mLastDecodedIndex = K →
      (getImageRectAtIndex env r K colorFormat left top right bottom).1 =
        (env.extractFrame d (some ⟨left, top, right, bottom⟩)).1 ∧
      (getFrameAtIndex env r (K + 1) colorFormat metaOnly).1 = (env.extractFrame d none).1) ∧
    (r.mDecoder = none ∨ K ≠ r.mLastDecodedIndex →
      getImageRectAtIndex env r K colorFormat left top right bottom =
        getImageInternal env r K colorFormat false false
          (some ⟨left, top, right, bottom⟩)) ∧
    (r.mDecoder = none ∨ K ≠ r.mLastDecodedIndex + 1 →
      getFrameAtIndex env r K colorFormat metaOnly =
        getFrameInternal env r K env.defs.SEEK_FRAME_INDEX colorFormat metaOnly) ∧
    (r.mDecoder = none →
      ∀ frame, (getImageRectAtIndex env r K colorFormat left top right bottom).1 = some frame →
      ∃ d, d.kind = DecoderKind.MediaImageDecoder ∧
        (getImageRectAtIndex env r K colorFormat left top right bottom).2.mDecoder = some d ∧
        (getImageRectAtIndex env r K colorFormat left top right bottom).2.mLastDecodedIndex =
          K ∧
        (getFrameAtIndex env (getImageRectAtIndex env r K colorFormat left top right bottom).2
          (K + 1) colorFormat metaOnly).1 = (env.extractFrame d none).1) ∧
    (r.mDecoder = none →
      ∀ frame, INT32_MIN ≤ K → K ≤ INT32_MAX →
      (getFrameAtIndex env r K colorFormat false).1 = some frame →
      ∃ d, d.kind = DecoderKind.VideoFrameDecoder ∧
        (getFrameAtIndex env r K colorFormat false).2.mDecoder = some d ∧
        (getFrameAtIndex env r K colorFormat false).2.mLastDecodedIndex = K ∧
        (getImageRectAtIndex env (getFrameAtIndex env r K colorFormat false).2 K colorFormat
          left top right bottom).1 =
            (env.extractFrame d (some ⟨left, top, right, bottom⟩)).1) := by
  refine ⟨fun d hd hK => ⟨?_, getFrameAtIndex_hit env r d K colorFormat metaOnly hd hK⟩,
    fun h => ?_, fun h => getFrameAtIndex_miss env r K colorFormat metaOnly h,
    fun hempty frame h => ?_, fun hempty frame hlo hhi h => ?_⟩
  · rw [getImageRectAtIndex_hit env r d K colorFormat left top right bottom hd hK]
  · rcases h with h | h
    · simp [getImageRectAtIndex, h]
    · exact getImageRectAtIndex_miss env r K colorFormat left top right bottom h
  · have himage : getImageRectAtIndex env r K colorFormat left top right bottom =
        getImageInternal env r K colorFormat false false
          (some ⟨left, top, right, bottom⟩) := by
      simp [getImageRectAtIndex, hempty]
    rw [himage] at h ⊢
    rcases getImageInternal_outcome env r K colorFormat false false
        (some ⟨left, top, right, bottom⟩) with ⟨_, h2⟩ | ⟨d, h1, _, _, _, hkind⟩
    · exact absurd ⟨by simp [h], rfl, rfl⟩ h2
    · refine ⟨d, hkind, by rw [h1]; rfl, by rw [h1]; rfl, ?_⟩
      exact getFrameAtIndex_hit env _ d K colorFormat metaOnly (by rw [h1]; rfl)
        (by rw [h1]; rfl)
  · have hvideo : getFrameAtIndex env r K colorFormat false =
        getFrameInternal env r K env.defs.SEEK_FRAME_INDEX colorFormat false := by
      simp [getFrameAtIndex, hempty]
    rw [hvideo] at h ⊢
    rcases getFrameInternal_outcome env r K env.defs.SEEK_FRAME_INDEX colorFormat false with
      ⟨_, _, h2⟩ | ⟨d, h1, h3, _, _, _, hkind⟩
    · exact absurd ⟨by simp [h], rfl, rfl⟩ h2
    · have hidx := h3.trans (toInt32_of_int K hlo hhi)
      refine ⟨d, hkind, h1, hidx, ?_⟩
      rw [getImageRectAtIndex_hit env _ d K colorFormat left top right bottom h1 hidx]

theorem cache_serves_other_kind_witness :
    (∃ d, d.kind = DecoderKind.MediaImageDecoder ∧
      (getImageRectAtIndex (exampleEnv none 5) boundRetriever 0 0 0 0 1 1).2.mDecoder = some d ∧
      (getImageRectAtIndex (exampleEnv none 5) boundRetriever 0 0 0 0 1 1).2.mLastDecodedIndex =
        0 ∧
      (getFrameAtIndex (exampleEnv none 5)
        (getImageRectAtIndex (exampleEnv none 5) boundRetriever 0 0 0 0 1 1).2
        (0 + 1) 0 false).1 = ((exampleEnv none 5).extractFrame d none).1) ∧
    (∃ d, d.kind = DecoderKind.VideoFrameDecoder ∧
      (getFrameAtIndex (exampleEnv none 5) boundRetriever 0 0 false).2.mDecoder = some d ∧
      (getFrameAtIndex (exampleEnv none 5) boundRetriever 0 0 false).2.mLastDecodedIndex = 0 ∧
      (getImageRectAtIndex (exampleEnv none 5)
        (getFrameAtIndex (exampleEnv none 5) boundRetriever 0 0 false).2 0 0 0 0 1 1).1 =
          ((exampleEnv none 5).extractFrame d (some ⟨0, 0, 1, 1⟩)).1) :=
  ⟨(cache_serves_other_kind (exampleEnv none 5) boundRetriever 0 0 0 0 1 1 false).2.2.2.1
      rfl ⟨1⟩ (by decide),
   (cache_serves_other_kind (exampleEnv none 5) boundRetriever 0 0 0 0 1 1 false).2.2.2.2
      rfl ⟨1⟩ (by decide) (by decide) (by decide)⟩

/-- A sequence of calls in which a decoder cached by getImageRectAtIndex at
index 0 serves getFrameAtIndex(1), and one in which a decoder cached by
getFrameAtIndex at frame 0 serves getImageRectAtIndex(0): in both the fast path
answers with the second output of the cached decoder (artifact 2), where the
full path, started from the same state, would have answered with the first
output of a newly built decoder (artifact 1). -/
theorem cache_serves_other_kind_counterexample :
    ((getImageRectAtIndex (exampleEnv none 5) boundRetriever 0 0 0 0 1 1).1 = some ⟨1⟩ ∧
      (getImageRectAtIndex (exampleEnv none 5) boundRetriever 0 0 0 0 1 1).2.mDecoder.map
        (fun d => (d.kind, d.trackMeta.findCString MetaKey.kKeyMIMEType)) =
          some (DecoderKind.MediaImageDecoder, some "image/jpeg") ∧
      (getFrameAtIndex (exampleEnv none 5)
        (getImageRectAtIndex (exampleEnv none 5) boundRetriever 0 0 0 0 1 1).2
        1 0 false).1 = some ⟨2⟩ ∧
      (getFrameInternal (exampleEnv none 5)
        (getImageRectAtIndex (exampleEnv none 5) boundRetriever 0 0 0 0 1 1).2
        1 androidDefs.SEEK_FRAME_INDEX 0 false).1 = some ⟨1⟩) ∧
    ((getFrameAtIndex (exampleEnv none 5) boundRetriever 0 0 false).1 = some ⟨1⟩ ∧
      (getFrameAtIndex (exampleEnv none 5) boundRetriever 0 0 false).2.mDecoder.map
        (fun d => (d.kind, d.trackMeta.findCString MetaKey.kKeyMIMEType)) =
          some (DecoderKind.VideoFrameDecoder, some "video/avc") ∧
      (getImageRectAtIndex (exampleEnv none 5)
        (getFrameAtIndex (exampleEnv none 5) boundRetriever 0 0 false).2 0 0 0 0 1 1).1 =
          some ⟨2⟩ ∧
      (getImageInternal (exampleEnv none 5)
        (getFrameAtIndex (exampleEnv none 5) boundRetriever 0 0 false).2 0 0 false false
        (some ⟨0, 0, 1, 1⟩)).1 = some ⟨1⟩) := by
  decide

end StagefrightMetadataRetriever
